import Mathlib

/-!
# ConnMan resolver (`src/resolver.c`): a shallow embedding

The module keeps two global lists, `entry_list` (the resolver entries) and
`resolvfile_list` (the entries mirrored into `/etc/resolv.conf`), and a flag
`dnsproxy_enabled` that selects the backend.  The embedding passes these
globals explicitly in a `State`; calls into collaborators (DNS proxy, service
store, the configuration file) are recorded in `State.trace`, and what the
collaborators answer is read from an `Env`.

Heap objects are records that carry their own address (`addr`); pointer
comparison (`g_slist_remove`, `g_list_remove`) compares addresses, and a write
through a pointer updates the record stored at that address.
-/

namespace Connman

/-! ## Constants and library functions -/

/-- Value of `EINVAL` in `<errno.h>`. -/
def EINVAL : Int := 22

/-- Value of `ENOENT` in `<errno.h>`. -/
def ENOENT : Int := 2

/-- Value of `ENOMEM` in `<errno.h>`. -/
def ENOMEM : Int := 12

/-- The `RESOLVER_FLAG_PUBLIC` bit, `(1 << 0)`. -/
def RESOLVER_FLAG_PUBLIC : Nat := 1

/-- GLib `g_strcmp0`: a `NULL`-tolerant `strcmp`; `NULL` sorts before every
string and equals only `NULL`, and two strings compare by their characters in
order.  Only the sign of the result is significant. -/
def g_strcmp0 (str1 str2 : Option String) : Int :=
  match str1, str2 with
  | none, none => 0
  | none, some _ => -1
  | some _, none => 1
  | some a, some b => if a = b then 0 else if a.data < b.data then -1 else 1

/-! ## Data model -/

/-- Resolver entry, `struct entry_data`; `timeout` is the GLib source id of
the expiry timer, `0` when the entry has none. -/
structure entry_data where
  addr : Nat
  interface : Option String
  domain : Option String
  server : Option String
  flags : Nat
  timeout : Nat
  deriving DecidableEq, Repr

/-- File entry, `struct resolvfile_entry`. -/
structure resolvfile_entry where
  addr : Nat
  interface : Option String
  domain : Option String
  server : Option String
  deriving DecidableEq, Repr

/-- An armed GLib timeout source created by `g_timeout_add_seconds`:
its source id, its interval in seconds and the `user_data` pointer handed to
`resolver_expire_cb` (the address of the entry). -/
structure timeout_source where
  id : Nat
  interval : Nat
  user_data : Nat
  deriving DecidableEq, Repr

/-- Calls into the collaborators, in the order they are made. -/
inductive Event where
  | dnsproxy_init
  | dnsproxy_cleanup
  | dnsproxy_flush
  | dnsproxy_append (interface domain server : Option String)
  | dnsproxy_remove (interface domain server : Option String)
  | service_nameserver_append (service : Nat) (server : Option String) (rolling : Bool)
  | service_nameserver_remove (service : Nat) (server : Option String) (rolling : Bool)
  | resolv_conf_export (content : String)
  deriving DecidableEq, Repr

/-- Outcome of the system calls of one `resolvfile_export`: `open`,
`ftruncate`, `write`.  A failure carries the (positive) `errno`. -/
inductive file_outcome where
  | ok
  | open_failed (errno : ℕ+)
  | ftruncate_failed (errno : ℕ+)
  | write_failed (errno : ℕ+)
  deriving DecidableEq

/-- What the world outside the module answers.

`MAXDNSRCH` and `MAXNS` are the limits of the system header `<resolv.h>`,
which is not part of the repository (glibc defines them as 6 and 3, see
`glibc_MAXDNSRCH`, `glibc_MAXNS`).  `connman_inet_ifindex` and
`service_lookup_from_index` are the interface-index resolver and the service
store; `dnsproxy_init` is the status of `__connman_dnsproxy_init`;
`fallback_nameservers` is what
`connman_setting_get_string_list("FallbackNameservers")` returns (`none` for
`NULL`); `alloc_ok n` tells whether the `n`-th `g_try_new0` of the run
succeeds; `export_outcome n` is the outcome of the system calls of the `n`-th
`resolvfile_export`. -/
structure Env where
  MAXDNSRCH : Nat
  MAXNS : Nat
  connman_inet_ifindex : Option String → Int
  service_lookup_from_index : Int → Option Nat
  dnsproxy_init : Int
  fallback_nameservers : Option (List String)
  alloc_ok : Nat → Bool
  export_outcome : Nat → file_outcome

/-- `MAXDNSRCH` as glibc's `<resolv.h>` defines it. -/
def glibc_MAXDNSRCH : Nat := 6

/-- `MAXNS` as glibc's `<resolv.h>` defines it. -/
def glibc_MAXNS : Nat := 3

/-- The module's globals together with the parts of the world it changes.

`sources` are the armed timeouts of the main loop, `source_count` the number
of sources created so far (`g_timeout_add_seconds` hands out
`source_count + 1`, never `0`), `alloc_count` the number of `g_try_new0`
calls so far (the next object gets this address), `resolv_conf` the content
of `/etc/resolv.conf` (`none` while the file does not exist), and
`export_count` the number of `resolvfile_export` calls so far.

An address stands for the identity of a heap object: it is not handed out
again after its object is freed.  The allocator of the program may hand a
freed address out again; the two differ only for a pointer that is kept to a
freed object, which is what the timers left armed by
`__connman_resolver_cleanup` hold (`timers_live` fails from then on). -/
structure State where
  entry_list : List entry_data
  resolvfile_list : List resolvfile_entry
  dnsproxy_enabled : Bool
  sources : List timeout_source
  source_count : Nat
  alloc_count : Nat
  resolv_conf : Option String
  export_count : Nat
  trace : List Event
  deriving DecidableEq

/-- The state at program start: `entry_list = NULL`, `resolvfile_list = NULL`,
`dnsproxy_enabled = FALSE`. -/
def State.initial : State :=
  { entry_list := [], resolvfile_list := [], dnsproxy_enabled := false,
    sources := [], source_count := 0, alloc_count := 0,
    resolv_conf := none, export_count := 0, trace := [] }

/-- GLib `g_slist_remove (list, data)`: unlink the first node whose data
pointer is `data`. -/
def g_slist_remove (list : List entry_data) (data : entry_data) : List entry_data :=
  list.eraseP (fun e => e.addr == data.addr)

/-- GLib `g_list_remove (list, data)`: unlink the first node whose data
pointer is `data`. -/
def g_list_remove (list : List resolvfile_entry) (data : resolvfile_entry) :
    List resolvfile_entry :=
  list.eraseP (fun e => e.addr == data.addr)

/-- GLib `g_source_remove (tag)`: destroy the source with that id; a tag that
names no source leaves the sources as they are. -/
def g_source_remove (s : State) (tag : Nat) : State :=
  { s with sources := s.sources.filter (fun src => src.id != tag) }

/-- GLib `g_timeout_add_seconds (interval, resolver_expire_cb, entry)`:
returns the id of the new source and the state in which it is armed. -/
def g_timeout_add_seconds (s : State) (interval : Nat) (user_data : Nat) : Nat × State :=
  (s.source_count + 1,
   { s with sources := s.sources ++ [⟨s.source_count + 1, interval, user_data⟩],
            source_count := s.source_count + 1 })

/-- Append one collaborator call to the trace. -/
def State.emit (s : State) (ev : Event) : State :=
  { s with trace := s.trace ++ [ev] }

/-! ## The resolv.conf store and writer -/

/-- `resolvfile_remove_entries`: unlink every collected entry from
`resolvfile_list` (and free it). -/
def resolvfile_remove_entries : List resolvfile_entry → State → State
  | [], s => s
  | entry :: rest, s =>
    resolvfile_remove_entries rest
      { s with resolvfile_list := g_list_remove s.resolvfile_list entry }

/-- First loop of `resolvfile_export`, lines 92-105.  `list` is the walk from
`g_list_last` along `g_list_previous`, so its head is the newest entry.
Returns the final `count` and the content. -/
def export_search_loop (maxdnsrch : Nat) :
    List resolvfile_entry → Nat → String → Nat × String
  | [], count, content => (count, content)
  | entry :: previous, count, content =>
    if count < maxdnsrch then
      match entry.domain with
      | none => export_search_loop maxdnsrch previous count content
      | some domain =>
        let content := if count = 0 then content ++ "search " else content
        export_search_loop maxdnsrch previous (count + 1) (content ++ (domain ++ " "))
    else (count, content)

/-- Second loop of `resolvfile_export`, lines 110-121. -/
def export_nameserver_loop (maxns : Nat) :
    List resolvfile_entry → Nat → String → Nat × String
  | [], count, content => (count, content)
  | entry :: previous, count, content =>
    if count < maxns then
      match entry.server with
      | none => export_nameserver_loop maxns previous count content
      | some server =>
        export_nameserver_loop maxns previous (count + 1)
          (content ++ ("nameserver " ++ server ++ "\n"))
    else (count, content)

/-- The header `resolvfile_export` starts the content with. -/
def export_header : String := "# Generated by Connection Manager\n"

/-- Content after the first loop and the `if (count)` that closes the search
line, lines 84-108 of `resolvfile_export`. -/
def export_search_section (maxdnsrch : Nat) (list : List resolvfile_entry) : String :=
  let r := export_search_loop maxdnsrch list.reverse 0 export_header
  if r.1 ≠ 0 then r.2 ++ "\n" else r.2

/-- The content `resolvfile_export` builds, lines 84-121. -/
def export_content (maxdnsrch maxns : Nat) (list : List resolvfile_entry) : String :=
  (export_nameserver_loop maxns list.reverse 0 (export_search_section maxdnsrch list)).2

/-- Status `resolvfile_export` returns for the outcome of its system calls. -/
def export_status : file_outcome → Int
  | .ok => 0
  | .open_failed e => -(e : Int)
  | .ftruncate_failed e => -(e : Int)
  | .write_failed e => -(e : Int)

/-- What `/etc/resolv.conf` holds after the system calls of one export:
a failed `open` leaves it alone, `O_CREAT` creates it empty, a failed
`ftruncate` keeps what it held, a failed `write` leaves it truncated. -/
def export_file (old : Option String) (content : String) : file_outcome → Option String
  | .ok => some content
  | .open_failed _ => old
  | .ftruncate_failed _ => some (old.getD "")
  | .write_failed _ => some ""

/-- `resolvfile_export`: build the content and write it, once. -/
def resolvfile_export (env : Env) (s : State) : Int × State :=
  let content := export_content env.MAXDNSRCH env.MAXNS s.resolvfile_list
  let outcome := env.export_outcome s.export_count
  (export_status outcome,
   { s with resolv_conf := export_file s.resolv_conf content outcome,
            export_count := s.export_count + 1,
            trace := s.trace ++ [Event.resolv_conf_export content] })

/-- `__connman_resolvfile_append`. -/
def __connman_resolvfile_append (env : Env) (interface domain server : Option String)
    (s : State) : Int × State :=
  if interface = none then (-ENOENT, s)
  else if env.alloc_ok s.alloc_count = false then
    (-ENOMEM, { s with alloc_count := s.alloc_count + 1 })
  else
    let entry : resolvfile_entry :=
      { addr := s.alloc_count, interface := interface, domain := domain, server := server }
    resolvfile_export env
      { s with alloc_count := s.alloc_count + 1,
               resolvfile_list := s.resolvfile_list ++ [entry] }

/-- The test of the loop in `__connman_resolvfile_remove`: `true` when the
entry is collected (none of the three `continue`s is taken). -/
def resolvfile_remove_match (interface domain server : Option String)
    (entry : resolvfile_entry) : Bool :=
  !(interface != none && g_strcmp0 entry.interface interface != 0) &&
  !(domain != none && g_strcmp0 entry.domain domain != 0) &&
  !(g_strcmp0 entry.server server != 0)

/-- `__connman_resolvfile_remove`. -/
def __connman_resolvfile_remove (env : Env) (interface domain server : Option String)
    (s : State) : Int × State :=
  let matches_ := s.resolvfile_list.filter (resolvfile_remove_match interface domain server)
  resolvfile_export env (resolvfile_remove_entries matches_ s)

/-! ## The entry store -/

/-- The backend call of `remove_entries`, lines 212-218: the DNS proxy when
it is enabled, the resolv.conf store otherwise (its status is dropped). -/
def backend_remove (env : Env) (interface domain server : Option String) (s : State) :
    State :=
  if s.dnsproxy_enabled = true then
    s.emit (Event.dnsproxy_remove interface domain server)
  else
    (__connman_resolvfile_remove env interface domain server s).2

/-- The backend call of `append_resolver`, lines 296-299. -/
def backend_append (env : Env) (interface domain server : Option String) (s : State) :
    State :=
  if s.dnsproxy_enabled = true then
    s.emit (Event.dnsproxy_append interface domain server)
  else
    (__connman_resolvfile_append env interface domain server s).2

/-- `remove_entries`: for every collected entry, unlink it from `entry_list`,
tell the backend, cancel its timer when it has one, free it. -/
def remove_entries (env : Env) : List entry_data → State → State
  | [], s => s
  | entry :: rest, s =>
    let s := { s with entry_list := g_slist_remove s.entry_list entry }
    let s := backend_remove env entry.interface entry.domain entry.server s
    let s := if entry.timeout ≠ 0 then g_source_remove s entry.timeout else s
    remove_entries env rest s

/-- The service notification shared by `resolver_expire_cb` (lines 242-249)
and `append_resolver` (lines 285-292): resolve the interface to an index and,
when the index is valid and a service is found for it, call the service. -/
def notify_service (env : Env) (interface : Option String)
    (call : Nat → Event) (s : State) : State :=
  let index := env.connman_inet_ifindex interface
  if 0 ≤ index then
    match env.service_lookup_from_index index with
    | some service => s.emit (call service)
    | none => s
  else s

/-- `resolver_expire_cb`: the timer callback.  Returns `FALSE`. -/
def resolver_expire_cb (env : Env) (entry : entry_data) (s : State) : Bool × State :=
  let list := [entry]
  let s := notify_service env entry.interface
    (fun service => Event.service_nameserver_remove service entry.server true) s
  (false, remove_entries env list s)

/-- GLib dispatching the armed timeout `src`: the callback runs on the entry
`user_data` points to, and the source is destroyed when the callback returns
`FALSE`.  The entry is looked up in the store, where every live entry is; a
source whose entry is no longer there points to freed memory, and a source
that is not armed is not dispatched: `none`.  What the program does with a
pointer to freed memory depends on what the allocator made of the address (it
runs the callback on whatever entry took the address); while `timers_live`
holds, which it does in every run without a cleanup under the resolv.conf
backend, every armed source finds its entry. -/
def timeout_dispatch (env : Env) (src : timeout_source) (s : State) : Option State :=
  if src ∈ s.sources then
    match s.entry_list.find? (fun e => e.addr == src.user_data) with
    | some entry =>
      let r := resolver_expire_cb env entry s
      some (if r.1 = true then r.2 else g_source_remove r.2 src.id)
    | none => none
  else none

/-- `append_resolver`: the internal append primitive. -/
def append_resolver (env : Env) (interface domain server : Option String)
    (lifetime flags : Nat) (s : State) : Int × State :=
  if server = none ∧ domain = none then (-EINVAL, s)
  else if env.alloc_ok s.alloc_count = false then
    (-ENOMEM, { s with alloc_count := s.alloc_count + 1 })
  else
    let addr := s.alloc_count
    let s := { s with alloc_count := s.alloc_count + 1 }
    let armed : Nat × State :=
      if lifetime ≠ 0 then
        let r := g_timeout_add_seconds s lifetime addr
        (r.1, notify_service env interface
          (fun service => Event.service_nameserver_append service server true) r.2)
      else (0, s)
    let entry : entry_data :=
      { addr := addr, interface := interface, domain := domain, server := server,
        flags := flags, timeout := armed.1 }
    let s := { armed.2 with entry_list := armed.2.entry_list ++ [entry] }
    (0, backend_append env interface domain server s)

/-- The test of the loop in `connman_resolver_append`: `true` when the entry
is collected (the `continue` is not taken). -/
def append_match (interface domain server : Option String) (entry : entry_data) : Bool :=
  !(decide (entry.timeout > 0) ||
    g_strcmp0 entry.interface interface != 0 ||
    g_strcmp0 entry.domain domain != 0 ||
    g_strcmp0 entry.server server != 0)

/-- `connman_resolver_append`. -/
def connman_resolver_append (env : Env) (interface domain server : Option String)
    (s : State) : Int × State :=
  if server = none ∧ domain = none then (-EINVAL, s)
  else
    let matches_ := s.entry_list.filter (append_match interface domain server)
    let s := if matches_ ≠ [] then remove_entries env matches_ s else s
    append_resolver env interface domain server 0 0 s

/-- The test of the loop in `connman_resolver_append_lifetime`: `true` when
the loop body goes past the `continue`. -/
def append_lifetime_match (interface domain server : Option String)
    (entry : entry_data) : Bool :=
  !(entry.timeout == 0 ||
    g_strcmp0 entry.interface interface != 0 ||
    g_strcmp0 entry.domain domain != 0 ||
    g_strcmp0 entry.server server != 0)

/-- The store `entry->timeout = tag` through the pointer `entry`. -/
def set_timeout (s : State) (entry : entry_data) (tag : Nat) : State :=
  { s with entry_list :=
      s.entry_list.map (fun e => if e.addr = entry.addr then { e with timeout := tag } else e) }

/-- `connman_resolver_append_lifetime`. -/
def connman_resolver_append_lifetime (env : Env) (interface domain server : Option String)
    (lifetime : Nat) (s : State) : Int × State :=
  if server = none then (-EINVAL, s)
  else
    match s.entry_list.find? (append_lifetime_match interface domain server) with
    | some entry =>
      let s := g_source_remove s entry.timeout
      if lifetime = 0 then
        (0, (resolver_expire_cb env entry s).2)
      else
        let r := g_timeout_add_seconds s lifetime entry.addr
        (0, set_timeout r.2 entry r.1)
    | none => append_resolver env interface domain server lifetime 0 s

/-- The test of the loop in `connman_resolver_remove`: `true` when the entry
is collected. -/
def remove_match (interface domain server : Option String) (entry : entry_data) : Bool :=
  !(interface != none && g_strcmp0 entry.interface interface != 0) &&
  !(domain != none && g_strcmp0 entry.domain domain != 0) &&
  !(g_strcmp0 entry.server server != 0)

/-- `connman_resolver_remove`. -/
def connman_resolver_remove (env : Env) (interface domain server : Option String)
    (s : State) : Int × State :=
  if server = none then (-EINVAL, s)
  else
    let matches_ := s.entry_list.filter (remove_match interface domain server)
    if matches_ = [] then (-ENOENT, s)
    else (0, remove_entries env matches_ s)

/-- The test of the loop in `connman_resolver_remove_all`. -/
def remove_all_match (interface : Option String) (entry : entry_data) : Bool :=
  !(g_strcmp0 entry.interface interface != 0)

/-- `connman_resolver_remove_all`. -/
def connman_resolver_remove_all (env : Env) (interface : Option String) (s : State) :
    Int × State :=
  if interface = none then (-EINVAL, s)
  else
    let matches_ := s.entry_list.filter (remove_all_match interface)
    if matches_ = [] then (-ENOENT, s)
    else (0, remove_entries env matches_ s)

/-- `connman_resolver_flush`. -/
def connman_resolver_flush (s : State) : State :=
  if s.dnsproxy_enabled = true then s.emit Event.dnsproxy_flush else s

/-- Loop of `__connman_resolver_redo_servers`, lines 483-499. -/
def redo_servers_loop (interface : Option String) : List entry_data → State → State
  | [], s => s
  | entry :: rest, s =>
    if entry.timeout = 0 ∨ g_strcmp0 entry.interface interface ≠ 0 then
      redo_servers_loop interface rest s
    else
      redo_servers_loop interface rest
        ((s.emit (Event.dnsproxy_remove entry.interface entry.domain entry.server)).emit
          (Event.dnsproxy_append entry.interface entry.domain entry.server))

/-- `__connman_resolver_redo_servers`. -/
def __connman_resolver_redo_servers (interface : Option String) (s : State) : Int × State :=
  if s.dnsproxy_enabled = false then (0, s)
  else if interface = none then (-EINVAL, s)
  else (0, redo_servers_loop interface s.entry_list s)

/-- Loop of `__connman_resolver_init`, lines 540-543; the status of
`append_resolver` is dropped. -/
def init_fallback_loop (env : Env) : List String → State → State
  | [], s => s
  | ns :: rest, s =>
    init_fallback_loop env rest
      (append_resolver env none none (some ns) 0 RESOLVER_FLAG_PUBLIC s).2

/-- `__connman_resolver_init`. -/
def __connman_resolver_init (env : Env) (dnsproxy : Bool) (s : State) : Int × State :=
  if dnsproxy = false then (0, s)
  else
    let s := s.emit Event.dnsproxy_init
    if env.dnsproxy_init < 0 then (0, s)
    else
      let s := { s with dnsproxy_enabled := true }
      match env.fallback_nameservers with
      | none => (0, s)
      | some ns => (0, init_fallback_loop env ns s)

/-- `__connman_resolver_cleanup`: under the DNS proxy only the collaborator is
torn down; otherwise both lists are freed and reset to `NULL`.  No timer is
touched. -/
def __connman_resolver_cleanup (s : State) : State :=
  if s.dnsproxy_enabled = true then s.emit Event.dnsproxy_cleanup
  else { s with resolvfile_list := [], entry_list := [] }

/-! ## Specification-side vocabulary -/

/-- The addresses of the entries in the store are pairwise distinct: every
node of `entry_list` points to an object of its own. -/
def addr_distinct (l : List entry_data) : Prop := (l.map (fun e => e.addr)).Nodup

instance (l : List entry_data) : Decidable (addr_distinct l) :=
  inferInstanceAs (Decidable ((l.map (fun (e : entry_data) => e.addr)).Nodup))

/-- The entry is non-expiring and carries exactly this triple. -/
def same_nonexpiring (interface domain server : Option String) (e : entry_data) : Prop :=
  e.timeout = 0 ∧ e.interface = interface ∧ e.domain = domain ∧ e.server = server

instance (i d sv : Option String) (e : entry_data) : Decidable (same_nonexpiring i d sv e) :=
  inferInstanceAs (Decidable (e.timeout = 0 ∧ e.interface = i ∧ e.domain = d ∧ e.server = sv))

/-- The entry is expiring (its timer is armed) and carries exactly this triple. -/
def same_expiring (interface domain server : Option String) (e : entry_data) : Prop :=
  e.timeout ≠ 0 ∧ e.interface = interface ∧ e.domain = domain ∧ e.server = server

instance (i d sv : Option String) (e : entry_data) : Decidable (same_expiring i d sv e) :=
  inferInstanceAs (Decidable (e.timeout ≠ 0 ∧ e.interface = i ∧ e.domain = d ∧ e.server = sv))

/-- The match rule of a remove request as the specification words it: the
server equals the requested one, and the interface and the domain equal the
requested ones when these are given. -/
def request_matches (interface domain : Option String) (server : String)
    (e : entry_data) : Prop :=
  e.server = some server ∧ (interface = none ∨ e.interface = interface) ∧
    (domain = none ∨ e.domain = domain)

instance (i d : Option String) (sv : String) (e : entry_data) :
    Decidable (request_matches i d sv e) :=
  inferInstanceAs (Decidable (e.server = some sv ∧ (i = none ∨ e.interface = i) ∧
    (d = none ∨ e.domain = d)))

/-- The calls `nameserverAppend(service, server, rolling = true)` the
specification asks for when an entry is created: one call iff the lifetime is
nonzero, the interface resolves to an index `>= 0` and a service exists for
that index; none otherwise. -/
def spec_service_append_calls (env : Env) (interface server : Option String)
    (lifetime : Nat) : List Event :=
  if lifetime ≠ 0 ∧ 0 ≤ env.connman_inet_ifindex interface then
    match env.service_lookup_from_index (env.connman_inet_ifindex interface) with
    | some service => [Event.service_nameserver_append service server true]
    | none => []
  else []

/-- Concatenation of text pieces, in order. -/
def concat_text : List String → String
  | [] => ""
  | piece :: rest => piece ++ concat_text rest

/-- The servers the specification selects for the file: those of the entries
that carry one, most recently appended first, at most `maxns` of them. -/
def spec_selected_servers (maxns : Nat) (list : List resolvfile_entry) : List String :=
  (list.reverse.filterMap (fun e => e.server)).take maxns

/-- The domains the specification selects for the file: those of the entries
that carry one, most recently appended first, at most `maxdnsrch` of them. -/
def spec_selected_domains (maxdnsrch : Nat) (list : List resolvfile_entry) : List String :=
  (list.reverse.filterMap (fun e => e.domain)).take maxdnsrch

/-- The `nameserver` line of one server. -/
def spec_nameserver_line (server : String) : String := "nameserver " ++ server ++ "\n"

/-- The `search` line of the specification: absent when no domain is
selected, otherwise `search`, the selected domains each followed by a space,
and the end of the line. -/
def spec_search_line (maxdnsrch : Nat) (list : List resolvfile_entry) : String :=
  if spec_selected_domains maxdnsrch list = [] then ""
  else "search " ++ concat_text ((spec_selected_domains maxdnsrch list).map (fun d => d ++ " "))
    ++ "\n"

/-! ## Sample inputs -/

/-- A world in which `eth0` has index 2 and a service (handle 7), no other
interface resolves, every allocation and every file write succeeds, and the
limits are glibc's. -/
def sample_env : Env :=
  { MAXDNSRCH := glibc_MAXDNSRCH, MAXNS := glibc_MAXNS,
    connman_inet_ifindex := fun i => if i = some "eth0" then 2 else -1,
    service_lookup_from_index := fun n => if n = 2 then some 7 else none,
    dnsproxy_init := 0,
    fallback_nameservers := some ["9.9.9.9"],
    alloc_ok := fun _ => true,
    export_outcome := fun _ => file_outcome.ok }

/-- The non-expiring entry `(eth0, -, 8.8.8.8)` of `sample_state`. -/
def sample_static : entry_data :=
  { addr := 0, interface := some "eth0", domain := none, server := some "8.8.8.8",
    flags := 0, timeout := 0 }

/-- The expiring entry `(eth0, -, 8.8.8.8)` of `sample_state`, timer 1. -/
def sample_expiring : entry_data :=
  { addr := 2, interface := some "eth0", domain := none, server := some "8.8.8.8",
    flags := 0, timeout := 1 }

/-- The non-expiring entry `(wlan0, lan, 1.1.1.1)` of `sample_state`. -/
def sample_wlan : entry_data :=
  { addr := 4, interface := some "wlan0", domain := some "lan", server := some "1.1.1.1",
    flags := 0, timeout := 0 }

/-- The state, under the resolv.conf backend, after
`connman_resolver_append("eth0", NULL, "8.8.8.8")`,
`connman_resolver_append_lifetime("eth0", NULL, "8.8.8.8", 60)` and
`connman_resolver_append("wlan0", "lan", "1.1.1.1")` from the initial state in
`sample_env`. -/
def sample_state : State :=
  { entry_list := [sample_static, sample_expiring, sample_wlan],
    resolvfile_list :=
      [{ addr := 1, interface := some "eth0", domain := none, server := some "8.8.8.8" },
       { addr := 3, interface := some "eth0", domain := none, server := some "8.8.8.8" },
       { addr := 5, interface := some "wlan0", domain := some "lan", server := some "1.1.1.1" }],
    dnsproxy_enabled := false,
    sources := [{ id := 1, interval := 60, user_data := 2 }],
    source_count := 1,
    alloc_count := 6,
    resolv_conf := some ("# Generated by Connection Manager\nsearch lan \n" ++
      "nameserver 1.1.1.1\nnameserver 8.8.8.8\nnameserver 8.8.8.8\n"),
    export_count := 3,
    trace :=
      [Event.resolv_conf_export "# Generated by Connection Manager\nnameserver 8.8.8.8\n",
       Event.service_nameserver_append 7 (some "8.8.8.8") true,
       Event.resolv_conf_export
         "# Generated by Connection Manager\nnameserver 8.8.8.8\nnameserver 8.8.8.8\n",
       Event.resolv_conf_export ("# Generated by Connection Manager\nsearch lan \n" ++
         "nameserver 1.1.1.1\nnameserver 8.8.8.8\nnameserver 8.8.8.8\n")] }

/-- The addresses of the file entries are pairwise distinct: every node of
`resolvfile_list` points to an object of its own. -/
def file_addr_distinct (l : List resolvfile_entry) : Prop :=
  (l.map (fun e => e.addr)).Nodup

instance (l : List resolvfile_entry) : Decidable (file_addr_distinct l) :=
  inferInstanceAs (Decidable ((l.map (fun (e : resolvfile_entry) => e.addr)).Nodup))

/-- The filter of `fileRemove` as the specification words it: every one of
the three fields is a wildcard when absent and must equal the entry's field
when given. -/
def spec_file_filter (interface domain server : Option String)
    (e : resolvfile_entry) : Prop :=
  (interface = none ∨ e.interface = interface) ∧ (domain = none ∨ e.domain = domain) ∧
    (server = none ∨ e.server = server)

instance (i d sv : Option String) (e : resolvfile_entry) :
    Decidable (spec_file_filter i d sv e) :=
  inferInstanceAs (Decidable ((i = none ∨ e.interface = i) ∧ (d = none ∨ e.domain = d) ∧
    (sv = none ∨ e.server = sv)))

/-- The filter `__connman_resolvfile_remove` applies: interface and domain
are wildcards when absent, the server always has to equal the entry's server
(an absent server equals only an absent server). -/
def file_filter (interface domain server : Option String) (e : resolvfile_entry) : Prop :=
  (interface = none ∨ e.interface = interface) ∧ (domain = none ∨ e.domain = domain) ∧
    e.server = server

instance (i d sv : Option String) (e : resolvfile_entry) :
    Decidable (file_filter i d sv e) :=
  inferInstanceAs (Decidable ((i = none ∨ e.interface = i) ∧ (d = none ∨ e.domain = d) ∧
    e.server = sv))

/-- The calls `nameserverRemove(service, server, rolling = true)` the
specification asks for when an entry expires: one call iff the interface
resolves to an index `>= 0` and a service exists for that index. -/
def spec_service_remove_calls (env : Env) (interface server : Option String) : List Event :=
  if 0 ≤ env.connman_inet_ifindex interface then
    match env.service_lookup_from_index (env.connman_inet_ifindex interface) with
    | some service => [Event.service_nameserver_remove service server true]
    | none => []
  else []

/-- The entries `init` creates for the fallback addresses, the first one at
address `addr`: no interface, no domain, the `Public` flag, no timer. -/
def spec_fallback_entries (addr : Nat) (ns : List String) : List entry_data :=
  (ns.enumFrom addr).map (fun p =>
    { addr := p.1, interface := none, domain := none, server := some p.2,
      flags := RESOLVER_FLAG_PUBLIC, timeout := 0 })

/-- The DNS proxy calls of `redoServers(interface)`: for every entry of the
store, in order, that is on the interface and has its timer armed, a remove
of its triple followed by an append of its triple. -/
def spec_redo_calls (interface : Option String) (l : List entry_data) : List Event :=
  (l.filter (fun e => e.timeout ≠ 0 ∧ e.interface = interface)).flatMap (fun e =>
    [Event.dnsproxy_remove e.interface e.domain e.server,
     Event.dnsproxy_append e.interface e.domain e.server])

/-! ## Runs of operations -/

/-- A request to the module: one of the public operations, or the main loop
dispatching an armed timer. -/
inductive Op where
  | init (dnsproxy : Bool)
  | append (interface domain server : Option String)
  | append_lifetime (interface domain server : Option String) (lifetime : Nat)
  | remove (interface domain server : Option String)
  | remove_all (interface : Option String)
  | expire (src : timeout_source)
  | flush
  | redo_servers (interface : Option String)
  | cleanup

/-- The state after one request; `none` when the request is the dispatch of a
timer that is not armed or whose entry has been freed. -/
def Op.run (env : Env) : Op → State → Option State
  | .init dnsproxy, s => some (__connman_resolver_init env dnsproxy s).2
  | .append i d sv, s => some (connman_resolver_append env i d sv s).2
  | .append_lifetime i d sv lifetime, s =>
    some (connman_resolver_append_lifetime env i d sv lifetime s).2
  | .remove i d sv, s => some (connman_resolver_remove env i d sv s).2
  | .remove_all i, s => some (connman_resolver_remove_all env i s).2
  | .expire src, s => timeout_dispatch env src s
  | .flush, s => some (connman_resolver_flush s)
  | .redo_servers i, s => some (__connman_resolver_redo_servers i s).2
  | .cleanup, s => some (__connman_resolver_cleanup s)

/-- The states reached from the program start by requests that `admitted`
lets through in the state they are made in. -/
inductive reachable (env : Env) (admitted : State → Op → Prop) : State → Prop where
  | start : reachable env admitted State.initial
  | step (s s' : State) (op : Op) : reachable env admitted s → admitted s op →
      op.run env s = some s' → reachable env admitted s'

/-- The requests of the uniqueness rule for non-expiring entries as the
specification words it: init, append, appendWithLifetime with any lifetime,
remove, removeAll and timer expiry, in any state. -/
def spec_unique_admitted (_ : State) : Op → Prop
  | .init _ => True
  | .append _ _ _ => True
  | .append_lifetime _ _ _ _ => True
  | .remove _ _ _ => True
  | .remove_all _ => True
  | .expire _ => True
  | _ => False

/-- The requests under which non-expiring entries stay unique: as
`spec_unique_admitted`, but init runs on an empty store with a fallback list
that names no address twice, and appendWithLifetime with lifetime 0 is made
only when an expiring entry of the triple is in the store. -/
def unique_admitted (env : Env) (s : State) : Op → Prop
  | .init _ => s.entry_list = [] ∧ (env.fallback_nameservers.getD []).Nodup
  | .append _ _ _ => True
  | .append_lifetime i d sv lifetime =>
    lifetime ≠ 0 ∨ ∃ e ∈ s.entry_list, same_expiring i d sv e
  | .remove _ _ _ => True
  | .remove_all _ => True
  | .expire _ => True
  | _ => False

/-- At most one non-expiring entry of every triple. -/
def nonexpiring_unique (l : List entry_data) : Prop :=
  ∀ interface domain server : Option String,
    l.countP (fun e => same_nonexpiring interface domain server e) ≤ 1

/-- The state after two `connman_resolver_append_lifetime("if0", NULL,
"8.8.8.8", 0)` from the program start in `sample_env`. -/
def twice_lifetime_zero : State :=
  (connman_resolver_append_lifetime sample_env (some "if0") none (some "8.8.8.8") 0
    (connman_resolver_append_lifetime sample_env (some "if0") none (some "8.8.8.8") 0
      State.initial).2).2

/-- The world of `sample_env` with a fallback list that names `9.9.9.9`
twice. -/
def twin_fallback_env : Env :=
  { sample_env with fallback_nameservers := some ["9.9.9.9", "9.9.9.9"] }

/-- The state, under the DNS proxy, after `__connman_resolver_init(TRUE)`,
`connman_resolver_append_lifetime("eth0", NULL, "8.8.8.8", 60)`,
`connman_resolver_append("eth0", NULL, "4.4.4.4")` and
`connman_resolver_append_lifetime("wlan0", NULL, "1.1.1.1", 30)` from the
initial state in `sample_env`. -/
def sample_proxy_state : State :=
  { entry_list :=
      [{ addr := 0, interface := none, domain := none, server := some "9.9.9.9",
         flags := 1, timeout := 0 },
       { addr := 1, interface := some "eth0", domain := none, server := some "8.8.8.8",
         flags := 0, timeout := 1 },
       { addr := 2, interface := some "eth0", domain := none, server := some "4.4.4.4",
         flags := 0, timeout := 0 },
       { addr := 3, interface := some "wlan0", domain := none, server := some "1.1.1.1",
         flags := 0, timeout := 2 }],
    resolvfile_list := [],
    dnsproxy_enabled := true,
    sources := [{ id := 1, interval := 60, user_data := 1 },
                { id := 2, interval := 30, user_data := 3 }],
    source_count := 2,
    alloc_count := 4,
    resolv_conf := none,
    export_count := 0,
    trace :=
      [Event.dnsproxy_init,
       Event.dnsproxy_append none none (some "9.9.9.9"),
       Event.service_nameserver_append 7 (some "8.8.8.8") true,
       Event.dnsproxy_append (some "eth0") none (some "8.8.8.8"),
       Event.dnsproxy_append (some "eth0") none (some "4.4.4.4"),
       Event.dnsproxy_append (some "wlan0") none (some "1.1.1.1")] }

/-- The part of the heap discipline the uniqueness rules rest on: the
store's objects are distinct, they all lie below the allocation counter, and
non-expiring entries are unique per triple. -/
def store_ok (s : State) : Prop :=
  addr_distinct s.entry_list ∧ (∀ e ∈ s.entry_list, e.addr < s.alloc_count) ∧
    nonexpiring_unique s.entry_list

/-- The state after `connman_resolver_append(NULL, NULL, "9.9.9.9")` and then
`__connman_resolver_init(TRUE)` from the program start in `sample_env`, whose
fallback list is `9.9.9.9`. -/
def init_after_append : State :=
  (__connman_resolver_init sample_env true
    (connman_resolver_append sample_env none none (some "9.9.9.9") State.initial).2).2

/-- Every armed timer points to an entry that is in the store. -/
def timers_live (s : State) : Prop :=
  ∀ src ∈ s.sources, ∃ e ∈ s.entry_list, e.addr = src.user_data

instance (s : State) : Decidable (timers_live s) :=
  inferInstanceAs (Decidable (∀ src ∈ s.sources, ∃ e ∈ s.entry_list, e.addr = src.user_data))

/-- The requests of the timer rule as the specification words it: append,
appendWithLifetime, remove, removeAll, timer expiry and cleanup. -/
def spec_timer_admitted (_ : State) : Op → Prop
  | .append _ _ _ => True
  | .append_lifetime _ _ _ _ => True
  | .remove _ _ _ => True
  | .remove_all _ => True
  | .expire _ => True
  | .cleanup => True
  | _ => False

/-- The collaborator a recorded call goes to, and which call it is. -/
inductive EventKind where
  | proxy_init
  | proxy_cleanup
  | proxy_flush
  | proxy_append
  | proxy_remove
  | service_append
  | service_remove
  | file_export
  deriving DecidableEq, Repr

/-- The kind of a recorded call. -/
def Event.kind : Event → EventKind
  | .dnsproxy_init => .proxy_init
  | .dnsproxy_cleanup => .proxy_cleanup
  | .dnsproxy_flush => .proxy_flush
  | .dnsproxy_append _ _ _ => .proxy_append
  | .dnsproxy_remove _ _ _ => .proxy_remove
  | .service_nameserver_append _ _ _ => .service_append
  | .service_nameserver_remove _ _ _ => .service_remove
  | .resolv_conf_export _ => .file_export

/-- The trace `t'` is `t` followed by calls whose kinds are all in `kinds`. -/
def trace_ext (kinds : List EventKind) (t t' : List Event) : Prop :=
  ∃ new, t' = t ++ new ∧ ∀ ev ∈ new, ev.kind ∈ kinds

/-- The routing table of the specification: the kinds of calls a request may
make, by the backend flag at the time of the request (`true`: DNS proxy).
Entry changes go to the DNS proxy or to the file, never to both; the service
is told of an append only by appendWithLifetime with a nonzero lifetime and of
a remove only by timer expiry and appendWithLifetime with lifetime 0. -/
def may_emit : Op → Bool → List EventKind
  | .init _, _ => [.proxy_init, .proxy_append]
  | .append _ _ _, true => [.proxy_remove, .proxy_append]
  | .append _ _ _, false => [.file_export]
  | .append_lifetime _ _ _ lifetime, true =>
    if lifetime = 0 then [.service_remove, .proxy_remove, .proxy_append]
    else [.service_append, .proxy_append]
  | .append_lifetime _ _ _ lifetime, false =>
    if lifetime = 0 then [.service_remove, .file_export]
    else [.service_append, .file_export]
  | .remove _ _ _, true => [.proxy_remove]
  | .remove _ _ _, false => [.file_export]
  | .remove_all _, true => [.proxy_remove]
  | .remove_all _, false => [.file_export]
  | .expire _, true => [.service_remove, .proxy_remove]
  | .expire _, false => [.service_remove, .file_export]
  | .flush, true => [.proxy_flush]
  | .flush, false => []
  | .redo_servers _, true => [.proxy_remove, .proxy_append]
  | .redo_servers _, false => []
  | .cleanup, true => [.proxy_cleanup]
  | .cleanup, false => []

/-- The state `append_resolver` is in after it has linked the new entry
(lines 268-294) and before it calls the backend: the entry is at the tail,
and for a nonzero lifetime its timer is armed and the service has been told. -/
def linked_state (env : Env) (interface domain server : Option String)
    (lifetime flags : Nat) (s : State) : State :=
  { s with
    alloc_count := s.alloc_count + 1,
    sources :=
      if lifetime = 0 then s.sources
      else s.sources ++ [⟨s.source_count + 1, lifetime, s.alloc_count⟩],
    source_count := if lifetime = 0 then s.source_count else s.source_count + 1,
    trace := s.trace ++ spec_service_append_calls env interface server lifetime,
    entry_list := s.entry_list ++
      [{ addr := s.alloc_count, interface := interface, domain := domain, server := server,
         flags := flags, timeout := if lifetime = 0 then 0 else s.source_count + 1 }] }

/-- Every request is let through, in every state. -/
def any_request (_ : State) (_ : Op) : Prop := True

/-- The store's objects are distinct and lie below the allocation counter. -/
def heap_ok (s : State) : Prop :=
  addr_distinct s.entry_list ∧ ∀ e ∈ s.entry_list, e.addr < s.alloc_count

/-- At most one expiring entry of every triple. -/
def expiring_unique (l : List entry_data) : Prop :=
  ∀ interface domain server : Option String,
    l.countP (fun e => same_expiring interface domain server e) ≤ 1

/-- The bookkeeping of timers: source ids are distinct, nonzero and handed
out already, sources point below the allocation counter, every entry with a
timer handle has the source of that id armed for it, and a source that points
to an entry of the store is the one the entry holds. -/
def timers_ok (s : State) : Prop :=
  (s.sources.map (fun src => src.id)).Nodup ∧
  (∀ src ∈ s.sources, src.id ≠ 0 ∧ src.id ≤ s.source_count ∧
    src.user_data < s.alloc_count) ∧
  (∀ x ∈ s.entry_list, x.timeout ≠ 0 →
    ∃ interval, (⟨x.timeout, interval, x.addr⟩ : timeout_source) ∈ s.sources) ∧
  (∀ src ∈ s.sources, ∀ x ∈ s.entry_list, src.user_data = x.addr → src.id = x.timeout)

/-- The invariant of runs: heap discipline, unique expiring entries, timer
bookkeeping. -/
def run_ok (s : State) : Prop :=
  heap_ok s ∧ expiring_unique s.entry_list ∧ timers_ok s

/-- How the store of `s'` relates to the store of `s` after a step: every
entry of `s'` either stands at the address of an entry of `s` and has a timer
handle iff that one has, or stands at an address handed out since `s`, and
then has a timer handle iff `armed`. -/
def store_shape (armed : Prop) (s s' : State) : Prop :=
  s.alloc_count ≤ s'.alloc_count ∧
  ∀ x' ∈ s'.entry_list,
    (∃ x ∈ s.entry_list, x.addr = x'.addr ∧ (x'.timeout ≠ 0 ↔ x.timeout ≠ 0)) ∨
    (s.alloc_count ≤ x'.addr ∧ (x'.timeout ≠ 0 ↔ armed))

/-- The request arms a timer for the entry it creates: it is an
appendWithLifetime with a nonzero lifetime. -/
def Op.arms : Op → Prop
  | .append_lifetime _ _ _ lifetime => lifetime ≠ 0
  | _ => False

/-- The triple (interface, domain, server) of an entry of the store. -/
def entry_data.triple (e : entry_data) : Option String × Option String × Option String :=
  (e.interface, e.domain, e.server)

/-- The triple (interface, domain, server) of a file entry. -/
def resolvfile_entry.triple (e : resolvfile_entry) :
    Option String × Option String × Option String :=
  (e.interface, e.domain, e.server)

/-- One of the four requests to the entry store, with its arguments. -/
inductive Request where
  | append (interface domain server : Option String)
  | append_lifetime (interface domain server : Option String) (lifetime : Nat)
  | remove (interface domain server : Option String)
  | remove_all (interface : Option String)

/-- The call a request stands for: return code and state afterwards. -/
def Request.call (env : Env) : Request → State → Int × State
  | .append i d sv, s => connman_resolver_append env i d sv s
  | .append_lifetime i d sv lifetime, s =>
    connman_resolver_append_lifetime env i d sv lifetime s
  | .remove i d sv, s => connman_resolver_remove env i d sv s
  | .remove_all i, s => connman_resolver_remove_all env i s

/-- The triple a request names; removeAll names an interface only. -/
def Request.triple : Request → Option String × Option String × Option String
  | .append i d sv => (i, d, sv)
  | .append_lifetime i d sv _ => (i, d, sv)
  | .remove i d sv => (i, d, sv)
  | .remove_all i => (i, none, none)

/-- The test a remove or removeAll request applies to the entries of the
store (`remove_match`, `remove_all_match`); the append requests have none. -/
def Request.matches_entry : Request → entry_data → Bool
  | .remove i d sv, e => remove_match i d sv e
  | .remove_all i, e => remove_all_match i e
  | _, _ => false

/-- An entry carrying the triple `t`. -/
def entry_of (t : Option String × Option String × Option String) : entry_data :=
  { addr := 0, interface := t.1, domain := t.2.1, server := t.2.2, flags := 0, timeout := 0 }

/-- Two requests do not conflict, as the specification words it: their
triples differ and neither a remove or removeAll request matches the triple
of the other request. -/
def spec_non_conflicting (a b : Request) : Prop :=
  a.triple ≠ b.triple ∧ a.matches_entry (entry_of b.triple) = false ∧
    b.matches_entry (entry_of a.triple) = false

instance (a b : Request) : Decidable (spec_non_conflicting a b) :=
  inferInstanceAs (Decidable (a.triple ≠ b.triple ∧
    a.matches_entry (entry_of b.triple) = false ∧ b.matches_entry (entry_of a.triple) = false))

/-- What counts of a live entry: its triple, and whether it is expiring. -/
def entry_data.live (e : entry_data) : (Option String × Option String × Option String) × Bool :=
  (e.triple, decide (e.timeout ≠ 0))

/-- The live entries as a multiset: triple plus expiring-or-not. -/
def live_entries (s : State) :
    Multiset ((Option String × Option String × Option String) × Bool) :=
  ↑(s.entry_list.map entry_data.live)

/-- The shape of what a request does to the multiset of live entries: it
unlinks the entries `del` selects, then links `add` unless the entry `probe`
was there; it answers `-ENOENT` when `rcdel` is set and nothing was selected,
and `rc` otherwise. -/
structure Effect where
  del : (Option String × Option String × Option String) × Bool → Bool
  probe : Option ((Option String × Option String × Option String) × Bool)
  add : Multiset ((Option String × Option String × Option String) × Bool)
  rcdel : Bool
  rc : Int

/-- What an effect links when applied to `M`. -/
def Effect.added (E : Effect)
    (M : Multiset ((Option String × Option String × Option String) × Bool)) :
    Multiset ((Option String × Option String × Option String) × Bool) :=
  match E.probe with
  | some k => if k ∈ M then 0 else E.add
  | none => E.add

/-- An effect applied to a multiset of live entries: return code and multiset
afterwards. -/
def Effect.apply (E : Effect)
    (M : Multiset ((Option String × Option String × Option String) × Bool)) :
    Int × Multiset ((Option String × Option String × Option String) × Bool) :=
  (if E.rcdel = true ∧ M.filter (fun x => E.del x = true) = 0 then -ENOENT else E.rc,
   M.filter (fun x => E.del x = false) + E.added M)

/-- The effect of a rejected request: nothing changes. -/
def Effect.idle (rc : Int) : Effect :=
  { del := fun _ => false, probe := none, add := 0, rcdel := false, rc := rc }

/-- The effect of each request on the multiset of live entries, in a state of
a run and when no allocation fails. -/
def Request.effect : Request → Effect
  | .append i d sv =>
    if sv = none ∧ d = none then Effect.idle (-EINVAL)
    else
      { del := fun x => decide (x = ((i, d, sv), false)), probe := none,
        add := {((i, d, sv), false)}, rcdel := false, rc := 0 }
  | .append_lifetime i d sv lifetime =>
    if sv = none then Effect.idle (-EINVAL)
    else
      { del := fun x => decide (lifetime = 0 ∧ x = ((i, d, sv), true)),
        probe := some ((i, d, sv), true),
        add := {((i, d, sv), decide (lifetime ≠ 0))}, rcdel := false, rc := 0 }
  | .remove i d sv =>
    if sv = none then Effect.idle (-EINVAL)
    else
      { del := fun x => remove_match i d sv (entry_of x.1), probe := none,
        add := 0, rcdel := true, rc := 0 }
  | .remove_all i =>
    if i = none then Effect.idle (-EINVAL)
    else
      { del := fun x => remove_all_match i (entry_of x.1), probe := none,
        add := 0, rcdel := true, rc := 0 }

/-- The entries a request may unlink, link or look for. -/
def Request.touches : Request → (Option String × Option String × Option String) × Bool → Prop
  | .append i d sv, x => x.1 = (i, d, sv)
  | .append_lifetime i d sv _, x => x.1 = (i, d, sv)
  | .remove i d sv, x => remove_match i d sv (entry_of x.1) = true
  | .remove_all i, x => remove_all_match i (entry_of x.1) = true

/-- The request is a remove or a removeAll. -/
def Request.is_remove : Request → Prop
  | .remove _ _ _ => True
  | .remove_all _ => True
  | _ => False

/-- A world like `sample_env` in which the very first allocation of the run
fails and every later one succeeds. -/
def scarce_env : Env := { sample_env with alloc_ok := fun k => decide (k ≠ 0) }

/-- A world like `sample_env` in which the allocation made in `sample_state`
(the seventh of the run) fails and every other one succeeds. -/
def sample_oom_env : Env := { sample_env with alloc_ok := fun k => decide (k ≠ 6) }

/-- The requests that detach no entry without cancelling its timer: every
request but the cleanup under the resolv.conf backend, which frees the entries
and leaves their timers armed. -/
def no_orphaning (s : State) : Op → Prop
  | .cleanup => s.dnsproxy_enabled = true
  | _ => True

/-! ## Basic facts -/

theorem g_strcmp0_eq_zero (a b : Option String) : g_strcmp0 a b = 0 ↔ a = b := by
  cases a <;> cases b <;> simp [g_strcmp0]
  split_ifs <;> simp_all

theorem append_match_iff (i d sv : Option String) (e : entry_data) :
    append_match i d sv e = true ↔ same_nonexpiring i d sv e := by
  simp [append_match, same_nonexpiring, g_strcmp0_eq_zero, and_assoc]

theorem append_lifetime_match_iff (i d sv : Option String) (e : entry_data) :
    append_lifetime_match i d sv e = true ↔ same_expiring i d sv e := by
  simp [append_lifetime_match, same_expiring, g_strcmp0_eq_zero, and_assoc]

theorem remove_match_iff (i d : Option String) (sv : String) (e : entry_data) :
    remove_match i d (some sv) e = true ↔ request_matches i d sv e := by
  simp only [remove_match, request_matches, Bool.and_eq_true, Bool.not_eq_true', bne_iff_ne,
    Bool.and_eq_false_imp, ne_eq, Bool.not_eq_true, bne_eq_false_iff_eq, g_strcmp0_eq_zero,
    Decidable.not_not]
  constructor
  · rintro ⟨⟨h1, h2⟩, h3⟩
    exact ⟨h3, by by_cases h : i = none <;> simp_all, by by_cases h : d = none <;> simp_all⟩
  · rintro ⟨h3, h1, h2⟩
    refine ⟨⟨fun h => ?_, fun h => ?_⟩, h3⟩
    · rcases h1 with h1 | h1
      · exact absurd h1 h
      · exact h1
    · rcases h2 with h2 | h2
      · exact absurd h2 h
      · exact h2

theorem remove_all_match_iff (i : Option String) (e : entry_data) :
    remove_all_match i e = true ↔ e.interface = i := by
  simp [remove_all_match, g_strcmp0_eq_zero]

/-- The sample state is the state the three calls named in its description
produce from the initial state. -/
theorem sample_state_reached :
    (connman_resolver_append sample_env (some "wlan0") (some "lan") (some "1.1.1.1")
      (connman_resolver_append_lifetime sample_env (some "eth0") none (some "8.8.8.8") 60
        (connman_resolver_append sample_env (some "eth0") none (some "8.8.8.8")
          State.initial).2).2).2 = sample_state := by
  decide

/-- The DNS proxy sample state is the state the four calls named in its
description produce from the initial state. -/
theorem sample_proxy_state_reached :
    (connman_resolver_append_lifetime sample_env (some "wlan0") none (some "1.1.1.1") 30
      (connman_resolver_append sample_env (some "eth0") none (some "4.4.4.4")
        (connman_resolver_append_lifetime sample_env (some "eth0") none (some "8.8.8.8") 60
          (__connman_resolver_init sample_env true State.initial).2).2).2).2 =
      sample_proxy_state := by
  decide

/-! ## Frame facts: what each step leaves alone -/

theorem resolvfile_remove_entries_eq (ms : List resolvfile_entry) (s : State) :
    resolvfile_remove_entries ms s =
      { s with resolvfile_list := ms.foldl g_list_remove s.resolvfile_list } := by
  induction ms generalizing s with
  | nil => rfl
  | cons m ms ih => simp [resolvfile_remove_entries, ih]

theorem backend_remove_entry_list (env : Env) (i d sv : Option String) (s : State) :
    (backend_remove env i d sv s).entry_list = s.entry_list := by
  unfold backend_remove
  split
  · rfl
  · simp [__connman_resolvfile_remove, resolvfile_export, resolvfile_remove_entries_eq]

theorem backend_remove_alloc_count (env : Env) (i d sv : Option String) (s : State) :
    (backend_remove env i d sv s).alloc_count = s.alloc_count := by
  unfold backend_remove
  split
  · rfl
  · simp [__connman_resolvfile_remove, resolvfile_export, resolvfile_remove_entries_eq]

theorem backend_append_entry_list (env : Env) (i d sv : Option String) (s : State) :
    (backend_append env i d sv s).entry_list = s.entry_list := by
  unfold backend_append __connman_resolvfile_append
  split
  · rfl
  · split_ifs <;> simp [resolvfile_export]

theorem remove_entries_entry_list (env : Env) (ms : List entry_data) (s : State) :
    (remove_entries env ms s).entry_list = ms.foldl g_slist_remove s.entry_list := by
  induction ms generalizing s with
  | nil => rfl
  | cons m ms ih =>
    simp only [remove_entries, List.foldl_cons]
    rw [ih]
    split_ifs <;> simp [g_source_remove, backend_remove_entry_list]

theorem remove_entries_alloc_count (env : Env) (ms : List entry_data) (s : State) :
    (remove_entries env ms s).alloc_count = s.alloc_count := by
  induction ms generalizing s with
  | nil => rfl
  | cons m ms ih =>
    simp only [remove_entries]
    rw [ih]
    split_ifs <;> simp [g_source_remove, backend_remove_alloc_count]

/-! ## Two-phase removal: collect, then unlink -/

theorem foldl_remove_cons_of_ne (x : entry_data) (ms l : List entry_data)
    (h : ∀ m ∈ ms, m.addr ≠ x.addr) :
    ms.foldl g_slist_remove (x :: l) = x :: ms.foldl g_slist_remove l := by
  induction ms generalizing l with
  | nil => rfl
  | cons m ms ih =>
    have hm : x.addr ≠ m.addr := fun e => h m (List.mem_cons_self _ _) e.symm
    have : g_slist_remove (x :: l) m = x :: g_slist_remove l m := by
      simp [g_slist_remove, List.eraseP_cons, hm]
    simp only [List.foldl_cons, this]
    exact ih _ (fun m' hm' => h m' (List.mem_cons_of_mem _ hm'))

/-- Unlinking, one by one, the entries collected by a test leaves exactly the
entries that fail the test, in their order. -/
theorem foldl_remove_filter (p : entry_data → Bool) (l : List entry_data)
    (h : addr_distinct l) :
    (l.filter p).foldl g_slist_remove l = l.filter (fun e => !p e) := by
  induction l with
  | nil => rfl
  | cons x l ih =>
    have hx : ∀ m ∈ l, m.addr ≠ x.addr := by
      intro m hm e
      have : x.addr ∉ l.map (fun e => e.addr) := (List.nodup_cons.mp h).1
      exact this (List.mem_map.mpr ⟨m, hm, e⟩)
    have hl : addr_distinct l := (List.nodup_cons.mp h).2
    by_cases hp : p x = true
    · simp [List.filter_cons, hp, g_slist_remove, ih hl]
    · have hp2 : p x = false := by simpa using hp
      simp only [List.filter_cons, hp2, Bool.false_eq_true, if_false, Bool.not_false, if_true]
      rw [foldl_remove_cons_of_ne x _ l (fun m hm => hx m (List.mem_filter.mp hm).1), ih hl]

theorem remove_entries_filter (env : Env) (p : entry_data → Bool) (s : State)
    (h : addr_distinct s.entry_list) :
    (remove_entries env (s.entry_list.filter p) s).entry_list =
      s.entry_list.filter (fun e => !p e) := by
  rw [remove_entries_entry_list, foldl_remove_filter p _ h]

/-! ## Unfolding the append path -/

theorem connman_resolver_append_eq (env : Env) (interface domain server : Option String)
    (s : State) (hv : ¬ (server = none ∧ domain = none)) :
    connman_resolver_append env interface domain server s =
      append_resolver env interface domain server 0 0
        (remove_entries env (s.entry_list.filter (append_match interface domain server)) s) := by
  have hrem : (if s.entry_list.filter (append_match interface domain server) ≠ [] then
      remove_entries env (s.entry_list.filter (append_match interface domain server)) s
      else s) =
      remove_entries env (s.entry_list.filter (append_match interface domain server)) s := by
    split_ifs with h
    · rfl
    · rw [not_not.mp h]; rfl
  simp only [connman_resolver_append, hv, if_false, hrem]

theorem append_resolver_nonexpiring_eq (env : Env) (interface domain server : Option String)
    (flags : Nat) (s : State) (hv : ¬ (server = none ∧ domain = none))
    (halloc : env.alloc_ok s.alloc_count = true) :
    append_resolver env interface domain server 0 flags s =
      (0, backend_append env interface domain server
        { s with alloc_count := s.alloc_count + 1,
                 entry_list := s.entry_list ++
                   [{ addr := s.alloc_count, interface := interface, domain := domain,
                      server := server, flags := flags, timeout := 0 }] }) := by
  simp only [append_resolver, hv, if_false, halloc, Bool.true_eq_false, ne_eq,
    not_true_eq_false]

theorem filter_not_remove_match (interface domain : Option String) (server : String)
    (l : List entry_data) :
    l.filter (fun e => !remove_match interface domain (some server) e) =
      l.filter (fun e => ¬ request_matches interface domain server e) := by
  apply List.filter_congr
  intro e _
  by_cases h : request_matches interface domain server e
  · simp [h, (remove_match_iff interface domain server e).mpr h]
  · have : remove_match interface domain (some server) e = false := by
      simpa using fun h2 => h ((remove_match_iff interface domain server e).mp h2)
    simp [h, this]

theorem filter_remove_match_eq_nil (interface domain : Option String) (server : String)
    (l : List entry_data) :
    l.filter (remove_match interface domain (some server)) = [] ↔
      ∀ e ∈ l, ¬ request_matches interface domain server e := by
  rw [List.filter_eq_nil_iff]
  exact forall₂_congr fun e _ => not_congr (remove_match_iff interface domain server e)

theorem filter_remove_all_match_eq_nil (interface : Option String) (l : List entry_data) :
    l.filter (remove_all_match interface) = [] ↔ ∀ e ∈ l, e.interface ≠ interface := by
  rw [List.filter_eq_nil_iff]
  exact forall₂_congr fun e _ => not_congr (remove_all_match_iff interface e)

/-- C2: a `connman_resolver_remove` request with a server that matches at
least one entry returns 0 and leaves the store as the old store without the
matching entries, the others in their old order; an entry matches when its
server is the requested one and its interface and domain are the requested
ones where the request gives them.  The store's objects are distinct. -/
theorem remove_deletes_matching (env : Env) (interface domain : Option String)
    (server : String) (s : State) (hdistinct : addr_distinct s.entry_list)
    (hmatch : ∃ e ∈ s.entry_list, request_matches interface domain server e) :
    (connman_resolver_remove env interface domain (some server) s).1 = 0 ∧
    (connman_resolver_remove env interface domain (some server) s).2.entry_list =
      s.entry_list.filter (fun e => ¬ request_matches interface domain server e) := by
  have hne : ¬ s.entry_list.filter (remove_match interface domain (some server)) = [] := by
    rw [filter_remove_match_eq_nil]
    obtain ⟨e, he, hm⟩ := hmatch
    exact fun h => h e he hm
  simp only [connman_resolver_remove, hne, if_false, reduceCtorEq,
    remove_entries_filter env _ s hdistinct, filter_not_remove_match, and_self]

/-- Witness of C2 on `sample_state`: removing server `8.8.8.8` with interface
and domain left open deletes both `eth0` entries, expiring or not. -/
theorem remove_deletes_matching_witness :
    (connman_resolver_remove sample_env none none (some "8.8.8.8") sample_state).1 = 0 ∧
    (connman_resolver_remove sample_env none none (some "8.8.8.8") sample_state).2.entry_list =
      [sample_wlan] :=
  ⟨(remove_deletes_matching sample_env none none "8.8.8.8" sample_state (by decide)
      ⟨sample_static, by decide, by decide⟩).1,
   (remove_deletes_matching sample_env none none "8.8.8.8" sample_state (by decide)
      ⟨sample_static, by decide, by decide⟩).2.trans (by decide)⟩

/-- C3: `connman_resolver_remove_all` on an interface that has at least one
entry returns 0 and leaves the store as the old store without the entries of
that interface; entries of other interfaces and entries without an interface
stay, in their old order, and no entry of the interface is left.  The store's
objects are distinct. -/
theorem remove_all_deletes_interface (env : Env) (interface : String) (s : State)
    (hdistinct : addr_distinct s.entry_list)
    (hmatch : ∃ e ∈ s.entry_list, e.interface = some interface) :
    (connman_resolver_remove_all env (some interface) s).1 = 0 ∧
    (connman_resolver_remove_all env (some interface) s).2.entry_list =
      s.entry_list.filter (fun e => e.interface ≠ some interface) ∧
    ∀ e ∈ (connman_resolver_remove_all env (some interface) s).2.entry_list,
      e.interface ≠ some interface := by
  have hne : ¬ s.entry_list.filter (remove_all_match (some interface)) = [] := by
    rw [filter_remove_all_match_eq_nil]
    obtain ⟨e, he, hm⟩ := hmatch
    exact fun h => h e he hm
  have hf : s.entry_list.filter (fun e => !remove_all_match (some interface) e) =
      s.entry_list.filter (fun e => e.interface ≠ some interface) := by
    apply List.filter_congr
    intro e _
    by_cases h : e.interface = some interface
    · simp [h, (remove_all_match_iff (some interface) e).mpr h]
    · have : remove_all_match (some interface) e = false := by
        simpa using fun h2 => h ((remove_all_match_iff (some interface) e).mp h2)
      simp [h, this]
  have hlist : (connman_resolver_remove_all env (some interface) s).2.entry_list =
      s.entry_list.filter (fun e => e.interface ≠ some interface) := by
    simp only [connman_resolver_remove_all, hne, if_false, reduceCtorEq,
      remove_entries_filter env _ s hdistinct, hf]
  refine ⟨by simp only [connman_resolver_remove_all, hne, if_false, reduceCtorEq], hlist, ?_⟩
  intro e he
  rw [hlist] at he
  simpa using (List.mem_filter.mp he).2

/-- Witness of C3 on `sample_state`: removing all of `eth0` leaves the `wlan0`
entry. -/
theorem remove_all_deletes_interface_witness :
    (connman_resolver_remove_all sample_env (some "eth0") sample_state).1 = 0 ∧
    (connman_resolver_remove_all sample_env (some "eth0") sample_state).2.entry_list =
      [sample_wlan] :=
  ⟨(remove_all_deletes_interface sample_env "eth0" sample_state (by decide)
      ⟨sample_static, by decide, by decide⟩).1,
   (remove_all_deletes_interface sample_env "eth0" sample_state (by decide)
      ⟨sample_static, by decide, by decide⟩).2.1.trans (by decide)⟩

/-- C4: with the server given, `connman_resolver_remove` returns `-ENOENT`
exactly when no entry matches the request, and with the interface given,
`connman_resolver_remove_all` returns `-ENOENT` exactly when no entry is on
that interface; in that case the whole state (both stores, the timers, the
file, the calls made) is the state before the call. -/
theorem remove_not_found_iff (env : Env) (interface domain : Option String)
    (server ifname : String) (s : State) :
    ((connman_resolver_remove env interface domain (some server) s).1 = -ENOENT ↔
      ∀ e ∈ s.entry_list, ¬ request_matches interface domain server e) ∧
    ((∀ e ∈ s.entry_list, ¬ request_matches interface domain server e) →
      connman_resolver_remove env interface domain (some server) s = (-ENOENT, s)) ∧
    ((connman_resolver_remove_all env (some ifname) s).1 = -ENOENT ↔
      ∀ e ∈ s.entry_list, e.interface ≠ some ifname) ∧
    ((∀ e ∈ s.entry_list, e.interface ≠ some ifname) →
      connman_resolver_remove_all env (some ifname) s = (-ENOENT, s)) := by
  refine ⟨?_, ?_, ?_, ?_⟩
  · rw [← filter_remove_match_eq_nil]
    by_cases h : s.entry_list.filter (remove_match interface domain (some server)) = []
    · simp [connman_resolver_remove, h]
    · simp [connman_resolver_remove, h, ENOENT]
  · intro h
    rw [← filter_remove_match_eq_nil] at h
    simp [connman_resolver_remove, h]
  · rw [← filter_remove_all_match_eq_nil]
    by_cases h : s.entry_list.filter (remove_all_match (some ifname)) = []
    · simp [connman_resolver_remove_all, h]
    · simp [connman_resolver_remove_all, h, ENOENT]
  · intro h
    rw [← filter_remove_all_match_eq_nil] at h
    simp [connman_resolver_remove_all, h]

/-- C5: argument validation.  `connman_resolver_append` returns `-EINVAL`
exactly when domain and server are both absent,
`connman_resolver_append_lifetime` and `connman_resolver_remove` exactly when
the server is absent, `connman_resolver_remove_all` exactly when the interface
is absent; and a call rejected this way returns the state it was given: no
store, timer or file changes and no collaborator is called. -/
theorem invalid_argument_iff (env : Env) (interface domain server : Option String)
    (lifetime : Nat) (s : State) :
    ((connman_resolver_append env interface domain server s).1 = -EINVAL ↔
      (domain = none ∧ server = none)) ∧
    ((domain = none ∧ server = none) →
      connman_resolver_append env interface domain server s = (-EINVAL, s)) ∧
    ((connman_resolver_append_lifetime env interface domain server lifetime s).1 = -EINVAL ↔
      server = none) ∧
    (server = none →
      connman_resolver_append_lifetime env interface domain server lifetime s = (-EINVAL, s)) ∧
    ((connman_resolver_remove env interface domain server s).1 = -EINVAL ↔ server = none) ∧
    (server = none →
      connman_resolver_remove env interface domain server s = (-EINVAL, s)) ∧
    ((connman_resolver_remove_all env interface s).1 = -EINVAL ↔ interface = none) ∧
    (interface = none → connman_resolver_remove_all env interface s = (-EINVAL, s)) := by
  refine ⟨?_, ?_, ?_, ?_, ?_, ?_, ?_, ?_⟩
  · by_cases hv : server = none ∧ domain = none
    · simp [connman_resolver_append, hv]
    · have hv2 : ¬ (domain = none ∧ server = none) := fun h => hv ⟨h.2, h.1⟩
      rw [connman_resolver_append_eq env interface domain server s hv]
      simp only [append_resolver, hv, if_false, hv2, iff_false]
      split_ifs <;> simp [EINVAL, ENOMEM]
  · rintro ⟨h1, h2⟩
    simp [connman_resolver_append, h1, h2]
  · by_cases hs : server = none
    · simp [connman_resolver_append_lifetime, hs]
    · simp only [connman_resolver_append_lifetime, hs, if_false, iff_false]
      split
      · split_ifs <;> simp [EINVAL]
      · simp only [append_resolver, hs, false_and, if_false]
        split_ifs <;> simp [EINVAL, ENOMEM]
  · intro hs
    simp [connman_resolver_append_lifetime, hs]
  · by_cases hs : server = none
    · simp [connman_resolver_remove, hs]
    · simp only [connman_resolver_remove, hs, if_false, iff_false]
      split_ifs <;> simp [EINVAL, ENOENT]
  · intro hs
    simp [connman_resolver_remove, hs]
  · by_cases hi : interface = none
    · simp [connman_resolver_remove_all, hi]
    · simp only [connman_resolver_remove_all, hi, if_false, iff_false]
      split_ifs <;> simp [EINVAL, ENOENT]
  · intro hi
    simp [connman_resolver_remove_all, hi]

/-! ## Expiry and re-arming -/

theorem notify_service_source_remove (env : Env) (i : Option String) (call : Nat → Event)
    (s : State) (t : Nat) :
    notify_service env i call (g_source_remove s t) =
      g_source_remove (notify_service env i call s) t := by
  unfold notify_service
  simp only
  split_ifs
  · split <;> rfl
  · rfl

theorem backend_remove_source_remove (env : Env) (i d sv : Option String) (s : State)
    (t : Nat) :
    backend_remove env i d sv (g_source_remove s t) =
      g_source_remove (backend_remove env i d sv s) t := by
  unfold backend_remove
  by_cases h : s.dnsproxy_enabled = true
  · simp [h, g_source_remove, State.emit]
  · simp [h, g_source_remove, __connman_resolvfile_remove, resolvfile_export,
      resolvfile_remove_entries_eq]

theorem g_source_remove_idem (s : State) (t : Nat) :
    g_source_remove (g_source_remove s t) t = g_source_remove s t := by
  simp [g_source_remove, List.filter_filter]

theorem remove_entries_single (env : Env) (e : entry_data) (s : State) (h : e.timeout ≠ 0) :
    remove_entries env [e] s =
      g_source_remove
        (backend_remove env e.interface e.domain e.server
          { s with entry_list := g_slist_remove s.entry_list e }) e.timeout := by
  simp [remove_entries, h]

theorem resolver_expire_cb_source_remove (env : Env) (e : entry_data) (s : State)
    (h : e.timeout ≠ 0) :
    (resolver_expire_cb env e (g_source_remove s e.timeout)).2 =
      (resolver_expire_cb env e s).2 := by
  simp only [resolver_expire_cb, remove_entries_single env e _ h, notify_service_source_remove]
  have : ∀ s' : State,
      ({ g_source_remove s' e.timeout with
          entry_list := g_slist_remove (g_source_remove s' e.timeout).entry_list e } : State) =
      g_source_remove { s' with entry_list := g_slist_remove s'.entry_list e } e.timeout :=
    fun _ => rfl
  rw [this, backend_remove_source_remove, g_source_remove_idem]

theorem find_unique (p : entry_data → Bool) (l : List entry_data) (e : entry_data)
    (he : e ∈ l) (hp : p e = true) (hu : ∀ x ∈ l, p x = true → x = e) :
    l.find? p = some e := by
  cases hfind : l.find? p with
  | none => exact absurd hp (by simpa using (List.find?_eq_none.mp hfind) e he)
  | some x =>
    rw [hu x (List.mem_of_find?_eq_some hfind) (List.find?_some hfind)]

theorem g_slist_remove_eq_filter (l : List entry_data) (e : entry_data)
    (h : addr_distinct l) (he : e ∈ l) :
    g_slist_remove l e = l.filter (fun x => x ≠ e) := by
  induction l with
  | nil => rfl
  | cons x l ih =>
    have hx : x.addr ∉ l.map (fun e => e.addr) := (List.nodup_cons.mp h).1
    have hl : addr_distinct l := (List.nodup_cons.mp h).2
    by_cases hxe : x = e
    · subst hxe
      have : l.filter (fun y => y ≠ x) = l := by
        rw [List.filter_eq_self]
        intro y hy
        have : y ≠ x := fun e => hx (List.mem_map.mpr ⟨y, hy, by rw [e]⟩)
        simpa using this
      have h1 : g_slist_remove (x :: l) x = l := by simp [g_slist_remove]
      rw [h1, List.filter_cons]
      simp only [ne_eq, not_true_eq_false, decide_False, Bool.false_eq_true, if_false] at this ⊢
      exact this.symm
    · have he2 : e ∈ l := by
        rcases List.mem_cons.mp he with h1 | h1
        · exact absurd h1.symm hxe
        · exact h1
      have hne : x.addr ≠ e.addr := fun h1 => hx (List.mem_map.mpr ⟨e, he2, h1.symm⟩)
      have := ih hl he2
      simp only [g_slist_remove] at this
      simp [g_slist_remove, List.eraseP_cons, hne, List.filter_cons, hxe, this]

theorem find_by_addr (l : List entry_data) (e : entry_data) (h : addr_distinct l)
    (he : e ∈ l) : l.find? (fun x => x.addr == e.addr) = some e := by
  apply find_unique _ _ e he (by simp)
  intro x hx hp
  exact List.inj_on_of_nodup_map h hx he (by simpa using hp)

/-- The expiry seen from the main loop: dispatching the armed timer of
an entry of the store ends in the state `resolver_expire_cb` ends in. -/
theorem timeout_dispatch_eq_expire (env : Env) (s : State) (e : entry_data) (interval : Nat)
    (hdistinct : addr_distinct s.entry_list) (he : e ∈ s.entry_list) (ht : e.timeout ≠ 0)
    (hsrc : (⟨e.timeout, interval, e.addr⟩ : timeout_source) ∈ s.sources) :
    timeout_dispatch env ⟨e.timeout, interval, e.addr⟩ s =
      some (resolver_expire_cb env e s).2 := by
  simp only [timeout_dispatch, hsrc, if_true, find_by_addr _ e hdistinct he]
  simp only [resolver_expire_cb, Bool.false_eq_true, if_false, remove_entries_single env e _ ht,
    g_source_remove_idem]

/-- C6: in a state that holds an expiring entry `e` of the triple (the only
expiring entry of that triple), `connman_resolver_append_lifetime` with
lifetime 0 returns 0 and ends in exactly the state `resolver_expire_cb` on `e`
ends in, calls made included; in that state `e` is gone from the store, every
other entry is kept in order and nothing is added, and the callback answers
`FALSE`.  When the main loop dispatches the armed timer of `e` it ends in the
same state.  The store's objects are distinct. -/
theorem append_lifetime_zero_is_expiry (env : Env) (interface domain : Option String)
    (server : String) (s : State) (e : entry_data)
    (hdistinct : addr_distinct s.entry_list) (he : e ∈ s.entry_list)
    (hexp : same_expiring interface domain (some server) e)
    (hunique : ∀ x ∈ s.entry_list, same_expiring interface domain (some server) x → x = e) :
    connman_resolver_append_lifetime env interface domain (some server) 0 s =
      (0, (resolver_expire_cb env e s).2) ∧
    (resolver_expire_cb env e s).1 = false ∧
    (resolver_expire_cb env e s).2.entry_list = s.entry_list.filter (fun x => x ≠ e) ∧
    (∀ interval, (⟨e.timeout, interval, e.addr⟩ : timeout_source) ∈ s.sources →
      timeout_dispatch env ⟨e.timeout, interval, e.addr⟩ s =
        some (resolver_expire_cb env e s).2) := by
  have hfind : s.entry_list.find? (append_lifetime_match interface domain (some server)) =
      some e :=
    find_unique _ _ e he ((append_lifetime_match_iff _ _ _ e).mpr hexp)
      (fun x hx hp => hunique x hx ((append_lifetime_match_iff _ _ _ x).mp hp))
  refine ⟨?_, rfl, ?_, fun interval hsrc =>
    timeout_dispatch_eq_expire env s e interval hdistinct he hexp.1 hsrc⟩
  · simp only [connman_resolver_append_lifetime, reduceCtorEq, if_false, hfind, if_true,
      resolver_expire_cb_source_remove env e s hexp.1]
  · simp only [resolver_expire_cb, remove_entries_entry_list, List.foldl_cons, List.foldl_nil]
    have : (notify_service env e.interface
        (fun service => Event.service_nameserver_remove service e.server true) s).entry_list =
        s.entry_list := by
      unfold notify_service
      simp only
      split_ifs
      · split <;> rfl
      · rfl
    rw [this, g_slist_remove_eq_filter _ _ hdistinct he]

/-- Witness of C6 on `sample_state`: lifetime 0 on the expiring
`(eth0, -, 8.8.8.8)` ends where the expiry of that entry ends, with the entry
gone from the store. -/
theorem append_lifetime_zero_is_expiry_witness :
    connman_resolver_append_lifetime sample_env (some "eth0") none (some "8.8.8.8") 0
        sample_state =
      (0, (resolver_expire_cb sample_env sample_expiring sample_state).2) ∧
    (resolver_expire_cb sample_env sample_expiring sample_state).2.entry_list =
      [sample_static, sample_wlan] :=
  ⟨(append_lifetime_zero_is_expiry sample_env (some "eth0") none "8.8.8.8" sample_state
      sample_expiring (by decide) (by decide) (by decide) (by decide)).1,
   (append_lifetime_zero_is_expiry sample_env (some "eth0") none "8.8.8.8" sample_state
      sample_expiring (by decide) (by decide) (by decide) (by decide)).2.2.1.trans
      (by decide)⟩

/-- C7: in a state that holds an expiring entry of the triple,
`connman_resolver_append_lifetime` with a lifetime above 0 returns 0 and only
re-arms: the source of the first such entry `e` is destroyed, a new source
with the new lifetime is armed for `e`, `e.timeout` becomes the new source id,
and nothing else changes; the store keeps its entries, order and length, no
other entry and no other source changes, and neither the file store, the file
nor the trace of collaborator calls changes.  The store's objects are
distinct. -/
theorem append_lifetime_rearms (env : Env) (interface domain : Option String)
    (server : String) (lifetime : Nat) (s : State) (e : entry_data)
    (hdistinct : addr_distinct s.entry_list)
    (hfind : s.entry_list.find? (fun x => same_expiring interface domain (some server) x) =
      some e)
    (hlifetime : 0 < lifetime) :
    connman_resolver_append_lifetime env interface domain (some server) lifetime s =
      (0, { s with
        entry_list := s.entry_list.map
          (fun x => if x = e then { x with timeout := s.source_count + 1 } else x),
        sources := s.sources.filter (fun src => src.id ≠ e.timeout) ++
          [⟨s.source_count + 1, lifetime, e.addr⟩],
        source_count := s.source_count + 1 }) ∧
    (connman_resolver_append_lifetime env interface domain (some server) lifetime s).2.entry_list.map
        (fun x => { x with timeout := 0 }) =
      s.entry_list.map (fun x => { x with timeout := 0 }) := by
  have hpred : (fun x => decide (same_expiring interface domain (some server) x)) =
      append_lifetime_match interface domain (some server) := by
    funext x
    rw [Bool.eq_iff_iff]
    simp only [decide_eq_true_eq]
    exact (append_lifetime_match_iff interface domain (some server) x).symm
  rw [hpred] at hfind
  have he : e ∈ s.entry_list := List.mem_of_find?_eq_some hfind
  have hmap : s.entry_list.map
        (fun x => if x.addr = e.addr then { x with timeout := s.source_count + 1 } else x) =
      s.entry_list.map
        (fun x => if x = e then { x with timeout := s.source_count + 1 } else x) := by
    apply List.map_congr_left
    intro x hx
    have : x.addr = e.addr ↔ x = e :=
      ⟨fun h => List.inj_on_of_nodup_map hdistinct hx he h, fun h => by rw [h]⟩
    simp only [this]
  have hres : connman_resolver_append_lifetime env interface domain (some server) lifetime s =
      (0, { s with
        entry_list := s.entry_list.map
          (fun x => if x = e then { x with timeout := s.source_count + 1 } else x),
        sources := s.sources.filter (fun src => src.id ≠ e.timeout) ++
          [⟨s.source_count + 1, lifetime, e.addr⟩],
        source_count := s.source_count + 1 }) := by
    have hl : lifetime ≠ 0 := by omega
    simp only [connman_resolver_append_lifetime, reduceCtorEq, if_false, hfind, hl,
      g_timeout_add_seconds, set_timeout, g_source_remove, hmap]
    have hf : s.sources.filter (fun src => src.id != e.timeout) =
        s.sources.filter (fun src => src.id ≠ e.timeout) :=
      List.filter_congr (fun src _ => by by_cases h : src.id = e.timeout <;> simp [h])
    simp only [hf]
  refine ⟨hres, ?_⟩
  rw [hres]
  simp only [List.map_map]
  apply List.map_congr_left
  intro x _
  simp only [Function.comp]
  split_ifs <;> rfl

/-- Witness of C7 on `sample_state`: lifetime 120 on the expiring
`(eth0, -, 8.8.8.8)` replaces source 1 by source 2 with interval 120 and
stores the new id in the entry. -/
theorem append_lifetime_rearms_witness :
    connman_resolver_append_lifetime sample_env (some "eth0") none (some "8.8.8.8") 120
        sample_state =
      (0, { sample_state with
        entry_list := [sample_static, { sample_expiring with timeout := 2 }, sample_wlan],
        sources := [{ id := 2, interval := 120, user_data := 2 }],
        source_count := 2 }) :=
  (append_lifetime_rearms sample_env (some "eth0") none "8.8.8.8" 120 sample_state
    sample_expiring (by decide) (by decide) (by decide)).1.trans (by decide)

theorem notify_service_eq (env : Env) (i sv : Option String) (lifetime : Nat) (s : State)
    (hl : lifetime ≠ 0) :
    notify_service env i (fun service => Event.service_nameserver_append service sv true) s =
      { s with trace := s.trace ++ spec_service_append_calls env i sv lifetime } := by
  unfold notify_service spec_service_append_calls
  by_cases hi : 0 ≤ env.connman_inet_ifindex i
  · simp only [hi, if_true, hl, ne_eq, not_false_eq_true, and_self]
    split <;> simp [State.emit]
  · simp [hi]

/-- C8: with the server given and no expiring entry of the triple in the
store, `connman_resolver_append_lifetime` returns 0 and links one new entry of
the triple at the tail (entries already there, non-expiring ones of the same
triple included, are kept); a timer is armed for it iff the lifetime is not 0;
`nameserverAppend(service, server, TRUE)` is called iff the lifetime is not 0,
the interface index is `>= 0` and a service exists for it; and the append is
routed once to the active backend: one `__connman_dnsproxy_append` under the
DNS proxy, one `__connman_resolvfile_append` otherwise, which for a given
interface (and a successful allocation of the file entry) adds the file entry
at the tail and exports once, and for an absent interface does nothing.  The
allocation of the entry succeeds. -/
theorem append_lifetime_creates (env : Env) (interface domain : Option String)
    (server : String) (lifetime : Nat) (s : State)
    (hnone : ∀ e ∈ s.entry_list, ¬ same_expiring interface domain (some server) e)
    (halloc : env.alloc_ok s.alloc_count = true) :
    (connman_resolver_append_lifetime env interface domain (some server) lifetime s).1 = 0 ∧
    (connman_resolver_append_lifetime env interface domain (some server) lifetime s).2.entry_list =
      s.entry_list ++
        [{ addr := s.alloc_count, interface := interface, domain := domain,
           server := some server, flags := 0,
           timeout := if lifetime = 0 then 0 else s.source_count + 1 }] ∧
    (connman_resolver_append_lifetime env interface domain (some server) lifetime s).2.sources =
      (if lifetime = 0 then s.sources
       else s.sources ++ [⟨s.source_count + 1, lifetime, s.alloc_count⟩]) ∧
    (s.dnsproxy_enabled = true →
      (connman_resolver_append_lifetime env interface domain (some server) lifetime s).2.trace =
        s.trace ++ spec_service_append_calls env interface (some server) lifetime ++
          [Event.dnsproxy_append interface domain (some server)] ∧
      (connman_resolver_append_lifetime env interface domain (some server) lifetime
        s).2.resolvfile_list = s.resolvfile_list) ∧
    (s.dnsproxy_enabled = false → interface ≠ none →
      env.alloc_ok (s.alloc_count + 1) = true →
      (connman_resolver_append_lifetime env interface domain (some server) lifetime
        s).2.resolvfile_list =
        s.resolvfile_list ++
          [{ addr := s.alloc_count + 1, interface := interface, domain := domain,
             server := some server }] ∧
      (connman_resolver_append_lifetime env interface domain (some server) lifetime s).2.trace =
        s.trace ++ spec_service_append_calls env interface (some server) lifetime ++
          [Event.resolv_conf_export (export_content env.MAXDNSRCH env.MAXNS
            (s.resolvfile_list ++
              [{ addr := s.alloc_count + 1, interface := interface, domain := domain,
                 server := some server }]))]) ∧
    (s.dnsproxy_enabled = false → interface = none →
      (connman_resolver_append_lifetime env interface domain (some server) lifetime
        s).2.resolvfile_list = s.resolvfile_list ∧
      (connman_resolver_append_lifetime env interface domain (some server) lifetime s).2.trace =
        s.trace ++ spec_service_append_calls env interface (some server) lifetime) := by
  have hfind : s.entry_list.find? (append_lifetime_match interface domain (some server)) =
      none := by
    rw [List.find?_eq_none]
    intro x hx hp
    exact hnone x hx ((append_lifetime_match_iff _ _ _ x).mp hp)
  have heq : connman_resolver_append_lifetime env interface domain (some server) lifetime s =
      append_resolver env interface domain (some server) lifetime 0 s := by
    simp only [connman_resolver_append_lifetime, hfind, reduceCtorEq, if_false]
  rw [heq]
  have hcalls0 : ∀ i, spec_service_append_calls env i (some server) 0 = [] := by
    intro i
    simp [spec_service_append_calls]
  by_cases hl : lifetime = 0
  · subst hl
    by_cases hp : s.dnsproxy_enabled = true
    · simp [append_resolver, halloc, backend_append, hp, State.emit, hcalls0]
    · by_cases hi : interface = none
      · simp [append_resolver, halloc, backend_append, hp, hcalls0,
          __connman_resolvfile_append, hi]
      · by_cases halloc2 : env.alloc_ok (s.alloc_count + 1) = true
        · simp [append_resolver, halloc, backend_append, hp, hcalls0,
            __connman_resolvfile_append, hi, halloc2, resolvfile_export]
        · simp [append_resolver, halloc, backend_append, hp, hcalls0,
            __connman_resolvfile_append, hi, halloc2]
  · by_cases hp : s.dnsproxy_enabled = true
    · simp [append_resolver, halloc, backend_append, hp, State.emit, hl,
        g_timeout_add_seconds, notify_service_eq env interface (some server) lifetime _ hl]
    · by_cases hi : interface = none
      · simp [append_resolver, halloc, backend_append, hp, __connman_resolvfile_append, hi,
          hl, g_timeout_add_seconds, notify_service_eq env none (some server) lifetime _ hl]
      · by_cases halloc2 : env.alloc_ok (s.alloc_count + 1) = true
        · simp [append_resolver, halloc, backend_append, hp, __connman_resolvfile_append, hi,
            halloc2, resolvfile_export, hl, g_timeout_add_seconds,
            notify_service_eq env interface (some server) lifetime _ hl]
        · simp [append_resolver, halloc, backend_append, hp, __connman_resolvfile_append, hi,
            halloc2, hl, g_timeout_add_seconds,
            notify_service_eq env interface (some server) lifetime _ hl]

/-- Witness of C8 on `sample_state`: `(wlan0, -, 9.9.9.9)` with lifetime 30
has no expiring entry yet, so one entry with timer 2 is linked at the tail. -/
theorem append_lifetime_creates_witness :
    (connman_resolver_append_lifetime sample_env (some "wlan0") none (some "9.9.9.9") 30
      sample_state).2.entry_list =
      [sample_static, sample_expiring, sample_wlan,
       { addr := 6, interface := some "wlan0", domain := none, server := some "9.9.9.9",
         flags := 0, timeout := 2 }] :=
  (append_lifetime_creates sample_env (some "wlan0") none "9.9.9.9" 30 sample_state
    (by decide) rfl).2.1.trans (by decide)

/-! ## The resolv.conf writer -/

theorem export_nameserver_loop_eq (maxns : Nat) (list : List resolvfile_entry)
    (count : Nat) (content : String) :
    export_nameserver_loop maxns list count content =
      (count + ((list.filterMap (fun e => e.server)).take (maxns - count)).length,
       content ++ concat_text
         (((list.filterMap (fun e => e.server)).take (maxns - count)).map
           spec_nameserver_line)) := by
  induction list generalizing count content with
  | nil => simp [export_nameserver_loop, concat_text]
  | cons e previous ih =>
    unfold export_nameserver_loop
    by_cases hc : count < maxns
    · simp only [hc, if_true]
      cases hs : e.server with
      | none => simp [ih, List.filterMap_cons, hs]
      | some server =>
        have hm : maxns - count = (maxns - (count + 1)) + 1 := by omega
        simp only [ih, List.filterMap_cons, hs]
        rw [hm, List.take_succ_cons]
        simp only [List.length_cons, List.map_cons, concat_text, spec_nameserver_line,
          String.append_assoc, Prod.mk.injEq, and_true]
        omega
    · have hm : maxns - count = 0 := by omega
      simp [hc, hm, concat_text]

theorem export_search_loop_eq (maxdnsrch : Nat) (list : List resolvfile_entry)
    (count : Nat) (content : String) :
    export_search_loop maxdnsrch list count content =
      (count + ((list.filterMap (fun e => e.domain)).take (maxdnsrch - count)).length,
       (if count = 0 ∧ (list.filterMap (fun e => e.domain)).take (maxdnsrch - count) ≠ [] then
          content ++ "search " else content) ++
         concat_text
           (((list.filterMap (fun e => e.domain)).take (maxdnsrch - count)).map
             (fun d => d ++ " "))) := by
  induction list generalizing count content with
  | nil => simp [export_search_loop, concat_text]
  | cons e previous ih =>
    unfold export_search_loop
    by_cases hc : count < maxdnsrch
    · simp only [hc, if_true]
      cases hs : e.domain with
      | none => simp [ih, List.filterMap_cons, hs]
      | some domain =>
        have hm : maxdnsrch - count = (maxdnsrch - (count + 1)) + 1 := by omega
        simp only [ih, List.filterMap_cons, hs]
        rw [hm, List.take_succ_cons]
        simp only [List.length_cons, List.map_cons, concat_text, String.append_assoc,
          Nat.add_one_ne_zero, false_and, if_false, ne_eq, reduceCtorEq, not_false_eq_true,
          and_true, Prod.mk.injEq]
        omega
    · have hm : maxdnsrch - count = 0 := by omega
      simp [hc, hm, concat_text]

theorem export_search_section_eq (maxdnsrch : Nat) (list : List resolvfile_entry) :
    export_search_section maxdnsrch list = export_header ++ spec_search_line maxdnsrch list := by
  unfold export_search_section spec_search_line spec_selected_domains
  simp only [export_search_loop_eq, Nat.sub_zero, Nat.zero_add, true_and, ne_eq]
  by_cases h : (list.reverse.filterMap (fun e => e.domain)).take maxdnsrch = []
  · simp only [h, not_true_eq_false, if_false, List.length_nil, List.map_nil, concat_text,
      String.append_empty, if_true]
  · have hlen : ((list.reverse.filterMap (fun e => e.domain)).take maxdnsrch).length ≠ 0 := by
      simpa [List.length_eq_zero] using h
    simp only [h, not_false_eq_true, if_true, if_false, hlen, String.append_assoc]

theorem export_content_eq (maxdnsrch maxns : Nat) (list : List resolvfile_entry) :
    export_content maxdnsrch maxns list =
      export_header ++ spec_search_line maxdnsrch list ++
        concat_text ((spec_selected_servers maxns list).map spec_nameserver_line) := by
  unfold export_content spec_selected_servers
  rw [export_nameserver_loop_eq, export_search_section_eq]
  simp

theorem length_take_filterMap_reverse {α : Type} (f : resolvfile_entry → Option α) (n : Nat)
    (list : List resolvfile_entry) :
    ((list.reverse.filterMap f).take n).length =
      min n (list.countP (fun e => (f e).isSome)) := by
  rw [List.length_take, ← List.countP_reverse]
  congr 1
  induction list.reverse with
  | nil => rfl
  | cons e l ih =>
    cases h : f e <;> simp [List.filterMap_cons, h, List.countP_cons, ih]

/-- C9: the content `resolvfile_export` builds is what precedes the
nameserver loop (header and search line) followed by one `nameserver <server>`
line for each selected server and nothing else; the selected servers are those
of the entries carrying a server, newest first, cut at `MAXNS`, so there are
`min(MAXNS, k)` lines for `k` server-carrying entries, and that is the count
the loop ends with.  Entries without a server are skipped and do not count. -/
theorem export_nameserver_lines (env : Env) (list : List resolvfile_entry) :
    export_content env.MAXDNSRCH env.MAXNS list =
      export_search_section env.MAXDNSRCH list ++
        concat_text ((spec_selected_servers env.MAXNS list).map spec_nameserver_line) ∧
    ((spec_selected_servers env.MAXNS list).map spec_nameserver_line).length =
      min env.MAXNS (list.countP (fun e => e.server.isSome)) ∧
    (export_nameserver_loop env.MAXNS list.reverse 0
      (export_search_section env.MAXDNSRCH list)).1 =
      min env.MAXNS (list.countP (fun e => e.server.isSome)) := by
  refine ⟨?_, ?_, ?_⟩
  · rw [export_content_eq, export_search_section_eq]
  · rw [List.length_map]
    exact length_take_filterMap_reverse _ _ _
  · rw [export_nameserver_loop_eq]
    simp only [Nat.zero_add, Nat.sub_zero]
    exact length_take_filterMap_reverse _ _ _

/-- C10: the content `resolvfile_export` builds is the header, then the
search line, then the nameserver lines.  The search line is absent when no
domain is selected and otherwise the single line `search d1 d2 ... ` of the
selected domains; these are the domains of the entries carrying one, newest
first, cut at `MAXDNSRCH`, so `min(MAXDNSRCH, k)` of them for `k`
domain-carrying entries; and for a positive `MAXDNSRCH` a domain is selected
iff some entry carries a domain.  Entries without a domain are skipped and do
not count. -/
theorem export_search_line (env : Env) (list : List resolvfile_entry) :
    export_content env.MAXDNSRCH env.MAXNS list =
      export_header ++ spec_search_line env.MAXDNSRCH list ++
        concat_text ((spec_selected_servers env.MAXNS list).map spec_nameserver_line) ∧
    (spec_selected_domains env.MAXDNSRCH list).length =
      min env.MAXDNSRCH (list.countP (fun e => e.domain.isSome)) ∧
    (0 < env.MAXDNSRCH →
      (spec_selected_domains env.MAXDNSRCH list ≠ [] ↔ ∃ e ∈ list, e.domain ≠ none)) := by
  refine ⟨export_content_eq _ _ _, length_take_filterMap_reverse _ _ _, ?_⟩
  intro hpos
  rw [ne_eq, ← List.length_eq_zero, spec_selected_domains, length_take_filterMap_reverse]
  have hcount : list.countP (fun e => e.domain.isSome) ≠ 0 ↔ ∃ e ∈ list, e.domain ≠ none := by
    rw [ne_eq, List.countP_eq_zero]
    simp [Option.isSome_iff_ne_none]
  rw [← hcount]
  omega

/-! ## A run under the resolv.conf backend -/

/-- C11: from the program start (empty stores, resolv.conf backend), with
allocations and file writes succeeding and `MAXNS` at least 2,
`connman_resolver_append("if0", NULL, "8.8.8.8")` and then
`connman_resolver_append("if0", NULL, "1.1.1.1")` both return 0 and leave the
file as the header line, `nameserver 1.1.1.1`, `nameserver 8.8.8.8`, with no
search line; `connman_resolver_remove("if0", NULL, "8.8.8.8")` after them
returns 0 and leaves the file as the header line and `nameserver 1.1.1.1`. -/
theorem append_append_remove_file (env : Env) (halloc : ∀ n, env.alloc_ok n = true)
    (hio : ∀ n, env.export_outcome n = file_outcome.ok) (hns : 2 ≤ env.MAXNS) :
    (connman_resolver_append env (some "if0") none (some "8.8.8.8") State.initial).1 = 0 ∧
    (connman_resolver_append env (some "if0") none (some "1.1.1.1")
      (connman_resolver_append env (some "if0") none (some "8.8.8.8") State.initial).2).1 = 0 ∧
    (connman_resolver_append env (some "if0") none (some "1.1.1.1")
      (connman_resolver_append env (some "if0") none (some "8.8.8.8")
        State.initial).2).2.resolv_conf =
      some "# Generated by Connection Manager\nnameserver 1.1.1.1\nnameserver 8.8.8.8\n" ∧
    (connman_resolver_remove env (some "if0") none (some "8.8.8.8")
      (connman_resolver_append env (some "if0") none (some "1.1.1.1")
        (connman_resolver_append env (some "if0") none (some "8.8.8.8")
          State.initial).2).2).1 = 0 ∧
    (connman_resolver_remove env (some "if0") none (some "8.8.8.8")
      (connman_resolver_append env (some "if0") none (some "1.1.1.1")
        (connman_resolver_append env (some "if0") none (some "8.8.8.8")
          State.initial).2).2).2.resolv_conf =
      some "# Generated by Connection Manager\nnameserver 1.1.1.1\n" := by
  have ht1 : ∀ x : String, List.take env.MAXNS [x] = [x] :=
    fun x => List.take_of_length_le (by simp; omega)
  have ht2 : ∀ x y : String, List.take env.MAXNS [x, y] = [x, y] :=
    fun x y => List.take_of_length_le (by simp; omega)
  have hc1 : export_content env.MAXDNSRCH env.MAXNS [⟨1, some "if0", none, some "8.8.8.8"⟩] =
      "# Generated by Connection Manager\nnameserver 8.8.8.8\n" := by
    simp [export_content_eq, spec_search_line, spec_selected_domains, spec_selected_servers,
      ht1, concat_text, spec_nameserver_line, export_header]
  have hc2 : export_content env.MAXDNSRCH env.MAXNS
      [⟨1, some "if0", none, some "8.8.8.8"⟩, ⟨3, some "if0", none, some "1.1.1.1"⟩] =
      "# Generated by Connection Manager\nnameserver 1.1.1.1\nnameserver 8.8.8.8\n" := by
    simp [export_content_eq, spec_search_line, spec_selected_domains, spec_selected_servers,
      ht2, concat_text, spec_nameserver_line, export_header]
  have hc3 : export_content env.MAXDNSRCH env.MAXNS
      [⟨3, some "if0", none, some "1.1.1.1"⟩] =
      "# Generated by Connection Manager\nnameserver 1.1.1.1\n" := by
    simp [export_content_eq, spec_search_line, spec_selected_domains, spec_selected_servers,
      ht1, concat_text, spec_nameserver_line, export_header]
  have h1 : connman_resolver_append env (some "if0") none (some "8.8.8.8") State.initial =
      (0,
       { entry_list := [⟨0, some "if0", none, some "8.8.8.8", 0, 0⟩],
         resolvfile_list := [⟨1, some "if0", none, some "8.8.8.8"⟩],
         dnsproxy_enabled := false, sources := [], source_count := 0, alloc_count := 2,
         resolv_conf := some "# Generated by Connection Manager\nnameserver 8.8.8.8\n",
         export_count := 1,
         trace := [Event.resolv_conf_export
           "# Generated by Connection Manager\nnameserver 8.8.8.8\n"] }) := by
    simp [connman_resolver_append, State.initial, remove_entries, append_resolver, halloc,
      backend_append, __connman_resolvfile_append, resolvfile_export, hio, export_file,
      hc1, export_status]
  have h2 : connman_resolver_append env (some "if0") none (some "1.1.1.1")
      (connman_resolver_append env (some "if0") none (some "8.8.8.8") State.initial).2 =
      (0,
       { entry_list := [⟨0, some "if0", none, some "8.8.8.8", 0, 0⟩,
           ⟨2, some "if0", none, some "1.1.1.1", 0, 0⟩],
         resolvfile_list := [⟨1, some "if0", none, some "8.8.8.8"⟩,
           ⟨3, some "if0", none, some "1.1.1.1"⟩],
         dnsproxy_enabled := false, sources := [], source_count := 0, alloc_count := 4,
         resolv_conf :=
           some "# Generated by Connection Manager\nnameserver 1.1.1.1\nnameserver 8.8.8.8\n",
         export_count := 2,
         trace := [Event.resolv_conf_export
           "# Generated by Connection Manager\nnameserver 8.8.8.8\n",
           Event.resolv_conf_export
           "# Generated by Connection Manager\nnameserver 1.1.1.1\nnameserver 8.8.8.8\n"] }) := by
    rw [h1]
    simp [connman_resolver_append, remove_entries, append_resolver, halloc,
      backend_append, __connman_resolvfile_append, resolvfile_export, hio, export_file,
      hc2, export_status, append_match, g_strcmp0]
  have h3 : connman_resolver_remove env (some "if0") none (some "8.8.8.8")
      (connman_resolver_append env (some "if0") none (some "1.1.1.1")
        (connman_resolver_append env (some "if0") none (some "8.8.8.8") State.initial).2).2 =
      (0,
       { entry_list := [⟨2, some "if0", none, some "1.1.1.1", 0, 0⟩],
         resolvfile_list := [⟨3, some "if0", none, some "1.1.1.1"⟩],
         dnsproxy_enabled := false, sources := [], source_count := 0, alloc_count := 4,
         resolv_conf := some "# Generated by Connection Manager\nnameserver 1.1.1.1\n",
         export_count := 3,
         trace := [Event.resolv_conf_export
           "# Generated by Connection Manager\nnameserver 8.8.8.8\n",
           Event.resolv_conf_export
           "# Generated by Connection Manager\nnameserver 1.1.1.1\nnameserver 8.8.8.8\n",
           Event.resolv_conf_export
           "# Generated by Connection Manager\nnameserver 1.1.1.1\n"] }) := by
    rw [h2]
    simp [connman_resolver_remove, remove_entries, remove_match, g_strcmp0, g_slist_remove,
      backend_remove, __connman_resolvfile_remove, resolvfile_remove_match,
      resolvfile_remove_entries, g_list_remove, resolvfile_export, hio, export_file,
      hc3, export_status]
  rw [h3, h2, h1]
  simp

/-- Witness of C11 in `sample_env`, whose limits are glibc's: after the two
appends and the remove the file holds the header and `nameserver 1.1.1.1`. -/
theorem append_append_remove_file_witness :
    (connman_resolver_remove sample_env (some "if0") none (some "8.8.8.8")
      (connman_resolver_append sample_env (some "if0") none (some "1.1.1.1")
        (connman_resolver_append sample_env (some "if0") none (some "8.8.8.8")
          State.initial).2).2).2.resolv_conf =
      some "# Generated by Connection Manager\nnameserver 1.1.1.1\n" :=
  (append_append_remove_file sample_env (fun _ => rfl) (fun _ => rfl) (by decide)).2.2.2.2

/-! ## Start-up, shutdown and refresh -/

theorem init_fallback_loop_eq (env : Env) (ns : List String) (s : State)
    (hproxy : s.dnsproxy_enabled = true)
    (halloc : ∀ k, k < ns.length → env.alloc_ok (s.alloc_count + k) = true) :
    init_fallback_loop env ns s =
      { s with
        entry_list := s.entry_list ++ spec_fallback_entries s.alloc_count ns,
        alloc_count := s.alloc_count + ns.length,
        trace := s.trace ++ ns.map (fun a => Event.dnsproxy_append none none (some a)) } := by
  induction ns generalizing s with
  | nil => simp [init_fallback_loop, spec_fallback_entries]
  | cons a rest ih =>
    have h0 : env.alloc_ok s.alloc_count = true := by
      simpa using halloc 0 (by simp)
    have hstep : (append_resolver env none none (some a) 0 RESOLVER_FLAG_PUBLIC s).2 =
        { s with
          entry_list := s.entry_list ++
            [{ addr := s.alloc_count, interface := none, domain := none, server := some a,
               flags := RESOLVER_FLAG_PUBLIC, timeout := 0 }],
          alloc_count := s.alloc_count + 1,
          trace := s.trace ++ [Event.dnsproxy_append none none (some a)] } := by
      simp [append_resolver, h0, backend_append, hproxy, State.emit]
    rw [init_fallback_loop, hstep, ih]
    · simp [spec_fallback_entries, List.enumFrom_cons, Nat.add_assoc, Nat.add_comm 1]
    · exact hproxy
    · intro k hk
      have := halloc (k + 1) (by simpa using hk)
      simpa [Nat.add_assoc, Nat.add_comm 1] using this

theorem notify_service_dnsproxy_enabled (env : Env) (i : Option String)
    (call : Nat → Event) (s : State) :
    (notify_service env i call s).dnsproxy_enabled = s.dnsproxy_enabled := by
  unfold notify_service
  simp only
  split_ifs
  · split <;> rfl
  · rfl

theorem backend_append_dnsproxy_enabled (env : Env) (i d sv : Option String) (s : State) :
    (backend_append env i d sv s).dnsproxy_enabled = s.dnsproxy_enabled := by
  unfold backend_append __connman_resolvfile_append
  split
  · rfl
  · split_ifs <;> simp [resolvfile_export]

theorem append_resolver_dnsproxy_enabled (env : Env) (i d sv : Option String)
    (lifetime flags : Nat) (s : State) :
    (append_resolver env i d sv lifetime flags s).2.dnsproxy_enabled = s.dnsproxy_enabled := by
  unfold append_resolver
  split_ifs <;>
    simp [backend_append_dnsproxy_enabled, notify_service_dnsproxy_enabled,
      g_timeout_add_seconds]

theorem init_fallback_loop_dnsproxy_enabled (env : Env) (ns : List String) (s : State) :
    (init_fallback_loop env ns s).dnsproxy_enabled = s.dnsproxy_enabled := by
  induction ns generalizing s with
  | nil => rfl
  | cons a rest ih => rw [init_fallback_loop, ih, append_resolver_dnsproxy_enabled]

/-- C13: `__connman_resolver_init` always returns 0.  Without `useProxy` it
returns the state it was given; when the collaborator's init fails it only
records that call and leaves the backend flag, both stores and the timers as
they were, whatever the fallback list holds.  When `useProxy` is set and the
collaborator's init succeeds, the backend is the DNS proxy and (allocations
succeeding) the store gains, in list order, one entry per fallback address,
without interface and domain, flagged `Public`, without timer, and the calls
made are the collaborator's init followed by one DNS proxy append per address;
no service is called and the file store is untouched. -/
theorem init_selects_backend (env : Env) (dnsproxy : Bool) (s : State) :
    (__connman_resolver_init env dnsproxy s).1 = 0 ∧
    ((__connman_resolver_init env dnsproxy s).2.dnsproxy_enabled =
      (s.dnsproxy_enabled || (dnsproxy && decide (0 ≤ env.dnsproxy_init)))) ∧
    (dnsproxy = false → __connman_resolver_init env dnsproxy s = (0, s)) ∧
    (dnsproxy = true → env.dnsproxy_init < 0 →
      ∀ fallback, __connman_resolver_init { env with fallback_nameservers := fallback }
        dnsproxy s = (0, s.emit Event.dnsproxy_init)) ∧
    (dnsproxy = true → 0 ≤ env.dnsproxy_init →
      (∀ k, k < (env.fallback_nameservers.getD []).length →
        env.alloc_ok (s.alloc_count + k) = true) →
      (__connman_resolver_init env dnsproxy s).2 =
        { s with
          dnsproxy_enabled := true,
          entry_list := s.entry_list ++
            spec_fallback_entries s.alloc_count (env.fallback_nameservers.getD []),
          alloc_count := s.alloc_count + (env.fallback_nameservers.getD []).length,
          trace := s.trace ++ [Event.dnsproxy_init] ++
            (env.fallback_nameservers.getD []).map
              (fun a => Event.dnsproxy_append none none (some a)) }) := by
  refine ⟨?_, ?_, ?_, ?_, ?_⟩
  · unfold __connman_resolver_init
    split_ifs
    · rfl
    · rfl
    · split <;> rfl
  · unfold __connman_resolver_init
    by_cases hd : dnsproxy = false
    · simp [hd]
    · have hd2 : dnsproxy = true := by simpa using hd
      by_cases hi : env.dnsproxy_init < 0
      · have hi2 : ¬ (0 ≤ env.dnsproxy_init) := by omega
        simp [hd2, hi, hi2, State.emit]
      · have hi2 : 0 ≤ env.dnsproxy_init := by omega
        simp only [hd2, Bool.true_eq_false, if_false, hi, hi2, decide_True, Bool.and_self,
          Bool.or_true]
        split
        · rfl
        · rw [init_fallback_loop_dnsproxy_enabled]
  · intro hd
    simp [__connman_resolver_init, hd]
  · intro hd hi fallback
    simp [__connman_resolver_init, hd, hi]
  · intro hd hi halloc
    have hi2 : ¬ env.dnsproxy_init < 0 := by omega
    simp only [__connman_resolver_init, hd, Bool.true_eq_false, if_false, hi2]
    cases hfb : env.fallback_nameservers with
    | none => simp [spec_fallback_entries, State.emit]
    | some ns =>
      rw [hfb] at halloc
      simp only [Option.getD_some] at halloc ⊢
      rw [init_fallback_loop_eq env ns _ rfl (by simpa [State.emit] using halloc)]
      simp [State.emit]

/-- Witness of C13 in `sample_env`, whose fallback list is `9.9.9.9`: init
with `useProxy` from the program start links one `Public` entry for it. -/
theorem init_selects_backend_witness :
    (__connman_resolver_init sample_env true State.initial).2.entry_list =
      [{ addr := 0, interface := none, domain := none, server := some "9.9.9.9",
         flags := RESOLVER_FLAG_PUBLIC, timeout := 0 }] ∧
    (__connman_resolver_init sample_env true State.initial).2.trace =
      [Event.dnsproxy_init, Event.dnsproxy_append none none (some "9.9.9.9")] :=
  ⟨(congrArg State.entry_list
      ((init_selects_backend sample_env true State.initial).2.2.2.2 rfl (by decide)
        (fun _ _ => rfl))).trans (by decide),
   (congrArg State.trace
      ((init_selects_backend sample_env true State.initial).2.2.2.2 rfl (by decide)
        (fun _ _ => rfl))).trans (by decide)⟩

/-- C14: `__connman_resolver_cleanup` under the resolv.conf backend leaves
the entry store and the file store empty and writes nothing: the file, the
count of exports and the trace of calls are what they were (and so are the
armed timers); under the DNS proxy it makes the collaborator's cleanup call
and changes nothing else. -/
theorem cleanup_effect (s : State) :
    (s.dnsproxy_enabled = false →
      (__connman_resolver_cleanup s).entry_list = [] ∧
      (__connman_resolver_cleanup s).resolvfile_list = [] ∧
      (__connman_resolver_cleanup s).resolv_conf = s.resolv_conf ∧
      (__connman_resolver_cleanup s).export_count = s.export_count ∧
      (__connman_resolver_cleanup s).trace = s.trace ∧
      (__connman_resolver_cleanup s).sources = s.sources) ∧
    (s.dnsproxy_enabled = true →
      __connman_resolver_cleanup s = { s with trace := s.trace ++ [Event.dnsproxy_cleanup] }) := by
  constructor
  · intro h
    simp [__connman_resolver_cleanup, h]
  · intro h
    simp [__connman_resolver_cleanup, h, State.emit]

/-- Witness of C14 on `sample_state` (resolv.conf backend): both stores are
empty after cleanup and the file is the one the last export wrote. -/
theorem cleanup_effect_witness :
    (__connman_resolver_cleanup sample_state).entry_list = [] ∧
    (__connman_resolver_cleanup sample_state).resolvfile_list = [] ∧
    (__connman_resolver_cleanup sample_state).resolv_conf = sample_state.resolv_conf :=
  ⟨((cleanup_effect sample_state).1 rfl).1, ((cleanup_effect sample_state).1 rfl).2.1,
   ((cleanup_effect sample_state).1 rfl).2.2.1⟩

/-- C15: under the resolv.conf backend `__connman_resolver_redo_servers`
returns 0 and the state it was given, for every store and every interface
argument, an absent one included: nothing changes and nothing is called. -/
theorem redo_servers_resolvfile_noop (interface : Option String) (s : State)
    (hfile : s.dnsproxy_enabled = false) :
    __connman_resolver_redo_servers interface s = (0, s) := by
  simp [__connman_resolver_redo_servers, hfile]

/-- Witness of C15 on `sample_state` with an absent interface. -/
theorem redo_servers_resolvfile_noop_witness :
    __connman_resolver_redo_servers none sample_state = (0, sample_state) :=
  redo_servers_resolvfile_noop none sample_state rfl

theorem redo_servers_loop_eq (interface : Option String) (l : List entry_data) (s : State) :
    redo_servers_loop interface l s =
      { s with trace := s.trace ++ spec_redo_calls interface l } := by
  induction l generalizing s with
  | nil => simp [redo_servers_loop, spec_redo_calls]
  | cons e rest ih =>
    unfold redo_servers_loop
    by_cases h : e.timeout = 0 ∨ g_strcmp0 e.interface interface ≠ 0
    · have hf : ¬ (e.timeout ≠ 0 ∧ e.interface = interface) := by
        rintro ⟨h1, h2⟩
        rcases h with h | h
        · exact h1 h
        · exact h ((g_strcmp0_eq_zero _ _).mpr h2)
      simp only [h, if_true, ih]
      simp [spec_redo_calls, List.filter_cons, hf]
    · have hf : e.timeout ≠ 0 ∧ e.interface = interface := by
        constructor
        · exact fun h1 => h (Or.inl h1)
        · exact (g_strcmp0_eq_zero _ _).mp (by_contra fun h2 => h (Or.inr h2))
      simp only [h, if_false, ih]
      simp [spec_redo_calls, List.filter_cons, hf, State.emit]

/-- C16: under the DNS proxy `__connman_resolver_redo_servers` with an absent
interface returns `-EINVAL` and the state it was given; with an interface it
returns 0, and the calls it makes are, for every entry of the store in order
that is on the interface and has its timer armed, a DNS proxy remove of the
entry's triple directly followed by an append of it; entries without a timer
and entries of other interfaces are passed over, and nothing but the trace of
calls changes (the store and the timers stay as they are). -/
theorem redo_servers_dnsproxy (interface : Option String) (s : State)
    (hproxy : s.dnsproxy_enabled = true) :
    (interface = none → __connman_resolver_redo_servers interface s = (-EINVAL, s)) ∧
    (interface ≠ none →
      __connman_resolver_redo_servers interface s =
        (0, { s with trace := s.trace ++ spec_redo_calls interface s.entry_list })) := by
  constructor
  · intro h
    simp [__connman_resolver_redo_servers, hproxy, h]
  · intro h
    simp [__connman_resolver_redo_servers, hproxy, h, redo_servers_loop_eq]

/-- Witness of C16 on `sample_proxy_state`: for `eth0` the only entry with an
armed timer is `8.8.8.8`, so one remove and one append of it are issued. -/
theorem redo_servers_dnsproxy_witness :
    __connman_resolver_redo_servers (some "eth0") sample_proxy_state =
      (0, { sample_proxy_state with trace := sample_proxy_state.trace ++
        [Event.dnsproxy_remove (some "eth0") none (some "8.8.8.8"),
         Event.dnsproxy_append (some "eth0") none (some "8.8.8.8")] }) :=
  ((redo_servers_dnsproxy (some "eth0") sample_proxy_state rfl).2 (by decide)).trans
    (by decide)

theorem notify_service_remove_eq (env : Env) (i sv : Option String) (s : State) :
    notify_service env i (fun service => Event.service_nameserver_remove service sv true) s =
      { s with trace := s.trace ++ spec_service_remove_calls env i sv } := by
  unfold notify_service spec_service_remove_calls
  by_cases hi : 0 ≤ env.connman_inet_ifindex i
  · simp only [hi, if_true]
    split <;> simp [State.emit]
  · simp [hi]

/-- C17: when the timer of an entry `e` of the store fires,
`resolver_expire_cb` answers `FALSE` (no rescheduling); exactly `e` leaves the
store, every other entry staying in place and order; the source of `e` is
destroyed and no other; `nameserverRemove(service, e.server, TRUE)` is called
iff the interface index is `>= 0` and a service exists for it; and after it
one remove of `e`'s triple goes to the active backend.  The store's objects
are distinct. -/
theorem expire_detaches_entry (env : Env) (s : State) (e : entry_data)
    (hdistinct : addr_distinct s.entry_list) (he : e ∈ s.entry_list)
    (htimer : e.timeout ≠ 0) :
    (resolver_expire_cb env e s).1 = false ∧
    (resolver_expire_cb env e s).2 =
      g_source_remove
        (backend_remove env e.interface e.domain e.server
          { s with
            entry_list := s.entry_list.filter (fun x => x ≠ e),
            trace := s.trace ++ spec_service_remove_calls env e.interface e.server })
        e.timeout ∧
    (resolver_expire_cb env e s).2.entry_list = s.entry_list.filter (fun x => x ≠ e) ∧
    (resolver_expire_cb env e s).2.sources =
      s.sources.filter (fun src => src.id ≠ e.timeout) ∧
    (s.dnsproxy_enabled = true →
      (resolver_expire_cb env e s).2.trace =
        s.trace ++ spec_service_remove_calls env e.interface e.server ++
          [Event.dnsproxy_remove e.interface e.domain e.server]) ∧
    (s.dnsproxy_enabled = false →
      (resolver_expire_cb env e s).2.trace =
        s.trace ++ spec_service_remove_calls env e.interface e.server ++
          [Event.resolv_conf_export (export_content env.MAXDNSRCH env.MAXNS
            (resolver_expire_cb env e s).2.resolvfile_list)]) := by
  have hstate : (resolver_expire_cb env e s).2 =
      g_source_remove
        (backend_remove env e.interface e.domain e.server
          { s with
            entry_list := s.entry_list.filter (fun x => x ≠ e),
            trace := s.trace ++ spec_service_remove_calls env e.interface e.server })
        e.timeout := by
    simp only [resolver_expire_cb, remove_entries_single env e _ htimer,
      notify_service_remove_eq, g_slist_remove_eq_filter _ _ hdistinct he]
  have hf : s.sources.filter (fun src => src.id != e.timeout) =
      s.sources.filter (fun src => src.id ≠ e.timeout) :=
    List.filter_congr (fun src _ => by by_cases h : src.id = e.timeout <;> simp [h])
  refine ⟨rfl, hstate, ?_, ?_, ?_, ?_⟩
  · rw [hstate]
    simp [g_source_remove, backend_remove_entry_list]
  · rw [hstate, ← hf]
    by_cases hp : s.dnsproxy_enabled = true
    · simp [g_source_remove, backend_remove, hp, State.emit]
    · simp [g_source_remove, backend_remove, hp, __connman_resolvfile_remove,
        resolvfile_export, resolvfile_remove_entries_eq]
  · intro hp
    rw [hstate]
    simp [g_source_remove, backend_remove, hp, State.emit]
  · intro hp
    rw [hstate]
    simp [g_source_remove, backend_remove, hp, __connman_resolvfile_remove,
      resolvfile_export, resolvfile_remove_entries_eq]

/-- Witness of C17 on `sample_proxy_state`: the timer of `(eth0, -, 8.8.8.8)`
fires; the entry leaves the store, its source 1 is destroyed, the service of
`eth0` is told and the DNS proxy gets one remove. -/
theorem expire_detaches_entry_witness :
    (resolver_expire_cb sample_env
      { addr := 1, interface := some "eth0", domain := none, server := some "8.8.8.8",
        flags := 0, timeout := 1 } sample_proxy_state).2.sources =
      [{ id := 2, interval := 30, user_data := 3 }] ∧
    (resolver_expire_cb sample_env
      { addr := 1, interface := some "eth0", domain := none, server := some "8.8.8.8",
        flags := 0, timeout := 1 } sample_proxy_state).2.trace =
      sample_proxy_state.trace ++
        [Event.service_nameserver_remove 7 (some "8.8.8.8") true,
         Event.dnsproxy_remove (some "eth0") none (some "8.8.8.8")] :=
  ⟨(expire_detaches_entry sample_env sample_proxy_state _ (by decide) (by decide)
      (by decide)).2.2.2.1.trans (by decide),
   ((expire_detaches_entry sample_env sample_proxy_state _ (by decide) (by decide)
      (by decide)).2.2.2.2.1 rfl).trans (by decide)⟩

/-! ## The resolv.conf store -/

theorem foldl_file_remove_cons_of_ne (x : resolvfile_entry) (ms l : List resolvfile_entry)
    (h : ∀ m ∈ ms, m.addr ≠ x.addr) :
    ms.foldl g_list_remove (x :: l) = x :: ms.foldl g_list_remove l := by
  induction ms generalizing l with
  | nil => rfl
  | cons m ms ih =>
    have hm : x.addr ≠ m.addr := fun e => h m (List.mem_cons_self _ _) e.symm
    have : g_list_remove (x :: l) m = x :: g_list_remove l m := by
      simp [g_list_remove, List.eraseP_cons, hm]
    simp only [List.foldl_cons, this]
    exact ih _ (fun m' hm' => h m' (List.mem_cons_of_mem _ hm'))

theorem foldl_file_remove_filter (p : resolvfile_entry → Bool) (l : List resolvfile_entry)
    (h : file_addr_distinct l) :
    (l.filter p).foldl g_list_remove l = l.filter (fun e => !p e) := by
  induction l with
  | nil => rfl
  | cons x l ih =>
    have hx : ∀ m ∈ l, m.addr ≠ x.addr := by
      intro m hm e
      have : x.addr ∉ l.map (fun e => e.addr) := (List.nodup_cons.mp h).1
      exact this (List.mem_map.mpr ⟨m, hm, e⟩)
    have hl : file_addr_distinct l := (List.nodup_cons.mp h).2
    by_cases hp : p x = true
    · simp [List.filter_cons, hp, g_list_remove, ih hl]
    · have hp2 : p x = false := by simpa using hp
      simp only [List.filter_cons, hp2, Bool.false_eq_true, if_false, Bool.not_false, if_true]
      rw [foldl_file_remove_cons_of_ne x _ l (fun m hm => hx m (List.mem_filter.mp hm).1),
        ih hl]

theorem resolvfile_remove_match_iff (i d sv : Option String) (e : resolvfile_entry) :
    resolvfile_remove_match i d sv e = true ↔ file_filter i d sv e := by
  simp only [resolvfile_remove_match, file_filter, Bool.and_eq_true, Bool.not_eq_true',
    bne_iff_ne, Bool.and_eq_false_imp, ne_eq, Bool.not_eq_true, bne_eq_false_iff_eq,
    g_strcmp0_eq_zero, Decidable.not_not]
  constructor
  · rintro ⟨⟨h1, h2⟩, h3⟩
    exact ⟨by by_cases h : i = none <;> simp_all, by by_cases h : d = none <;> simp_all, h3⟩
  · rintro ⟨h1, h2, h3⟩
    refine ⟨⟨fun h => ?_, fun h => ?_⟩, h3⟩
    · rcases h1 with h1 | h1
      · exact absurd h1 h
      · exact h1
    · rcases h2 with h2 | h2
      · exact absurd h2 h
      · exact h2

theorem filter_not_resolvfile_remove_match (i d sv : Option String)
    (l : List resolvfile_entry) :
    l.filter (fun e => !resolvfile_remove_match i d sv e) =
      l.filter (fun e => ¬ file_filter i d sv e) := by
  apply List.filter_congr
  intro e _
  by_cases h : file_filter i d sv e
  · simp [h, (resolvfile_remove_match_iff i d sv e).mpr h]
  · have : resolvfile_remove_match i d sv e = false := by
      simpa using fun h2 => h ((resolvfile_remove_match_iff i d sv e).mp h2)
    simp [h, this]

theorem export_status_neg_iff (o : file_outcome) :
    export_status o < 0 ↔ o ≠ file_outcome.ok := by
  cases o with
  | ok => simp [export_status]
  | open_failed e => have := e.pos; simp [export_status]
  | ftruncate_failed e => have := e.pos; simp [export_status]
  | write_failed e => have := e.pos; simp [export_status]

theorem export_status_zero_iff (o : file_outcome) :
    export_status o = 0 ↔ o = file_outcome.ok := by
  cases o with
  | ok => simp [export_status]
  | open_failed e => have := e.pos; simp [export_status]
  | ftruncate_failed e => have := e.pos; simp [export_status]
  | write_failed e => have := e.pos; simp [export_status]

/-- C18, as the code has it: with the interface given (and the allocation of
the file entry succeeding) `__connman_resolvfile_append` leaves the file store
as the old list followed by one new entry carrying the three fields, and then
exports once from the new list, returning the status of that export; with the
interface absent it returns `-ENOENT` and the state it was given. -/
theorem resolvfile_append_effect (env : Env) (interface : String)
    (domain server : Option String) (s : State)
    (halloc : env.alloc_ok s.alloc_count = true) :
    (__connman_resolvfile_append env (some interface) domain server s).2.resolvfile_list =
      s.resolvfile_list ++
        [{ addr := s.alloc_count, interface := some interface, domain := domain,
           server := server }] ∧
    (__connman_resolvfile_append env (some interface) domain server s).2.trace =
      s.trace ++ [Event.resolv_conf_export (export_content env.MAXDNSRCH env.MAXNS
        (s.resolvfile_list ++
          [{ addr := s.alloc_count, interface := some interface, domain := domain,
             server := server }]))] ∧
    (__connman_resolvfile_append env (some interface) domain server s).2.resolv_conf =
      export_file s.resolv_conf
        (export_content env.MAXDNSRCH env.MAXNS
          (s.resolvfile_list ++
            [{ addr := s.alloc_count, interface := some interface, domain := domain,
               server := server }]))
        (env.export_outcome s.export_count) ∧
    (__connman_resolvfile_append env (some interface) domain server s).1 =
      export_status (env.export_outcome s.export_count) ∧
    __connman_resolvfile_append env none domain server s = (-ENOENT, s) := by
  simp [__connman_resolvfile_append, halloc, resolvfile_export]

/-- Witness of C18 on `sample_state`: a file entry for `(eth0, -, 4.4.4.4)` is
linked at the tail with the next address. -/
theorem resolvfile_append_effect_witness :
    (__connman_resolvfile_append sample_env (some "eth0") none (some "4.4.4.4")
      sample_state).2.resolvfile_list =
      sample_state.resolvfile_list ++
        [{ addr := 6, interface := some "eth0", domain := none, server := some "4.4.4.4" }] :=
  (resolvfile_append_effect sample_env "eth0" none (some "4.4.4.4") sample_state rfl).1

/-- C18 as stated fails for an absent interface: from the program start,
`__connman_resolvfile_append(NULL, NULL, "8.8.8.8")` returns `-ENOENT` and the
state it was given, so the file store does not end in a new entry. -/
theorem resolvfile_append_absent_interface :
    __connman_resolvfile_append sample_env none none (some "8.8.8.8") State.initial =
      (-ENOENT, State.initial) ∧
    ¬ ∃ e : resolvfile_entry,
      (__connman_resolvfile_append sample_env none none (some "8.8.8.8")
        State.initial).2.resolvfile_list = State.initial.resolvfile_list ++ [e] := by
  constructor
  · rfl
  · rintro ⟨e, he⟩
    have h0 : (__connman_resolvfile_append sample_env none none (some "8.8.8.8")
        State.initial).2.resolvfile_list = [] := rfl
    rw [h0] at he
    simp [State.initial] at he

/-- C19, as the code has it: `__connman_resolvfile_remove` leaves the file
store as the old list without the entries the filter selects, the others in
their order, where an absent interface and an absent domain match any value
and the server must equal the entry's server (an absent server selects only
entries without a server); then it exports once from the new list, whether or
not an entry was selected.  The file store's objects are distinct. -/
theorem resolvfile_remove_effect (env : Env) (interface domain server : Option String)
    (s : State) (hdistinct : file_addr_distinct s.resolvfile_list) :
    (__connman_resolvfile_remove env interface domain server s).2.resolvfile_list =
      s.resolvfile_list.filter (fun e => ¬ file_filter interface domain server e) ∧
    (__connman_resolvfile_remove env interface domain server s).2.trace =
      s.trace ++ [Event.resolv_conf_export (export_content env.MAXDNSRCH env.MAXNS
        (s.resolvfile_list.filter (fun e => ¬ file_filter interface domain server e)))] ∧
    (__connman_resolvfile_remove env interface domain server s).2.export_count =
      s.export_count + 1 := by
  simp [__connman_resolvfile_remove, resolvfile_export, resolvfile_remove_entries_eq,
    foldl_file_remove_filter _ _ hdistinct, filter_not_resolvfile_remove_match]

/-- Witness of C19 on `sample_state`: the filter `(eth0, -, 8.8.8.8)` removes
both file entries of that server and keeps the `wlan0` one. -/
theorem resolvfile_remove_effect_witness :
    (__connman_resolvfile_remove sample_env (some "eth0") none (some "8.8.8.8")
      sample_state).2.resolvfile_list =
      [{ addr := 5, interface := some "wlan0", domain := some "lan",
         server := some "1.1.1.1" }] :=
  (resolvfile_remove_effect sample_env (some "eth0") none (some "8.8.8.8") sample_state
    (by decide)).1.trans (by decide)

/-- C19 as stated fails for an absent server: on `sample_state` the filter
`(eth0, -, -)` selects, with the server as a wildcard, both `eth0` file
entries, but `__connman_resolvfile_remove` removes none of them. -/
theorem resolvfile_remove_absent_server :
    (__connman_resolvfile_remove sample_env (some "eth0") none none
      sample_state).2.resolvfile_list = sample_state.resolvfile_list ∧
    sample_state.resolvfile_list.filter
      (fun e => ¬ spec_file_filter (some "eth0") none none e) =
      [{ addr := 5, interface := some "wlan0", domain := some "lan",
         server := some "1.1.1.1" }] ∧
    (__connman_resolvfile_remove sample_env (some "eth0") none none
      sample_state).2.resolvfile_list ≠
      sample_state.resolvfile_list.filter
        (fun e => ¬ spec_file_filter (some "eth0") none none e) := by
  decide

/-- C20, as the code has it: for `__connman_resolvfile_append` with the
interface given and the file entry allocated, and for
`__connman_resolvfile_remove`, the status is negative iff `open`, `ftruncate`
or `write` fails and 0 iff none does; the file store after the call does not
depend on the outcome of the system calls (the appended entry stays, the
removed entries stay removed); and the export is made exactly once.  When the
allocation of the file entry fails, `__connman_resolvfile_append` returns
`-ENOMEM` whatever the system calls would answer, and leaves the file store,
the file and the count of exports as they were: no export is made. -/
theorem resolvfile_status_no_rollback (env : Env) (interface : String)
    (domain server filter_interface filter_domain filter_server : Option String)
    (s : State) :
    (env.alloc_ok s.alloc_count = true →
      ((__connman_resolvfile_append env (some interface) domain server s).1 < 0 ↔
        env.export_outcome s.export_count ≠ file_outcome.ok) ∧
      ((__connman_resolvfile_append env (some interface) domain server s).1 = 0 ↔
        env.export_outcome s.export_count = file_outcome.ok) ∧
      (∀ outcome : Nat → file_outcome,
        (__connman_resolvfile_append { env with export_outcome := outcome } (some interface)
          domain server s).2.resolvfile_list =
        (__connman_resolvfile_append env (some interface) domain server
          s).2.resolvfile_list) ∧
      (__connman_resolvfile_append env (some interface) domain server s).2.export_count =
        s.export_count + 1) ∧
    (env.alloc_ok s.alloc_count = false →
      (__connman_resolvfile_append env (some interface) domain server s).1 = -ENOMEM ∧
      (__connman_resolvfile_append env (some interface) domain server s).2.resolvfile_list =
        s.resolvfile_list ∧
      (__connman_resolvfile_append env (some interface) domain server s).2.resolv_conf =
        s.resolv_conf ∧
      (__connman_resolvfile_append env (some interface) domain server s).2.export_count =
        s.export_count ∧
      (__connman_resolvfile_append env (some interface) domain server s).2.trace =
        s.trace) ∧
    ((__connman_resolvfile_remove env filter_interface filter_domain filter_server s).1 < 0 ↔
      env.export_outcome s.export_count ≠ file_outcome.ok) ∧
    ((__connman_resolvfile_remove env filter_interface filter_domain filter_server s).1 = 0 ↔
      env.export_outcome s.export_count = file_outcome.ok) ∧
    (∀ outcome : Nat → file_outcome,
      (__connman_resolvfile_remove { env with export_outcome := outcome } filter_interface
        filter_domain filter_server s).2.resolvfile_list =
      (__connman_resolvfile_remove env filter_interface filter_domain
        filter_server s).2.resolvfile_list) ∧
    (__connman_resolvfile_remove env filter_interface filter_domain
      filter_server s).2.export_count = s.export_count + 1 := by
  refine ⟨fun halloc => ⟨?_, ?_, ?_, ?_⟩, fun halloc => ?_, ?_, ?_, ?_, ?_⟩
  · simp only [__connman_resolvfile_append, halloc, reduceCtorEq, if_false,
      Bool.true_eq_false, resolvfile_export]
    exact export_status_neg_iff _
  · simp only [__connman_resolvfile_append, halloc, reduceCtorEq, if_false,
      Bool.true_eq_false, resolvfile_export]
    exact export_status_zero_iff _
  · intro outcome
    simp [__connman_resolvfile_append, halloc, resolvfile_export]
  · simp [__connman_resolvfile_append, halloc, resolvfile_export]
  · simp [__connman_resolvfile_append, halloc]
  · simp only [__connman_resolvfile_remove, resolvfile_export, resolvfile_remove_entries_eq]
    exact export_status_neg_iff _
  · simp only [__connman_resolvfile_remove, resolvfile_export, resolvfile_remove_entries_eq]
    exact export_status_zero_iff _
  · intro outcome
    simp [__connman_resolvfile_remove, resolvfile_export, resolvfile_remove_entries_eq]
  · simp [__connman_resolvfile_remove, resolvfile_export, resolvfile_remove_entries_eq]

/-- Witness of C20 on `sample_state` in a world where every `write` fails
with `errno` 28: the status of the append is negative and the entry is
linked all the same. -/
theorem resolvfile_status_no_rollback_witness :
    (__connman_resolvfile_append
      { sample_env with export_outcome := fun _ => file_outcome.write_failed 28 }
      (some "eth0") none (some "4.4.4.4") sample_state).1 < 0 ∧
    (__connman_resolvfile_append
      { sample_env with export_outcome := fun _ => file_outcome.write_failed 28 }
      (some "eth0") none (some "4.4.4.4") sample_state).2.resolvfile_list =
      (__connman_resolvfile_append sample_env (some "eth0") none (some "4.4.4.4")
        sample_state).2.resolvfile_list :=
  ⟨((resolvfile_status_no_rollback
      { sample_env with export_outcome := fun _ => file_outcome.write_failed 28 }
      "eth0" none (some "4.4.4.4") none none none sample_state).1 rfl).1.mpr (by simp),
   (((resolvfile_status_no_rollback
      { sample_env with export_outcome := fun _ => file_outcome.write_failed 28 }
      "eth0" none (some "4.4.4.4") none none none sample_state).1 rfl).2.2.1
      (fun _ => file_outcome.ok)).symm⟩

/-- C20 as stated fails when the file entry cannot be allocated: in the world
of `sample_oom_env`, where every system call succeeds,
`__connman_resolvfile_append` with the interface given returns `-ENOMEM`, a
negative status, in the sample state, and makes no export. -/
theorem resolvfile_append_negative_without_failed_write :
    sample_oom_env.export_outcome sample_state.export_count = file_outcome.ok ∧
    (__connman_resolvfile_append sample_oom_env (some "eth0") none (some "4.4.4.4")
      sample_state).1 = -ENOMEM ∧
    (__connman_resolvfile_append sample_oom_env (some "eth0") none (some "4.4.4.4")
      sample_state).1 < 0 ∧
    (__connman_resolvfile_append sample_oom_env (some "eth0") none (some "4.4.4.4")
      sample_state).2.export_count = sample_state.export_count ∧
    (__connman_resolvfile_append sample_oom_env (some "eth0") none (some "4.4.4.4")
      sample_state).2.resolvfile_list = sample_state.resolvfile_list := by
  decide

/-! ## Uniqueness of non-expiring entries over runs -/

theorem foldl_remove_sublist (ms l : List entry_data) :
    (ms.foldl g_slist_remove l).Sublist l := by
  induction ms generalizing l with
  | nil => exact List.Sublist.refl _
  | cons m ms ih =>
    exact (ih (g_slist_remove l m)).trans (List.eraseP_sublist l)

theorem store_ok_of_sublist (s s' : State) (h : store_ok s)
    (hsub : s'.entry_list.Sublist s.entry_list) (halloc : s.alloc_count ≤ s'.alloc_count) :
    store_ok s' := by
  obtain ⟨h1, h2, h3⟩ := h
  refine ⟨?_, ?_, ?_⟩
  · exact List.Nodup.sublist (hsub.map _) h1
  · intro e he
    exact Nat.lt_of_lt_of_le (h2 e (hsub.subset he)) halloc
  · intro i d sv
    exact Nat.le_trans (hsub.countP_le _) (h3 i d sv)

theorem store_ok_of_append (s s' : State) (l0 : List entry_data) (new : entry_data)
    (h : store_ok s) (hsub : l0.Sublist s.entry_list) (hlist : s'.entry_list = l0 ++ [new])
    (haddr : new.addr = s.alloc_count) (halloc : s.alloc_count < s'.alloc_count)
    (hnew : new.timeout ≠ 0 ∨
      ∀ e ∈ l0, ¬ same_nonexpiring new.interface new.domain new.server e) :
    store_ok s' := by
  obtain ⟨h1, h2, h3⟩ := h
  refine ⟨?_, ?_, ?_⟩
  · unfold addr_distinct
    rw [hlist, List.map_append, List.map_singleton]
    apply List.Nodup.append (List.Nodup.sublist (hsub.map _) h1) (List.nodup_singleton _)
    intro a ha hb
    obtain ⟨e, he, rfl⟩ := List.mem_map.mp ha
    have hlt := h2 e (hsub.subset he)
    have : e.addr = new.addr := by simpa using hb
    omega
  · intro e he
    rw [hlist] at he
    rcases List.mem_append.mp he with he | he
    · exact Nat.lt_trans (h2 e (hsub.subset he)) halloc
    · have : e = new := by simpa using he
      rw [this, haddr]; exact halloc
  · intro i d sv
    rw [hlist, List.countP_append]
    by_cases hp : same_nonexpiring i d sv new
    · have hz : l0.countP (fun e => same_nonexpiring i d sv e) = 0 := by
        rw [List.countP_eq_zero]
        intro e he
        rcases hnew with hnew | hnew
        · exact absurd hp.1 hnew
        · have := hnew e he
          obtain ⟨_, hi, hd, hs⟩ := hp
          rw [hi, hd, hs] at this
          simpa using this
      rw [hz]
      simp [List.countP_cons, hp]
    · have : [new].countP (fun e => same_nonexpiring i d sv e) = 0 := by
        simp [List.countP_cons, hp]
      rw [this]
      exact Nat.le_trans (hsub.countP_le _) (h3 i d sv)

theorem store_ok_of_retime (s s' : State) (addr tag : Nat) (h : store_ok s)
    (hlist : s'.entry_list =
      s.entry_list.map (fun x => if x.addr = addr then { x with timeout := tag } else x))
    (htag : tag ≠ 0) (halloc : s.alloc_count ≤ s'.alloc_count) : store_ok s' := by
  obtain ⟨h1, h2, h3⟩ := h
  have haddr : s'.entry_list.map (fun e => e.addr) = s.entry_list.map (fun e => e.addr) := by
    rw [hlist, List.map_map]
    apply List.map_congr_left
    intro x _
    simp only [Function.comp]
    split_ifs <;> rfl
  refine ⟨?_, ?_, ?_⟩
  · unfold addr_distinct
    rw [haddr]; exact h1
  · intro e he
    have : e.addr ∈ s'.entry_list.map (fun e => e.addr) := List.mem_map.mpr ⟨e, he, rfl⟩
    rw [haddr] at this
    obtain ⟨x, hx, hxe⟩ := List.mem_map.mp this
    have := h2 x hx
    omega
  · intro i d sv
    rw [hlist, List.countP_map]
    refine Nat.le_trans (List.countP_mono_left ?_) (h3 i d sv)
    intro x _ hx
    simp only [Function.comp, decide_eq_true_eq] at hx ⊢
    by_cases ha : x.addr = addr
    · simp only [ha, if_true] at hx
      exact absurd hx.1 htag
    · simpa only [ha, if_false] using hx

theorem notify_service_entry_list (env : Env) (i : Option String) (call : Nat → Event)
    (s : State) : (notify_service env i call s).entry_list = s.entry_list := by
  unfold notify_service
  simp only
  split_ifs
  · split <;> rfl
  · rfl

theorem notify_service_alloc_count (env : Env) (i : Option String) (call : Nat → Event)
    (s : State) : (notify_service env i call s).alloc_count = s.alloc_count := by
  unfold notify_service
  simp only
  split_ifs
  · split <;> rfl
  · rfl

theorem backend_append_alloc_count_ge (env : Env) (i d sv : Option String) (s : State) :
    s.alloc_count ≤ (backend_append env i d sv s).alloc_count := by
  unfold backend_append __connman_resolvfile_append
  split
  · exact Nat.le_refl _
  · split_ifs <;> simp [resolvfile_export]

/-- What `append_resolver` does to the store: nothing (rejected arguments or
a failed allocation), or one new entry at the tail whose address is the old
allocation counter and whose timer is armed iff the lifetime is not 0. -/
theorem append_resolver_cases (env : Env) (i d sv : Option String) (lifetime flags : Nat)
    (s : State) :
    ((append_resolver env i d sv lifetime flags s).2.entry_list = s.entry_list ∧
      s.alloc_count ≤ (append_resolver env i d sv lifetime flags s).2.alloc_count) ∨
    ((append_resolver env i d sv lifetime flags s).2.entry_list =
        s.entry_list ++
          [{ addr := s.alloc_count, interface := i, domain := d, server := sv,
             flags := flags, timeout := if lifetime = 0 then 0 else s.source_count + 1 }] ∧
      s.alloc_count < (append_resolver env i d sv lifetime flags s).2.alloc_count) := by
  by_cases hv : sv = none ∧ d = none
  · left; simp [append_resolver, hv]
  · by_cases ha : env.alloc_ok s.alloc_count = false
    · left; simp [append_resolver, hv, ha]
    · right
      have ha2 : env.alloc_ok s.alloc_count = true := by simpa using ha
      by_cases hl : lifetime = 0
      · have heq : (append_resolver env i d sv lifetime flags s).2 =
            backend_append env i d sv
              { s with alloc_count := s.alloc_count + 1,
                       entry_list := s.entry_list ++
                         [{ addr := s.alloc_count, interface := i, domain := d, server := sv,
                            flags := flags, timeout := 0 }] } := by
          simp [append_resolver, hv, ha2, hl]
        rw [heq, backend_append_entry_list]
        refine ⟨by simp [hl], ?_⟩
        refine Nat.lt_of_lt_of_le ?_ (backend_append_alloc_count_ge _ _ _ _ _)
        simp
      · have heq : (append_resolver env i d sv lifetime flags s).2 =
            backend_append env i d sv
              { notify_service env i
                  (fun service => Event.service_nameserver_append service sv true)
                  (g_timeout_add_seconds { s with alloc_count := s.alloc_count + 1 }
                    lifetime s.alloc_count).2 with
                entry_list := s.entry_list ++
                  [{ addr := s.alloc_count, interface := i, domain := d, server := sv,
                     flags := flags, timeout := s.source_count + 1 }] } := by
          simp [append_resolver, hv, ha2, hl, notify_service_entry_list,
            g_timeout_add_seconds]
        rw [heq, backend_append_entry_list]
        refine ⟨by simp [hl], ?_⟩
        refine Nat.lt_of_lt_of_le ?_ (backend_append_alloc_count_ge _ _ _ _ _)
        simp [notify_service_alloc_count, g_timeout_add_seconds]

theorem resolver_expire_cb_entry_list (env : Env) (e : entry_data) (s : State) :
    (resolver_expire_cb env e s).2.entry_list = g_slist_remove s.entry_list e := by
  simp [resolver_expire_cb, remove_entries_entry_list, notify_service_entry_list]

theorem resolver_expire_cb_alloc_count (env : Env) (e : entry_data) (s : State) :
    (resolver_expire_cb env e s).2.alloc_count = s.alloc_count := by
  simp [resolver_expire_cb, remove_entries_alloc_count, notify_service_alloc_count]

theorem store_ok_expire (env : Env) (e : entry_data) (s : State) (h : store_ok s) :
    store_ok (resolver_expire_cb env e s).2 := by
  apply store_ok_of_sublist s _ h
  · rw [resolver_expire_cb_entry_list]
    exact List.eraseP_sublist _
  · rw [resolver_expire_cb_alloc_count]

theorem store_ok_remove_entries (env : Env) (ms : List entry_data) (s : State)
    (h : store_ok s) : store_ok (remove_entries env ms s) := by
  apply store_ok_of_sublist s _ h
  · rw [remove_entries_entry_list]
    exact foldl_remove_sublist _ _
  · rw [remove_entries_alloc_count]

theorem store_ok_append (env : Env) (i d sv : Option String) (s : State) (h : store_ok s) :
    store_ok (connman_resolver_append env i d sv s).2 := by
  by_cases hv : sv = none ∧ d = none
  · simpa [connman_resolver_append, hv] using h
  · rw [connman_resolver_append_eq env i d sv s hv]
    have hs1 := store_ok_remove_entries env (s.entry_list.filter (append_match i d sv)) s h
    have hl1 := remove_entries_filter env (append_match i d sv) s h.1
    have ha1 := remove_entries_alloc_count env (s.entry_list.filter (append_match i d sv)) s
    rcases append_resolver_cases env i d sv 0 0
      (remove_entries env (s.entry_list.filter (append_match i d sv)) s) with hc | hc
    · exact store_ok_of_sublist _ _ hs1 (by rw [hc.1]) hc.2
    · refine store_ok_of_append _ _ _ _ hs1 (List.Sublist.refl _) hc.1 rfl hc.2 (Or.inr ?_)
      intro e he
      rw [hl1] at he
      have := (List.mem_filter.mp he).2
      simp only [Bool.not_eq_true'] at this
      intro hsame
      have h2 := (append_match_iff i d sv e).mpr hsame
      rw [this] at h2
      exact Bool.noConfusion h2

theorem store_ok_source_remove (s : State) (t : Nat) (h : store_ok s) :
    store_ok (g_source_remove s t) := h

theorem store_ok_append_lifetime (env : Env) (i d sv : Option String) (lifetime : Nat)
    (s : State) (h : store_ok s)
    (hadm : lifetime ≠ 0 ∨ ∃ e ∈ s.entry_list, same_expiring i d sv e) :
    store_ok (connman_resolver_append_lifetime env i d sv lifetime s).2 := by
  unfold connman_resolver_append_lifetime
  by_cases hs : sv = none
  · simpa [hs] using h
  · simp only [hs, if_false]
    cases hfind : s.entry_list.find? (append_lifetime_match i d sv) with
    | some e =>
      simp only
      by_cases hl : lifetime = 0
      · simp only [hl, if_true]
        exact store_ok_expire env e _ (store_ok_source_remove s e.timeout h)
      · simp only [hl, if_false]
        exact store_ok_of_retime (g_source_remove s e.timeout) _ e.addr (s.source_count + 1)
          (store_ok_source_remove s e.timeout h) rfl (Nat.succ_ne_zero _) (Nat.le_refl _)
    | none =>
      simp only
      have hl : lifetime ≠ 0 := by
        rcases hadm with hl | ⟨e, he, hexp⟩
        · exact hl
        · have := List.find?_eq_none.mp hfind e he
          exact absurd ((append_lifetime_match_iff i d sv e).mpr hexp) this
      rcases append_resolver_cases env i d sv lifetime 0 s with hc | hc
      · exact store_ok_of_sublist _ _ h (by rw [hc.1]) hc.2
      · refine store_ok_of_append _ _ _ _ h (List.Sublist.refl _) hc.1 rfl hc.2 (Or.inl ?_)
        simp [hl]

theorem store_ok_remove (env : Env) (i d sv : Option String) (s : State) (h : store_ok s) :
    store_ok (connman_resolver_remove env i d sv s).2 := by
  simp only [connman_resolver_remove]
  split_ifs
  · exact h
  · exact h
  · exact store_ok_remove_entries env _ s h

theorem store_ok_remove_all (env : Env) (i : Option String) (s : State) (h : store_ok s) :
    store_ok (connman_resolver_remove_all env i s).2 := by
  simp only [connman_resolver_remove_all]
  split_ifs
  · exact h
  · exact h
  · exact store_ok_remove_entries env _ s h

theorem store_ok_dispatch (env : Env) (src : timeout_source) (s s' : State) (h : store_ok s)
    (hrun : timeout_dispatch env src s = some s') : store_ok s' := by
  unfold timeout_dispatch at hrun
  split_ifs at hrun
  split at hrun
  · rename_i entry _
    simp only [Option.some.injEq] at hrun
    rw [← hrun]
    split_ifs
    · exact store_ok_expire env entry s h
    · exact store_ok_source_remove _ _ (store_ok_expire env entry s h)
  · exact Option.noConfusion hrun

theorem store_ok_init_loop (env : Env) (ns : List String) (s : State) (h : store_ok s)
    (hnodup : ns.Nodup) (hfresh : ∀ e ∈ s.entry_list, ∀ n ∈ ns, e.server ≠ some n) :
    store_ok (init_fallback_loop env ns s) := by
  induction ns generalizing s with
  | nil => exact h
  | cons a rest ih =>
    rw [init_fallback_loop]
    have hn := List.nodup_cons.mp hnodup
    rcases append_resolver_cases env none none (some a) 0 RESOLVER_FLAG_PUBLIC s with hc | hc
    · apply ih _ (store_ok_of_sublist _ _ h (by rw [hc.1]) hc.2) hn.2
      intro e he n hnr
      rw [hc.1] at he
      exact hfresh e he n (List.mem_cons_of_mem _ hnr)
    · apply ih _ _ hn.2
      · intro e he n hnr
        rw [hc.1] at he
        rcases List.mem_append.mp he with he | he
        · exact hfresh e he n (List.mem_cons_of_mem _ hnr)
        · have : e.server = some a := by
            have := List.mem_singleton.mp he
            rw [this]
          rw [this]
          intro hcontra
          exact hn.1 (by rw [Option.some.inj hcontra]; exact hnr)
      · refine store_ok_of_append _ _ _ _ h (List.Sublist.refl _) hc.1 rfl hc.2 (Or.inr ?_)
        intro e he hsame
        exact hfresh e he a (List.mem_cons_self _ _) hsame.2.2.2

theorem store_ok_init (env : Env) (dnsproxy : Bool) (s : State) (h : store_ok s)
    (hempty : s.entry_list = []) (hnodup : (env.fallback_nameservers.getD []).Nodup) :
    store_ok (__connman_resolver_init env dnsproxy s).2 := by
  unfold __connman_resolver_init
  split_ifs
  · exact h
  · exact h
  · cases hfb : env.fallback_nameservers with
    | none => exact h
    | some ns =>
      simp only
      rw [hfb] at hnodup
      refine store_ok_init_loop env ns _ ?_ hnodup ?_
      · exact h
      · intro e he
        simp only [State.emit, hempty, List.not_mem_nil] at he

theorem store_ok_step (env : Env) (s s' : State) (op : Op) (h : store_ok s)
    (hadm : unique_admitted env s op) (hrun : op.run env s = some s') : store_ok s' := by
  cases op with
  | init dnsproxy =>
    simp only [Op.run, Option.some.injEq] at hrun
    rw [← hrun]
    exact store_ok_init env dnsproxy s h hadm.1 hadm.2
  | append i d sv =>
    simp only [Op.run, Option.some.injEq] at hrun
    rw [← hrun]
    exact store_ok_append env i d sv s h
  | append_lifetime i d sv lifetime =>
    simp only [Op.run, Option.some.injEq] at hrun
    rw [← hrun]
    exact store_ok_append_lifetime env i d sv lifetime s h hadm
  | remove i d sv =>
    simp only [Op.run, Option.some.injEq] at hrun
    rw [← hrun]
    exact store_ok_remove env i d sv s h
  | remove_all i =>
    simp only [Op.run, Option.some.injEq] at hrun
    rw [← hrun]
    exact store_ok_remove_all env i s h
  | expire src => exact store_ok_dispatch env src s s' h hrun
  | flush => exact absurd hadm (by simp [unique_admitted])
  | redo_servers i => exact absurd hadm (by simp [unique_admitted])
  | cleanup => exact absurd hadm (by simp [unique_admitted])

theorem store_ok_initial : store_ok State.initial := by
  refine ⟨?_, ?_, ?_⟩
  · simp [State.initial, addr_distinct]
  · simp [State.initial]
  · intro i d sv
    simp [State.initial]

theorem store_ok_of_reachable (env : Env) (s : State)
    (h : reachable env (unique_admitted env) s) : store_ok s := by
  induction h with
  | start => exact store_ok_initial
  | step s s' op _ hadm hrun ih => exact store_ok_step env s s' op ih hadm hrun

theorem sample_state_reachable :
    reachable sample_env (unique_admitted sample_env) sample_state := by
  have r1 := reachable.step State.initial _ (Op.append (some "eth0") none (some "8.8.8.8"))
    (reachable.start : reachable sample_env (unique_admitted sample_env) State.initial)
    trivial rfl
  have r2 := reachable.step _ _
    (Op.append_lifetime (some "eth0") none (some "8.8.8.8") 60) r1 (Or.inl (by decide)) rfl
  have r3 := reachable.step _ _
    (Op.append (some "wlan0") (some "lan") (some "1.1.1.1")) r2 trivial rfl
  rw [sample_state_reached] at r3
  exact r3

/-- C12, as the code has it: in every state reached from the program start
by append, appendWithLifetime, remove, removeAll, timer expiry and init, where
init runs on an empty entry store with a fallback list that names no address
twice and appendWithLifetime is called with lifetime 0 only while an expiring
entry of the triple is in the store, at most one non-expiring entry exists for
any triple. -/
theorem nonexpiring_unique_in_reachable (env : Env) (s : State)
    (hreach : reachable env (unique_admitted env) s)
    (interface domain server : Option String) :
    s.entry_list.countP (fun e => same_nonexpiring interface domain server e) ≤ 1 :=
  (store_ok_of_reachable env s hreach).2.2 interface domain server

/-- Witness of C12 (amended) on `sample_state`, reached by an append, an
appendWithLifetime with lifetime 60 and an append: one non-expiring entry of
`(eth0, -, 8.8.8.8)`, next to the expiring one. -/
theorem nonexpiring_unique_in_reachable_witness :
    sample_state.entry_list.countP
      (fun e => same_nonexpiring (some "eth0") none (some "8.8.8.8") e) ≤ 1 :=
  nonexpiring_unique_in_reachable sample_env sample_state sample_state_reachable
    (some "eth0") none (some "8.8.8.8")

/-- C12 as stated fails.  Two `connman_resolver_append_lifetime("if0", NULL,
"8.8.8.8", 0)` from the program start leave two non-expiring entries of that
triple; so does init with a fallback list that names `9.9.9.9` twice, and so
does init after `connman_resolver_append(NULL, NULL, "9.9.9.9")`. -/
theorem nonexpiring_duplicates_reachable :
    (reachable sample_env spec_unique_admitted twice_lifetime_zero ∧
      twice_lifetime_zero.entry_list.countP
        (fun e => same_nonexpiring (some "if0") none (some "8.8.8.8") e) = 2) ∧
    (reachable twin_fallback_env spec_unique_admitted
        (__connman_resolver_init twin_fallback_env true State.initial).2 ∧
      (__connman_resolver_init twin_fallback_env true State.initial).2.entry_list.countP
        (fun e => same_nonexpiring none none (some "9.9.9.9") e) = 2) ∧
    (reachable sample_env spec_unique_admitted init_after_append ∧
      init_after_append.entry_list.countP
        (fun e => same_nonexpiring none none (some "9.9.9.9") e) = 2) := by
  refine ⟨⟨?_, by decide⟩, ⟨?_, by decide⟩, ⟨?_, by decide⟩⟩
  · exact reachable.step _ _ (Op.append_lifetime (some "if0") none (some "8.8.8.8") 0)
      (reachable.step _ _ (Op.append_lifetime (some "if0") none (some "8.8.8.8") 0)
        reachable.start trivial rfl) trivial rfl
  · exact reachable.step _ _ (Op.init true) reachable.start trivial rfl
  · exact reachable.step _ _ (Op.init true)
      (reachable.step _ _ (Op.append none none (some "9.9.9.9"))
        reachable.start trivial rfl) trivial rfl

/-! ## Shutdown, exact file content, status of appends -/

theorem sample_state_reachable_by (admitted : State → Op → Prop)
    (happend : ∀ s i d sv, admitted s (Op.append i d sv))
    (hlifetime : ∀ s i d sv lifetime, lifetime ≠ 0 →
      admitted s (Op.append_lifetime i d sv lifetime)) :
    reachable sample_env admitted sample_state := by
  have r1 := reachable.step State.initial _ (Op.append (some "eth0") none (some "8.8.8.8"))
    (reachable.start : reachable sample_env admitted State.initial) (happend _ _ _ _) rfl
  have r2 := reachable.step _ _
    (Op.append_lifetime (some "eth0") none (some "8.8.8.8") 60) r1
    (hlifetime _ _ _ _ _ (by decide)) rfl
  have r3 := reachable.step _ _
    (Op.append (some "wlan0") (some "lan") (some "1.1.1.1")) r2 (happend _ _ _ _) rfl
  rw [sample_state_reached] at r3
  exact r3

/-- C23, at the failing input: `sample_state` is reached by an append, an
appendWithLifetime and an append under the resolv.conf backend;
`__connman_resolver_cleanup` then empties the store but leaves source 1, the
timer of the freed entry at address 2, armed, so an armed timer refers to no
entry of the store and its dispatch has no defined behaviour. -/
theorem cleanup_leaves_timer_armed :
    reachable sample_env spec_timer_admitted (__connman_resolver_cleanup sample_state) ∧
    (__connman_resolver_cleanup sample_state).entry_list = [] ∧
    (__connman_resolver_cleanup sample_state).sources =
      [{ id := 1, interval := 60, user_data := 2 }] ∧
    ¬ timers_live (__connman_resolver_cleanup sample_state) ∧
    timeout_dispatch sample_env { id := 1, interval := 60, user_data := 2 }
      (__connman_resolver_cleanup sample_state) = none := by
  refine ⟨?_, by decide, by decide, by decide, by decide⟩
  exact reachable.step sample_state _ Op.cleanup
    (sample_state_reachable_by spec_timer_admitted (fun _ _ _ _ => trivial)
      (fun _ _ _ _ _ _ => trivial)) trivial rfl

/-- C25, as the code has it: after `__connman_resolver_cleanup` the entry
store is empty under the resolv.conf backend and is the store it was under the
DNS proxy. -/
theorem cleanup_store (s : State) :
    (s.dnsproxy_enabled = false → (__connman_resolver_cleanup s).entry_list = []) ∧
    (s.dnsproxy_enabled = true →
      (__connman_resolver_cleanup s).entry_list = s.entry_list) := by
  constructor
  · intro h
    simp [__connman_resolver_cleanup, h]
  · intro h
    simp [__connman_resolver_cleanup, h, State.emit]

/-- Witness of C25 (amended) on `sample_state`, resolv.conf backend. -/
theorem cleanup_store_witness : (__connman_resolver_cleanup sample_state).entry_list = [] :=
  (cleanup_store sample_state).1 rfl

/-- C25 as stated fails under the DNS proxy: cleanup of `sample_proxy_state`
leaves its four entries in the store. -/
theorem cleanup_keeps_store_under_dnsproxy :
    sample_proxy_state.dnsproxy_enabled = true ∧
    (__connman_resolver_cleanup sample_proxy_state).entry_list =
      sample_proxy_state.entry_list ∧
    (__connman_resolver_cleanup sample_proxy_state).entry_list ≠ [] := by
  decide

/-- C28: the content `resolvfile_export` builds is exactly the header line;
then, iff the list `D` of selected domains is not empty, `search `, each
domain of `D` followed by one space, and the end of line; then
`nameserver <s>` and the end of line for each selected server.  `D` and the
selected servers are taken entry by entry, newest first, without removing
repetitions, so their numbers are `min(MAXDNSRCH, k)` and `min(MAXNS, k)` for
the `k` entries that carry a domain (a server); for the empty store the
content is the header line alone. -/
theorem export_content_exact (env : Env) (list : List resolvfile_entry) :
    export_content env.MAXDNSRCH env.MAXNS list =
      "# Generated by Connection Manager\n" ++
      (if (list.reverse.filterMap (fun e => e.domain)).take env.MAXDNSRCH = [] then ""
       else "search " ++
         concat_text
           (((list.reverse.filterMap (fun e => e.domain)).take env.MAXDNSRCH).map
             (fun d => d ++ " ")) ++ "\n") ++
      concat_text
        (((list.reverse.filterMap (fun e => e.server)).take env.MAXNS).map
          (fun sv => "nameserver " ++ sv ++ "\n")) ∧
    ((list.reverse.filterMap (fun e => e.domain)).take env.MAXDNSRCH).length =
      min env.MAXDNSRCH (list.countP (fun e => e.domain.isSome)) ∧
    ((list.reverse.filterMap (fun e => e.server)).take env.MAXNS).length =
      min env.MAXNS (list.countP (fun e => e.server.isSome)) ∧
    export_content env.MAXDNSRCH env.MAXNS [] = "# Generated by Connection Manager\n" := by
  refine ⟨?_, length_take_filterMap_reverse _ _ _, length_take_filterMap_reverse _ _ _, ?_⟩
  · rw [export_content_eq]
    rfl
  · rw [export_content_eq]
    simp [spec_search_line, spec_selected_domains, spec_selected_servers, concat_text,
      export_header]

/-- C30: with a domain or a server given (for appendWithLifetime: the server)
and the allocation of the entry succeeding, `connman_resolver_append` and
`connman_resolver_append_lifetime` return 0 whatever the backend call
answers, in every world: also when the file write fails or the file entry
cannot be allocated.  The new entry is at the tail of the store (for
appendWithLifetime: when no expiring entry of the triple exists).  With an
absent interface `__connman_resolvfile_append` returns `-ENOENT` and the state
it was given, and the appendWithLifetime that called it under the resolv.conf
backend still returns 0 with the file store, the file and the count of
exports unchanged. -/
theorem append_hides_backend_status (env : Env) (interface domain server : Option String)
    (lifetime_server : String) (lifetime : Nat) (s : State)
    (hpresent : domain ≠ none ∨ server ≠ none)
    (halloc : env.alloc_ok s.alloc_count = true) :
    (connman_resolver_append env interface domain server s).1 = 0 ∧
    (∃ kept, kept.Sublist s.entry_list ∧
      (connman_resolver_append env interface domain server s).2.entry_list =
        kept ++ [{ addr := s.alloc_count, interface := interface, domain := domain,
                   server := server, flags := 0, timeout := 0 }]) ∧
    (connman_resolver_append_lifetime env interface domain (some lifetime_server) lifetime
      s).1 = 0 ∧
    ((∀ e ∈ s.entry_list, ¬ same_expiring interface domain (some lifetime_server) e) →
      (connman_resolver_append_lifetime env interface domain (some lifetime_server) lifetime
        s).2.entry_list =
        s.entry_list ++
          [{ addr := s.alloc_count, interface := interface, domain := domain,
             server := some lifetime_server, flags := 0,
             timeout := if lifetime = 0 then 0 else s.source_count + 1 }]) ∧
    __connman_resolvfile_append env none domain server s = (-ENOENT, s) ∧
    (s.dnsproxy_enabled = false →
      (∀ e ∈ s.entry_list, ¬ same_expiring none domain (some lifetime_server) e) →
      (connman_resolver_append_lifetime env none domain (some lifetime_server) lifetime
        s).1 = 0 ∧
      (connman_resolver_append_lifetime env none domain (some lifetime_server) lifetime
        s).2.resolvfile_list = s.resolvfile_list ∧
      (connman_resolver_append_lifetime env none domain (some lifetime_server) lifetime
        s).2.resolv_conf = s.resolv_conf ∧
      (connman_resolver_append_lifetime env none domain (some lifetime_server) lifetime
        s).2.export_count = s.export_count) := by
  have hv : ¬ (server = none ∧ domain = none) := by
    rintro ⟨h1, h2⟩
    rcases hpresent with h | h
    · exact h h2
    · exact h h1
  have hfindnone : ∀ i : Option String,
      (∀ e ∈ s.entry_list, ¬ same_expiring i domain (some lifetime_server) e) →
      connman_resolver_append_lifetime env i domain (some lifetime_server) lifetime s =
        append_resolver env i domain (some lifetime_server) lifetime 0 s := by
    intro i hnone
    have hfind : s.entry_list.find? (append_lifetime_match i domain (some lifetime_server)) =
        none := by
      rw [List.find?_eq_none]
      intro x hx hp
      exact hnone x hx ((append_lifetime_match_iff _ _ _ x).mp hp)
    simp only [connman_resolver_append_lifetime, hfind, reduceCtorEq, if_false]
  have happ := connman_resolver_append_eq env interface domain server s hv
  rw [append_resolver_nonexpiring_eq env interface domain server 0 _ hv
    (by rw [remove_entries_alloc_count]; exact halloc)] at happ
  refine ⟨by rw [happ], ?_, ?_, ?_, ?_, ?_⟩
  · refine ⟨(remove_entries env
      (s.entry_list.filter (append_match interface domain server)) s).entry_list, ?_, ?_⟩
    · rw [remove_entries_entry_list]
      exact foldl_remove_sublist _ _
    · rw [happ]
      simp only [backend_append_entry_list, remove_entries_alloc_count]
  · unfold connman_resolver_append_lifetime
    simp only [reduceCtorEq, if_false]
    split
    · split_ifs <;> rfl
    · simp [append_resolver, halloc]
  · intro hnone
    rw [hfindnone interface hnone]
    by_cases hl : lifetime = 0
    · simp [append_resolver, halloc, hl, backend_append_entry_list]
    · simp [append_resolver, halloc, hl, backend_append_entry_list,
        notify_service_entry_list, g_timeout_add_seconds]
  · simp [__connman_resolvfile_append]
  · intro hfile hnone
    rw [hfindnone none hnone]
    by_cases hl : lifetime = 0
    · simp [append_resolver, halloc, hl, backend_append, hfile, __connman_resolvfile_append]
    · simp [append_resolver, halloc, hl, backend_append, hfile, __connman_resolvfile_append,
        g_timeout_add_seconds, notify_service_eq env none (some lifetime_server) lifetime _ hl]

/-- Witness of C30 on `sample_state` in a world where every `write` fails
with `errno` 28: the append of `(eth0, -, 4.4.4.4)` returns 0 all the same,
and so does the appendWithLifetime of `(-, -, 4.4.4.4)`, whose file append is
rejected for the absent interface. -/
theorem append_hides_backend_status_witness :
    (connman_resolver_append
      { sample_env with export_outcome := fun _ => file_outcome.write_failed 28 }
      (some "eth0") none (some "4.4.4.4") sample_state).1 = 0 ∧
    (connman_resolver_append_lifetime
      { sample_env with export_outcome := fun _ => file_outcome.write_failed 28 }
      none none (some "4.4.4.4") 30 sample_state).2.resolvfile_list =
      sample_state.resolvfile_list :=
  ⟨(append_hides_backend_status
      { sample_env with export_outcome := fun _ => file_outcome.write_failed 28 }
      (some "eth0") none (some "4.4.4.4") "4.4.4.4" 30 sample_state (by decide) rfl).1,
   ((append_hides_backend_status
      { sample_env with export_outcome := fun _ => file_outcome.write_failed 28 }
      (some "eth0") none (some "4.4.4.4") "4.4.4.4" 30 sample_state (by decide)
      rfl).2.2.2.2.2 rfl (by decide)).2.1⟩

/-! ## Routing of calls -/

theorem trace_ext_refl (K : List EventKind) (t : List Event) : trace_ext K t t :=
  ⟨[], by simp, by simp⟩

theorem trace_ext_trans (K : List EventKind) (t1 t2 t3 : List Event)
    (h1 : trace_ext K t1 t2) (h2 : trace_ext K t2 t3) : trace_ext K t1 t3 := by
  obtain ⟨n1, e1, k1⟩ := h1
  obtain ⟨n2, e2, k2⟩ := h2
  refine ⟨n1 ++ n2, by rw [e2, e1, List.append_assoc], ?_⟩
  intro ev hev
  rcases List.mem_append.mp hev with h | h
  · exact k1 ev h
  · exact k2 ev h

theorem trace_ext_emit (K : List EventKind) (s : State) (ev : Event) (h : ev.kind ∈ K) :
    trace_ext K s.trace (s.emit ev).trace :=
  ⟨[ev], rfl, by simpa using h⟩

theorem notify_service_trace (K : List EventKind) (env : Env) (i : Option String)
    (call : Nat → Event) (s : State) (h : ∀ service, (call service).kind ∈ K) :
    trace_ext K s.trace (notify_service env i call s).trace := by
  unfold notify_service
  simp only
  split_ifs
  · split
    · exact trace_ext_emit K s _ (h _)
    · exact trace_ext_refl K _
  · exact trace_ext_refl K _

theorem resolvfile_export_trace (K : List EventKind) (env : Env) (s : State)
    (h : EventKind.file_export ∈ K) :
    trace_ext K s.trace (resolvfile_export env s).2.trace :=
  ⟨[Event.resolv_conf_export (export_content env.MAXDNSRCH env.MAXNS s.resolvfile_list)],
    rfl, by simpa [Event.kind] using h⟩

theorem resolvfile_remove_trace (K : List EventKind) (env : Env) (i d sv : Option String)
    (s : State) (h : EventKind.file_export ∈ K) :
    trace_ext K s.trace (__connman_resolvfile_remove env i d sv s).2.trace := by
  have := resolvfile_export_trace K env
    (resolvfile_remove_entries (s.resolvfile_list.filter (resolvfile_remove_match i d sv)) s) h
  simpa [__connman_resolvfile_remove, resolvfile_remove_entries_eq] using this

theorem resolvfile_append_trace (K : List EventKind) (env : Env) (i d sv : Option String)
    (s : State) (h : EventKind.file_export ∈ K) :
    trace_ext K s.trace (__connman_resolvfile_append env i d sv s).2.trace := by
  unfold __connman_resolvfile_append
  split_ifs
  · exact trace_ext_refl K _
  · exact trace_ext_refl K _
  · exact resolvfile_export_trace K env _ h

theorem backend_remove_trace (K : List EventKind) (env : Env) (i d sv : Option String)
    (s : State) (hp : s.dnsproxy_enabled = true → EventKind.proxy_remove ∈ K)
    (hf : s.dnsproxy_enabled = false → EventKind.file_export ∈ K) :
    trace_ext K s.trace (backend_remove env i d sv s).trace := by
  unfold backend_remove
  by_cases h : s.dnsproxy_enabled = true
  · simp only [h, if_true]
    exact trace_ext_emit K s _ (hp h)
  · simp only [h, if_false]
    exact resolvfile_remove_trace K env i d sv s (hf (by simpa using h))

theorem backend_append_trace (K : List EventKind) (env : Env) (i d sv : Option String)
    (s : State) (hp : s.dnsproxy_enabled = true → EventKind.proxy_append ∈ K)
    (hf : s.dnsproxy_enabled = false → EventKind.file_export ∈ K) :
    trace_ext K s.trace (backend_append env i d sv s).trace := by
  unfold backend_append
  by_cases h : s.dnsproxy_enabled = true
  · simp only [h, if_true]
    exact trace_ext_emit K s _ (hp h)
  · simp only [h, if_false]
    exact resolvfile_append_trace K env i d sv s (hf (by simpa using h))

theorem backend_remove_dnsproxy_enabled (env : Env) (i d sv : Option String) (s : State) :
    (backend_remove env i d sv s).dnsproxy_enabled = s.dnsproxy_enabled := by
  unfold backend_remove
  split
  · rfl
  · simp [__connman_resolvfile_remove, resolvfile_export, resolvfile_remove_entries_eq]

theorem remove_entries_dnsproxy_enabled (env : Env) (ms : List entry_data) (s : State) :
    (remove_entries env ms s).dnsproxy_enabled = s.dnsproxy_enabled := by
  induction ms generalizing s with
  | nil => rfl
  | cons m ms ih =>
    simp only [remove_entries]
    rw [ih]
    split_ifs <;> simp [g_source_remove, backend_remove_dnsproxy_enabled]

theorem remove_entries_trace (K : List EventKind) (env : Env) (ms : List entry_data)
    (s : State) (hp : s.dnsproxy_enabled = true → EventKind.proxy_remove ∈ K)
    (hf : s.dnsproxy_enabled = false → EventKind.file_export ∈ K) :
    trace_ext K s.trace (remove_entries env ms s).trace := by
  induction ms generalizing s with
  | nil => exact trace_ext_refl K _
  | cons m ms ih =>
    simp only [remove_entries]
    have h1 := backend_remove_trace K env m.interface m.domain m.server
      { s with entry_list := g_slist_remove s.entry_list m } hp hf
    have hflag : ∀ s1 : State, s1.dnsproxy_enabled = s.dnsproxy_enabled →
        trace_ext K s1.trace (remove_entries env ms s1).trace :=
      fun s1 h => ih s1 (by rw [h]; exact hp) (by rw [h]; exact hf)
    split_ifs
    · exact trace_ext_trans K _ _ _ h1
        (hflag _ (by simp [g_source_remove, backend_remove_dnsproxy_enabled]))
    · exact trace_ext_trans K _ _ _ h1 (hflag _ (by simp [backend_remove_dnsproxy_enabled]))

theorem append_resolver_ok_eq (env : Env) (i d sv : Option String) (lifetime flags : Nat)
    (s : State) (hv : ¬ (sv = none ∧ d = none)) (ha : env.alloc_ok s.alloc_count = true) :
    append_resolver env i d sv lifetime flags s =
      (0, backend_append env i d sv (linked_state env i d sv lifetime flags s)) := by
  by_cases hl : lifetime = 0
  · simp [append_resolver, hv, ha, hl, linked_state, spec_service_append_calls]
  · simp [append_resolver, hv, ha, hl, linked_state, g_timeout_add_seconds,
      notify_service_eq env i sv lifetime _ hl]

theorem append_resolver_rejected (env : Env) (i d sv : Option String) (lifetime flags : Nat)
    (s : State) (h : (sv = none ∧ d = none) ∨ env.alloc_ok s.alloc_count = false) :
    (append_resolver env i d sv lifetime flags s).2 = s ∨
    (append_resolver env i d sv lifetime flags s).2 =
      { s with alloc_count := s.alloc_count + 1 } := by
  by_cases hv : sv = none ∧ d = none
  · left; simp [append_resolver, hv]
  · right
    rcases h with h | h
    · exact absurd h hv
    · simp [append_resolver, hv, h]

theorem spec_service_append_calls_kind (env : Env) (i sv : Option String) (lifetime : Nat) :
    ∀ ev ∈ spec_service_append_calls env i sv lifetime,
      ev.kind = EventKind.service_append ∧ lifetime ≠ 0 := by
  intro ev hev
  unfold spec_service_append_calls at hev
  split_ifs at hev with h
  · split at hev
    · simp only [List.mem_singleton] at hev
      rw [hev]
      exact ⟨rfl, h.1⟩
    · simp at hev
  · simp at hev

theorem resolver_expire_cb_trace (K : List EventKind) (env : Env) (e : entry_data)
    (s : State) (hs : EventKind.service_remove ∈ K)
    (hp : s.dnsproxy_enabled = true → EventKind.proxy_remove ∈ K)
    (hf : s.dnsproxy_enabled = false → EventKind.file_export ∈ K) :
    trace_ext K s.trace (resolver_expire_cb env e s).2.trace := by
  unfold resolver_expire_cb
  simp only
  refine trace_ext_trans K _ _ _
    (notify_service_trace K env e.interface
      (fun service => Event.service_nameserver_remove service e.server true) s
      (fun _ => hs)) ?_
  apply remove_entries_trace K env
  · rw [notify_service_dnsproxy_enabled]; exact hp
  · rw [notify_service_dnsproxy_enabled]; exact hf

theorem append_resolver_trace (K : List EventKind) (env : Env) (i d sv : Option String)
    (lifetime flags : Nat) (s : State)
    (hs : lifetime ≠ 0 → EventKind.service_append ∈ K)
    (hp : s.dnsproxy_enabled = true → EventKind.proxy_append ∈ K)
    (hf : s.dnsproxy_enabled = false → EventKind.file_export ∈ K) :
    trace_ext K s.trace (append_resolver env i d sv lifetime flags s).2.trace := by
  by_cases h : (sv = none ∧ d = none) ∨ env.alloc_ok s.alloc_count = false
  · rcases append_resolver_rejected env i d sv lifetime flags s h with h1 | h1
    · rw [h1]; exact trace_ext_refl K _
    · rw [h1]; exact trace_ext_refl K _
  · have hv : ¬ (sv = none ∧ d = none) := fun h1 => h (Or.inl h1)
    have ha : env.alloc_ok s.alloc_count = true := by
      by_contra h1
      exact h (Or.inr (by simpa using h1))
    rw [append_resolver_ok_eq env i d sv lifetime flags s hv ha]
    refine trace_ext_trans K _ (linked_state env i d sv lifetime flags s).trace _ ?_
      (backend_append_trace K env i d sv _ hp hf)
    refine ⟨spec_service_append_calls env i sv lifetime, rfl, ?_⟩
    intro ev hev
    obtain ⟨hk, hl⟩ := spec_service_append_calls_kind env i sv lifetime ev hev
    rw [hk]; exact hs hl

theorem init_fallback_loop_trace (K : List EventKind) (env : Env) (ns : List String)
    (s : State) (hp : s.dnsproxy_enabled = true → EventKind.proxy_append ∈ K)
    (hf : s.dnsproxy_enabled = false → EventKind.file_export ∈ K) :
    trace_ext K s.trace (init_fallback_loop env ns s).trace := by
  induction ns generalizing s with
  | nil => exact trace_ext_refl K _
  | cons a rest ih =>
    rw [init_fallback_loop]
    refine trace_ext_trans K _ _ _
      (append_resolver_trace K env none none (some a) 0 RESOLVER_FLAG_PUBLIC s
        (fun h => absurd rfl h) hp hf) (ih _ ?_ ?_)
    · rw [append_resolver_dnsproxy_enabled]; exact hp
    · rw [append_resolver_dnsproxy_enabled]; exact hf

theorem init_trace (K : List EventKind) (env : Env) (dnsproxy : Bool) (s : State)
    (hi : EventKind.proxy_init ∈ K) (hp : EventKind.proxy_append ∈ K) :
    trace_ext K s.trace (__connman_resolver_init env dnsproxy s).2.trace := by
  unfold __connman_resolver_init
  split_ifs
  · exact trace_ext_refl K _
  · exact trace_ext_emit K s _ hi
  · refine trace_ext_trans K _ _ _ (trace_ext_emit K s Event.dnsproxy_init hi) ?_
    split
    · exact trace_ext_refl K _
    · exact init_fallback_loop_trace K env _ _ (fun _ => hp) (fun h => by simp at h)

theorem append_trace (K : List EventKind) (env : Env) (i d sv : Option String) (s : State)
    (hpr : s.dnsproxy_enabled = true → EventKind.proxy_remove ∈ K)
    (hpa : s.dnsproxy_enabled = true → EventKind.proxy_append ∈ K)
    (hf : s.dnsproxy_enabled = false → EventKind.file_export ∈ K) :
    trace_ext K s.trace (connman_resolver_append env i d sv s).2.trace := by
  by_cases hv : sv = none ∧ d = none
  · simp only [connman_resolver_append, hv, and_self, if_true]
    exact trace_ext_refl K _
  · rw [connman_resolver_append_eq env i d sv s hv]
    refine trace_ext_trans K _ _ _ (remove_entries_trace K env _ s hpr hf)
      (append_resolver_trace K env i d sv 0 0 _ (fun h => absurd rfl h) ?_ ?_)
    · rw [remove_entries_dnsproxy_enabled]; exact hpa
    · rw [remove_entries_dnsproxy_enabled]; exact hf

theorem append_lifetime_trace (K : List EventKind) (env : Env) (i d sv : Option String)
    (lifetime : Nat) (s : State)
    (hsa : lifetime ≠ 0 → EventKind.service_append ∈ K)
    (hsr : lifetime = 0 → EventKind.service_remove ∈ K)
    (hpr : lifetime = 0 → s.dnsproxy_enabled = true → EventKind.proxy_remove ∈ K)
    (hpa : s.dnsproxy_enabled = true → EventKind.proxy_append ∈ K)
    (hf : s.dnsproxy_enabled = false → EventKind.file_export ∈ K) :
    trace_ext K s.trace (connman_resolver_append_lifetime env i d sv lifetime s).2.trace := by
  unfold connman_resolver_append_lifetime
  by_cases hs : sv = none
  · simp only [hs, if_true]
    exact trace_ext_refl K _
  · simp only [hs, if_false]
    cases hfind : s.entry_list.find? (append_lifetime_match i d sv) with
    | some e =>
      simp only
      by_cases hl : lifetime = 0
      · simp only [hl, if_true]
        exact resolver_expire_cb_trace K env e (g_source_remove s e.timeout) (hsr hl)
          (hpr hl) hf
      · simp only [hl, if_false]
        exact trace_ext_refl K _
    | none => exact append_resolver_trace K env i d sv lifetime 0 s hsa hpa hf

theorem remove_trace (K : List EventKind) (env : Env) (i d sv : Option String) (s : State)
    (hp : s.dnsproxy_enabled = true → EventKind.proxy_remove ∈ K)
    (hf : s.dnsproxy_enabled = false → EventKind.file_export ∈ K) :
    trace_ext K s.trace (connman_resolver_remove env i d sv s).2.trace := by
  simp only [connman_resolver_remove]
  split_ifs
  · exact trace_ext_refl K _
  · exact trace_ext_refl K _
  · exact remove_entries_trace K env _ s hp hf

theorem remove_all_trace (K : List EventKind) (env : Env) (i : Option String) (s : State)
    (hp : s.dnsproxy_enabled = true → EventKind.proxy_remove ∈ K)
    (hf : s.dnsproxy_enabled = false → EventKind.file_export ∈ K) :
    trace_ext K s.trace (connman_resolver_remove_all env i s).2.trace := by
  simp only [connman_resolver_remove_all]
  split_ifs
  · exact trace_ext_refl K _
  · exact trace_ext_refl K _
  · exact remove_entries_trace K env _ s hp hf

theorem dispatch_trace (K : List EventKind) (env : Env) (src : timeout_source)
    (s s' : State) (hrun : timeout_dispatch env src s = some s')
    (hs : EventKind.service_remove ∈ K)
    (hp : s.dnsproxy_enabled = true → EventKind.proxy_remove ∈ K)
    (hf : s.dnsproxy_enabled = false → EventKind.file_export ∈ K) :
    trace_ext K s.trace s'.trace := by
  unfold timeout_dispatch at hrun
  split_ifs at hrun
  split at hrun
  · rename_i entry _
    simp only [Option.some.injEq] at hrun
    rw [← hrun]
    split_ifs
    · exact resolver_expire_cb_trace K env entry s hs hp hf
    · exact resolver_expire_cb_trace K env entry s hs hp hf
  · exact Option.noConfusion hrun

theorem spec_redo_calls_kind (i : Option String) (l : List entry_data) :
    ∀ ev ∈ spec_redo_calls i l,
      ev.kind = EventKind.proxy_remove ∨ ev.kind = EventKind.proxy_append := by
  intro ev hev
  simp only [spec_redo_calls, List.mem_flatMap] at hev
  obtain ⟨e, _, he⟩ := hev
  simp only [List.mem_cons, List.mem_singleton, List.not_mem_nil, or_false] at he
  rcases he with he | he
  · left; rw [he]; rfl
  · right; rw [he]; rfl

/-- Every request extends the trace by calls of the kinds the routing table
`may_emit` lists for it under the backend flag of the state. -/
theorem op_trace (env : Env) (op : Op) (s s' : State) (hrun : op.run env s = some s') :
    trace_ext (may_emit op s.dnsproxy_enabled) s.trace s'.trace := by
  cases op with
  | init b =>
    simp only [Op.run, Option.some.injEq] at hrun
    rw [← hrun]
    exact init_trace _ env b s (by simp [may_emit]) (by simp [may_emit])
  | append i d sv =>
    simp only [Op.run, Option.some.injEq] at hrun
    rw [← hrun]
    apply append_trace _ env i d sv s <;> intro h <;> simp [may_emit, h]
  | append_lifetime i d sv lifetime =>
    simp only [Op.run, Option.some.injEq] at hrun
    rw [← hrun]
    by_cases hl : lifetime = 0 <;> cases hflag : s.dnsproxy_enabled <;>
      apply append_lifetime_trace _ env i d sv lifetime s <;> intros <;>
      simp_all [may_emit]
  | remove i d sv =>
    simp only [Op.run, Option.some.injEq] at hrun
    rw [← hrun]
    apply remove_trace _ env i d sv s <;> intro h <;> simp [may_emit, h]
  | remove_all i =>
    simp only [Op.run, Option.some.injEq] at hrun
    rw [← hrun]
    apply remove_all_trace _ env i s <;> intro h <;> simp [may_emit, h]
  | expire src =>
    simp only [Op.run] at hrun
    cases hflag : s.dnsproxy_enabled <;>
      apply dispatch_trace _ env src s s' hrun <;> intros <;> simp_all [may_emit]
  | flush =>
    simp only [Op.run, Option.some.injEq] at hrun
    rw [← hrun]
    unfold connman_resolver_flush
    split_ifs with h
    · exact trace_ext_emit _ s _ (by simp [may_emit, h, Event.kind])
    · exact trace_ext_refl _ _
  | redo_servers i =>
    simp only [Op.run, Option.some.injEq] at hrun
    rw [← hrun]
    unfold __connman_resolver_redo_servers
    split_ifs with h1 h2
    · exact trace_ext_refl _ _
    · exact trace_ext_refl _ _
    · have hflag : s.dnsproxy_enabled = true := by simpa using h1
      rw [redo_servers_loop_eq]
      refine ⟨spec_redo_calls i s.entry_list, rfl, ?_⟩
      intro ev hev
      rcases spec_redo_calls_kind i s.entry_list ev hev with h | h <;>
        simp [may_emit, hflag, h]
  | cleanup =>
    simp only [Op.run, Option.some.injEq] at hrun
    rw [← hrun]
    unfold __connman_resolver_cleanup
    split_ifs with h
    · exact trace_ext_emit _ s _ (by simp [may_emit, h, Event.kind])
    · exact trace_ext_refl _ _

theorem trace_ext_without (K : List EventKind) (k : EventKind) (t t' : List Event)
    (h : trace_ext K t t') (hk : k ∉ K) :
    ∃ new, t' = t ++ new ∧ ∀ ev ∈ new, ev.kind ≠ k := by
  obtain ⟨new, hnew, hkinds⟩ := h
  exact ⟨new, hnew, fun ev hev heq => hk (heq ▸ hkinds ev hev)⟩

/-- C29: `connman_resolver_remove`, `connman_resolver_remove_all` and
`connman_resolver_append` (with its replacement step) extend the trace only
by calls other than `nameserverRemove`, in every state; a request whose calls
include a `nameserverRemove` is a timer expiry or an appendWithLifetime with
lifetime 0.  On `sample_proxy_state`, removing the expiring `(eth0, -,
8.8.8.8)`, whose creation told the service, records the DNS proxy remove
alone. -/
theorem explicit_removal_skips_service (env : Env) (s : State) :
    (∀ i d sv, ∃ new, (connman_resolver_remove env i d sv s).2.trace = s.trace ++ new ∧
      ∀ ev ∈ new, ev.kind ≠ EventKind.service_remove) ∧
    (∀ i, ∃ new, (connman_resolver_remove_all env i s).2.trace = s.trace ++ new ∧
      ∀ ev ∈ new, ev.kind ≠ EventKind.service_remove) ∧
    (∀ i d sv, ∃ new, (connman_resolver_append env i d sv s).2.trace = s.trace ++ new ∧
      ∀ ev ∈ new, ev.kind ≠ EventKind.service_remove) ∧
    (∀ op s' new, op.run env s = some s' → s'.trace = s.trace ++ new →
      (∃ ev ∈ new, ev.kind = EventKind.service_remove) →
      (∃ src, op = Op.expire src) ∨ (∃ i d sv, op = Op.append_lifetime i d sv 0)) ∧
    (connman_resolver_remove sample_env (some "eth0") none (some "8.8.8.8")
      sample_proxy_state).2.trace =
      sample_proxy_state.trace ++
        [Event.dnsproxy_remove (some "eth0") none (some "8.8.8.8")] := by
  refine ⟨fun i d sv => ?_, fun i => ?_, fun i d sv => ?_, ?_, by decide⟩
  · exact trace_ext_without [EventKind.proxy_remove, EventKind.file_export] _ _ _
      (remove_trace _ env i d sv s (by simp) (by simp)) (by decide)
  · exact trace_ext_without [EventKind.proxy_remove, EventKind.file_export] _ _ _
      (remove_all_trace _ env i s (by simp) (by simp)) (by decide)
  · exact trace_ext_without
      [EventKind.proxy_remove, EventKind.proxy_append, EventKind.file_export] _ _ _
      (append_trace _ env i d sv s (by simp) (by simp) (by simp)) (by decide)
  · intro op s' new hrun htrace ⟨ev, hev, hkind⟩
    obtain ⟨new2, hnew2, hk⟩ := op_trace env op s s' hrun
    have hsame : new2 = new := List.append_cancel_left (hnew2.symm.trans htrace)
    have hmem := hk ev (hsame ▸ hev)
    rw [hkind] at hmem
    cases op with
    | expire src => exact Or.inl ⟨src, rfl⟩
    | append_lifetime i d sv lifetime =>
      by_cases hl : lifetime = 0
      · exact Or.inr ⟨i, d, sv, by rw [hl]⟩
      · cases hflag : s.dnsproxy_enabled <;> simp [may_emit, hflag, hl] at hmem
    | _ => cases hflag : s.dnsproxy_enabled <;> simp [may_emit, hflag] at hmem

/-! ## The invariant of runs -/

theorem run_ok_of_core (s s' : State) (h : run_ok s)
    (hl : s'.entry_list = s.entry_list) (hs : s'.sources = s.sources)
    (hc : s.source_count ≤ s'.source_count) (ha : s.alloc_count ≤ s'.alloc_count) :
    run_ok s' := by
  obtain ⟨⟨h1, h2⟩, h3, t1, t2, t3, t4⟩ := h
  refine ⟨⟨by rw [hl]; exact h1, fun e he => ?_⟩, by rw [hl]; exact h3, by rw [hs]; exact t1,
    fun src hsrc => ?_, fun x hx hxt => ?_, fun src hsrc x hx => ?_⟩
  · rw [hl] at he
    exact Nat.lt_of_lt_of_le (h2 e he) ha
  · rw [hs] at hsrc
    obtain ⟨a, b, c⟩ := t2 src hsrc
    exact ⟨a, Nat.le_trans b hc, Nat.lt_of_lt_of_le c ha⟩
  · rw [hl] at hx
    rw [hs]
    exact t3 x hx hxt
  · rw [hs] at hsrc
    rw [hl] at hx
    exact t4 src hsrc x hx

theorem mem_remove_of_addr_ne (l : List entry_data) (m x : entry_data) (hx : x ∈ l)
    (hne : x.addr ≠ m.addr) : x ∈ g_slist_remove l m := by
  unfold g_slist_remove
  exact (List.mem_eraseP_of_neg (by simpa using hne)).mpr hx

theorem addr_ne_of_mem_of_ne (l : List entry_data) (h : addr_distinct l) (x m : entry_data)
    (hx : x ∈ l) (hm : m ∈ l) (hne : x ≠ m) : x.addr ≠ m.addr :=
  fun e => hne (List.inj_on_of_nodup_map h hx hm e)

/-- Unlinking an entry of the store and destroying its source keeps the
invariant. -/
theorem run_ok_unlink (s s' : State) (m : entry_data) (h : run_ok s)
    (hm : m ∈ s.entry_list)
    (hl : s'.entry_list = g_slist_remove s.entry_list m)
    (hs : s'.sources = s.sources ∨
      (m.timeout ≠ 0 ∧ s'.sources = s.sources.filter (fun src => src.id != m.timeout)))
    (hc : s'.source_count = s.source_count) (ha : s'.alloc_count = s.alloc_count) :
    run_ok s' := by
  obtain ⟨⟨h1, h2⟩, h3, t1, t2, t3, t4⟩ := h
  have hsub : s'.entry_list.Sublist s.entry_list := by
    rw [hl]; exact List.eraseP_sublist _
  have hsrc_sub : s'.sources.Sublist s.sources := by
    rcases hs with hs | ⟨_, hs⟩
    · rw [hs]
    · rw [hs]; exact List.filter_sublist _
  have hlist := g_slist_remove_eq_filter _ _ h1 hm
  refine ⟨⟨List.Nodup.sublist (hsub.map _) h1, fun e he => ?_⟩, fun i d sv => ?_,
    List.Nodup.sublist (hsrc_sub.map _) t1, fun src hsrc => ?_, fun x hx hxt => ?_,
    fun src hsrc x hx => t4 src (hsrc_sub.subset hsrc) x (hsub.subset hx)⟩
  · rw [ha]; exact h2 e (hsub.subset he)
  · exact Nat.le_trans (hsub.countP_le _) (h3 i d sv)
  · rw [hc, ha]; exact t2 src (hsrc_sub.subset hsrc)
  · have hxl : x ∈ s.entry_list := hsub.subset hx
    have hxm : x ≠ m := by
      rw [hl, hlist] at hx
      simpa using (List.mem_filter.mp hx).2
    obtain ⟨iv, hiv⟩ := t3 x hxl hxt
    refine ⟨iv, ?_⟩
    rcases hs with hs | ⟨hmt, hs⟩
    · rw [hs]; exact hiv
    · rw [hs]
      refine List.mem_filter.mpr ⟨hiv, ?_⟩
      simp only [bne_iff_ne, ne_eq]
      intro heq
      obtain ⟨iv2, hiv2⟩ := t3 m hm hmt
      have hsame : (⟨x.timeout, iv, x.addr⟩ : timeout_source) = ⟨m.timeout, iv2, m.addr⟩ :=
        List.inj_on_of_nodup_map t1 hiv hiv2 heq
      have : x.addr = m.addr := by
        have := congrArg timeout_source.user_data hsame
        simpa using this
      exact addr_ne_of_mem_of_ne _ h1 x m hxl hm hxm this

theorem backend_remove_sources (env : Env) (i d sv : Option String) (s : State) :
    (backend_remove env i d sv s).sources = s.sources ∧
    (backend_remove env i d sv s).source_count = s.source_count := by
  unfold backend_remove
  split
  · exact ⟨rfl, rfl⟩
  · simp [__connman_resolvfile_remove, resolvfile_export, resolvfile_remove_entries_eq]

theorem backend_append_sources (env : Env) (i d sv : Option String) (s : State) :
    (backend_append env i d sv s).sources = s.sources ∧
    (backend_append env i d sv s).source_count = s.source_count := by
  unfold backend_append __connman_resolvfile_append
  split
  · exact ⟨rfl, rfl⟩
  · split_ifs <;> simp [resolvfile_export]

theorem notify_service_sources (env : Env) (i : Option String) (call : Nat → Event)
    (s : State) :
    (notify_service env i call s).sources = s.sources ∧
    (notify_service env i call s).source_count = s.source_count := by
  unfold notify_service
  simp only
  split_ifs
  · split <;> exact ⟨rfl, rfl⟩
  · exact ⟨rfl, rfl⟩

theorem run_ok_remove_entries (env : Env) (ms : List entry_data) (s : State)
    (h : run_ok s) (hnodup : ms.Nodup) (hmem : ∀ m ∈ ms, m ∈ s.entry_list) :
    run_ok (remove_entries env ms s) := by
  induction ms generalizing s with
  | nil => exact h
  | cons m ms ih =>
    simp only [remove_entries]
    have hm : m ∈ s.entry_list := hmem m (List.mem_cons_self _ _)
    have hnd := List.nodup_cons.mp hnodup
    have hbs := backend_remove_sources env m.interface m.domain m.server
      { s with entry_list := g_slist_remove s.entry_list m }
    apply ih _ _ hnd.2
    · intro r hr
      have hrl : r ∈ s.entry_list := hmem r (List.mem_cons_of_mem _ hr)
      have hne : r ≠ m := fun e => hnd.1 (e ▸ hr)
      have := mem_remove_of_addr_ne s.entry_list m r hrl
        (addr_ne_of_mem_of_ne _ h.1.1 r m hrl hm hne)
      split_ifs <;> simpa [g_source_remove, backend_remove_entry_list] using this
    · by_cases hmt : m.timeout = 0
      · simp only [hmt, ne_eq, not_true_eq_false, if_false]
        exact run_ok_unlink s _ m h hm (by simp [backend_remove_entry_list])
          (Or.inl hbs.1) hbs.2 (by simp [backend_remove_alloc_count])
      · simp only [hmt, ne_eq, not_false_eq_true, if_true]
        exact run_ok_unlink s _ m h hm
          (by simp [g_source_remove, backend_remove_entry_list])
          (Or.inr ⟨hmt, by simp [g_source_remove, hbs.1]⟩)
          (by simp [g_source_remove, hbs.2])
          (by simp [g_source_remove, backend_remove_alloc_count])

/-- Linking a new entry at the address of the allocation counter, with a new
source when its lifetime is not 0, keeps the invariant, provided no expiring
entry of the triple is in the store when the new one is expiring. -/
theorem run_ok_link (env : Env) (i d sv : Option String) (lifetime flags : Nat) (s : State)
    (h : run_ok s)
    (hnew : lifetime = 0 ∨ ∀ x ∈ s.entry_list, ¬ same_expiring i d sv x) :
    run_ok (linked_state env i d sv lifetime flags s) := by
  obtain ⟨⟨h1, h2⟩, h3, t1, t2, t3, t4⟩ := h
  have hsplit : ∀ src ∈ (linked_state env i d sv lifetime flags s).sources,
      src ∈ s.sources ∨
        (lifetime ≠ 0 ∧ src = ⟨s.source_count + 1, lifetime, s.alloc_count⟩) := by
    intro src hsrc
    by_cases hl : lifetime = 0
    · left; simpa [linked_state, hl] using hsrc
    · simp only [linked_state, hl, if_false, List.mem_append, List.mem_singleton] at hsrc
      rcases hsrc with hsrc | hsrc
      · exact Or.inl hsrc
      · exact Or.inr ⟨hl, hsrc⟩
  refine ⟨⟨?_, ?_⟩, ?_, ?_, ?_, ?_, ?_⟩
  · unfold addr_distinct
    simp only [linked_state, List.map_append, List.map_singleton]
    apply List.Nodup.append h1 (List.nodup_singleton _)
    intro a ha hb
    obtain ⟨e, he, rfl⟩ := List.mem_map.mp ha
    have hlt := h2 e he
    have : e.addr = s.alloc_count := by simpa using hb
    omega
  · intro e he
    simp only [linked_state, List.mem_append, List.mem_singleton] at he ⊢
    rcases he with he | he
    · exact Nat.lt_succ_of_lt (h2 e he)
    · rw [he]; exact Nat.lt_succ_self _
  · intro i' d' sv'
    simp only [linked_state, List.countP_append]
    by_cases hp : same_expiring i' d' sv'
        (⟨s.alloc_count, i, d, sv, flags,
          if lifetime = 0 then 0 else s.source_count + 1⟩ : entry_data)
    · have hz : s.entry_list.countP (fun e => same_expiring i' d' sv' e) = 0 := by
        rw [List.countP_eq_zero]
        intro e he
        rcases hnew with hnew | hnew
        · exact absurd (by simp [hnew]) hp.1
        · have := hnew e he
          obtain ⟨_, hi, hd, hs⟩ := hp
          simp only at hi hd hs
          rw [hi, hd, hs] at this
          simpa using this
      rw [hz]
      simp [List.countP_cons, hp]
    · have : [(⟨s.alloc_count, i, d, sv, flags,
          if lifetime = 0 then 0 else s.source_count + 1⟩ :
          entry_data)].countP (fun e => same_expiring i' d' sv' e) = 0 := by
        simp [List.countP_cons, hp]
      rw [this]
      exact h3 i' d' sv'
  · by_cases hl : lifetime = 0
    · simpa [linked_state, hl] using t1
    · simp only [linked_state, hl, if_false, List.map_append, List.map_singleton]
      apply List.Nodup.append t1 (List.nodup_singleton _)
      intro a ha hb
      obtain ⟨src, hsrc, rfl⟩ := List.mem_map.mp ha
      have := (t2 src hsrc).2.1
      have : src.id = s.source_count + 1 := by simpa using hb
      omega
  · intro src hsrc
    rcases hsplit src hsrc with hold | ⟨hl, hnewsrc⟩
    · obtain ⟨a, b, c⟩ := t2 src hold
      refine ⟨a, ?_, ?_⟩
      · simp only [linked_state]
        split_ifs <;> omega
      · simp only [linked_state]; omega
    · rw [hnewsrc]
      simp [linked_state, hl]
  · intro x hx hxt
    simp only [linked_state, List.mem_append, List.mem_singleton] at hx
    rcases hx with hx | hx
    · obtain ⟨iv, hiv⟩ := t3 x hx hxt
      refine ⟨iv, ?_⟩
      simp only [linked_state]
      split_ifs
      · exact hiv
      · exact List.mem_append_left _ hiv
    · have hl : lifetime ≠ 0 := by
        intro hl
        rw [hx] at hxt
        simp [hl] at hxt
      refine ⟨lifetime, ?_⟩
      rw [hx]
      simp [linked_state, hl]
  · intro src hsrcm x hx hux
    simp only [linked_state, List.mem_append, List.mem_singleton] at hx
    rcases hsplit src hsrcm with hold | ⟨hl, hnewsrc⟩
    · rcases hx with hx | hx
      · exact t4 src hold x hx hux
      · have := (t2 src hold).2.2
        rw [hx] at hux
        simp only at hux
        omega
    · rcases hx with hx | hx
      · have := h2 x hx
        rw [hnewsrc] at hux
        simp only at hux
        omega
      · rw [hnewsrc, hx]
        simp [hl]

/-- Re-arming the timer of an expiring entry of the store keeps the
invariant. -/
theorem run_ok_retime (s s' : State) (e : entry_data) (lifetime : Nat) (h : run_ok s)
    (he : e ∈ s.entry_list) (het : e.timeout ≠ 0)
    (hl : s'.entry_list = s.entry_list.map
      (fun x => if x.addr = e.addr then { x with timeout := s.source_count + 1 } else x))
    (hs : s'.sources = s.sources.filter (fun src => src.id != e.timeout) ++
      [⟨s.source_count + 1, lifetime, e.addr⟩])
    (hc : s'.source_count = s.source_count + 1) (ha : s'.alloc_count = s.alloc_count) :
    run_ok s' := by
  obtain ⟨⟨h1, h2⟩, h3, t1, t2, t3, t4⟩ := h
  have haddr : s'.entry_list.map (fun e => e.addr) = s.entry_list.map (fun e => e.addr) := by
    rw [hl, List.map_map]
    apply List.map_congr_left
    intro x _
    simp only [Function.comp]
    split_ifs <;> rfl
  have hfix : ∀ x ∈ s.entry_list, x.addr = e.addr → x = e :=
    fun x hx hxa => List.inj_on_of_nodup_map h1 hx he hxa
  have hmem : ∀ x' ∈ s'.entry_list,
      (x' = { e with timeout := s.source_count + 1 }) ∨
        (x' ∈ s.entry_list ∧ x'.addr ≠ e.addr) := by
    intro x' hx'
    rw [hl] at hx'
    obtain ⟨x, hx, hfx⟩ := List.mem_map.mp hx'
    by_cases hxa : x.addr = e.addr
    · left
      rw [← hfx, if_pos hxa, hfix x hx hxa]
    · right
      rw [if_neg hxa] at hfx
      rw [← hfx]; exact ⟨hx, hxa⟩
  have hsrcmem : ∀ src ∈ s'.sources,
      (src ∈ s.sources ∧ src.id ≠ e.timeout) ∨
        src = ⟨s.source_count + 1, lifetime, e.addr⟩ := by
    intro src hsrc
    rw [hs] at hsrc
    rcases List.mem_append.mp hsrc with h | h
    · left
      have := List.mem_filter.mp h
      exact ⟨this.1, by simpa using this.2⟩
    · right; simpa using h
  refine ⟨⟨?_, ?_⟩, ?_, ?_, ?_, ?_, ?_⟩
  · unfold addr_distinct
    rw [haddr]; exact h1
  · intro x hx
    have : x.addr ∈ s'.entry_list.map (fun e => e.addr) := List.mem_map.mpr ⟨x, hx, rfl⟩
    rw [haddr] at this
    obtain ⟨y, hy, hya⟩ := List.mem_map.mp this
    have := h2 y hy
    rw [ha]
    omega
  · intro i d sv
    rw [hl, List.countP_map]
    refine Nat.le_trans (Nat.le_of_eq ?_) (h3 i d sv)
    apply List.countP_congr
    intro x hx
    simp only [Function.comp, decide_eq_true_eq]
    by_cases hxa : x.addr = e.addr
    · rw [if_pos hxa, hfix x hx hxa]
      simp [same_expiring, het]
    · rw [if_neg hxa]
  · rw [hs, List.map_append, List.map_singleton]
    apply List.Nodup.append (List.Nodup.sublist ((List.filter_sublist _).map _) t1)
      (List.nodup_singleton _)
    intro a ha1 hb
    obtain ⟨src, hsrc, rfl⟩ := List.mem_map.mp ha1
    have := (t2 src (List.mem_filter.mp hsrc).1).2.1
    have : src.id = s.source_count + 1 := by simpa using hb
    omega
  · intro src hsrc
    rw [hc, ha]
    rcases hsrcmem src hsrc with ⟨hold, _⟩ | hnew
    · obtain ⟨a, b, c⟩ := t2 src hold
      exact ⟨a, Nat.le_succ_of_le b, c⟩
    · rw [hnew]
      exact ⟨Nat.succ_ne_zero _, Nat.le_refl _, h2 e he⟩
  · intro x' hx' hxt
    rcases hmem x' hx' with heq | ⟨hx, hxa⟩
    · refine ⟨lifetime, ?_⟩
      rw [hs, heq]
      exact List.mem_append_right _ (by simp)
    · obtain ⟨iv, hiv⟩ := t3 x' hx hxt
      refine ⟨iv, ?_⟩
      rw [hs]
      refine List.mem_append_left _ (List.mem_filter.mpr ⟨hiv, ?_⟩)
      simp only [bne_iff_ne, ne_eq]
      intro heq
      obtain ⟨iv2, hiv2⟩ := t3 e he het
      have hsame : (⟨x'.timeout, iv, x'.addr⟩ : timeout_source) = ⟨e.timeout, iv2, e.addr⟩ :=
        List.inj_on_of_nodup_map t1 hiv hiv2 heq
      have : x'.addr = e.addr := by
        have := congrArg timeout_source.user_data hsame
        simpa using this
      exact hxa this
  · intro src hsrc x' hx' hux
    rcases hsrcmem src hsrc with ⟨hold, hid⟩ | hnew
    · rcases hmem x' hx' with heq | ⟨hx, hxa⟩
      · have hue : src.user_data = e.addr := by rw [hux, heq]
        exact absurd (t4 src hold e he hue) hid
      · exact t4 src hold x' hx hux
    · rcases hmem x' hx' with heq | ⟨hx, hxa⟩
      · rw [hnew, heq]
      · rw [hnew] at hux
        exact absurd hux.symm hxa

theorem run_ok_append_resolver (env : Env) (i d sv : Option String) (lifetime flags : Nat)
    (s : State) (h : run_ok s)
    (hnew : lifetime = 0 ∨ ∀ x ∈ s.entry_list, ¬ same_expiring i d sv x) :
    run_ok (append_resolver env i d sv lifetime flags s).2 := by
  by_cases hv : sv = none ∧ d = none
  · rcases append_resolver_rejected env i d sv lifetime flags s (Or.inl hv) with hr | hr <;>
      rw [hr]
    · exact h
    · exact run_ok_of_core s _ h rfl rfl (Nat.le_refl _) (Nat.le_succ _)
  · by_cases ha : env.alloc_ok s.alloc_count = true
    · rw [append_resolver_ok_eq env i d sv lifetime flags s hv ha]
      exact run_ok_of_core _ _ (run_ok_link env i d sv lifetime flags s h hnew)
        (backend_append_entry_list _ _ _ _ _) (backend_append_sources _ _ _ _ _).1
        (Nat.le_of_eq (backend_append_sources _ _ _ _ _).2.symm)
        (backend_append_alloc_count_ge _ _ _ _ _)
    · rcases append_resolver_rejected env i d sv lifetime flags s
        (Or.inr (by simpa using ha)) with hr | hr <;> rw [hr]
      · exact h
      · exact run_ok_of_core s _ h rfl rfl (Nat.le_refl _) (Nat.le_succ _)

theorem run_ok_expire (env : Env) (e : entry_data) (s : State) (h : run_ok s)
    (he : e ∈ s.entry_list) : run_ok (resolver_expire_cb env e s).2 := by
  simp only [resolver_expire_cb]
  apply run_ok_remove_entries env [e] _ _ (List.nodup_singleton e)
  · intro m hm
    rw [notify_service_entry_list]
    rw [List.mem_singleton.mp hm]; exact he
  · exact run_ok_of_core s _ h (notify_service_entry_list _ _ _ _)
      (notify_service_sources _ _ _ _).1
      (Nat.le_of_eq (notify_service_sources _ _ _ _).2.symm)
      (Nat.le_of_eq (notify_service_alloc_count _ _ _ _).symm)

theorem nodup_of_addr_distinct (l : List entry_data) (h : addr_distinct l) : l.Nodup :=
  List.Nodup.of_map _ h

theorem run_ok_append (env : Env) (i d sv : Option String) (s : State) (h : run_ok s) :
    run_ok (connman_resolver_append env i d sv s).2 := by
  unfold connman_resolver_append
  split_ifs with hv
  · exact h
  · simp only
    apply run_ok_append_resolver _ _ _ _ _ _ _ _ (Or.inl rfl)
    split_ifs
    · exact run_ok_remove_entries env _ s h
        ((nodup_of_addr_distinct _ h.1.1).filter _) (fun m hm => (List.mem_filter.mp hm).1)
    · exact h

theorem run_ok_append_lifetime (env : Env) (i d sv : Option String) (lifetime : Nat)
    (s : State) (h : run_ok s) :
    run_ok (connman_resolver_append_lifetime env i d sv lifetime s).2 := by
  unfold connman_resolver_append_lifetime
  by_cases hv : sv = none
  · rw [if_pos hv]; exact h
  · rw [if_neg hv]
    cases hfind : s.entry_list.find? (append_lifetime_match i d sv) with
    | none =>
      simp only
      apply run_ok_append_resolver _ _ _ _ _ _ _ h
      right
      intro x hx hsame
      have := List.find?_eq_none.mp hfind x hx
      exact this ((append_lifetime_match_iff i d sv x).mpr hsame)
    | some e =>
      have he : e ∈ s.entry_list := List.mem_of_find?_eq_some hfind
      have het : e.timeout ≠ 0 :=
        ((append_lifetime_match_iff i d sv e).mp (List.find?_some hfind)).1
      simp only
      by_cases hl : lifetime = 0
      · rw [if_pos hl]
        simp only
        rw [resolver_expire_cb_source_remove env e s het]
        exact run_ok_expire env e s h he
      · rw [if_neg hl]
        exact run_ok_retime s _ e lifetime h he het rfl rfl rfl rfl

theorem run_ok_remove (env : Env) (i d sv : Option String) (s : State) (h : run_ok s) :
    run_ok (connman_resolver_remove env i d sv s).2 := by
  simp only [connman_resolver_remove]
  split_ifs
  · exact h
  · exact h
  · exact run_ok_remove_entries env _ s h
      ((nodup_of_addr_distinct _ h.1.1).filter _) (fun m hm => (List.mem_filter.mp hm).1)

theorem run_ok_remove_all (env : Env) (i : Option String) (s : State) (h : run_ok s) :
    run_ok (connman_resolver_remove_all env i s).2 := by
  simp only [connman_resolver_remove_all]
  split_ifs
  · exact h
  · exact h
  · exact run_ok_remove_entries env _ s h
      ((nodup_of_addr_distinct _ h.1.1).filter _) (fun m hm => (List.mem_filter.mp hm).1)

/-- What a dispatch that runs does, in a state of a run: the source is the
timer of an expiring entry of the store, and the state afterwards is the one
the callback on that entry ends in. -/
theorem dispatch_in_run (env : Env) (src : timeout_source) (s s' : State) (h : run_ok s)
    (hrun : timeout_dispatch env src s = some s') :
    ∃ x ∈ s.entry_list, x.timeout ≠ 0 ∧ x.addr = src.user_data ∧ x.timeout = src.id ∧
      s' = (resolver_expire_cb env x s).2 := by
  have hrun0 := hrun
  unfold timeout_dispatch at hrun
  split_ifs at hrun with hsrc
  cases hfind : s.entry_list.find? (fun e => e.addr == src.user_data) with
  | none => rw [hfind] at hrun; exact Option.noConfusion hrun
  | some x =>
    have hx : x ∈ s.entry_list := List.mem_of_find?_eq_some hfind
    have hxa : x.addr = src.user_data := by simpa using List.find?_some hfind
    have hid : src.id = x.timeout := h.2.2.2.2.2 src hsrc x hx hxa.symm
    have hxt : x.timeout ≠ 0 := by
      rw [← hid]; exact (h.2.2.2.1 src hsrc).1
    refine ⟨x, hx, hxt, hxa, hid.symm, ?_⟩
    have hsrceq : src = ⟨x.timeout, src.interval, x.addr⟩ := by
      cases src
      simp only at hid hxa
      simp [hid, hxa]
    have := timeout_dispatch_eq_expire env s x src.interval h.1.1 hx hxt (by rw [← hsrceq]; exact hsrc)
    rw [← hsrceq, hrun0] at this
    exact Option.some.inj this

theorem run_ok_dispatch (env : Env) (src : timeout_source) (s s' : State) (h : run_ok s)
    (hrun : timeout_dispatch env src s = some s') : run_ok s' := by
  obtain ⟨x, hx, _, _, _, rfl⟩ := dispatch_in_run env src s s' h hrun
  exact run_ok_expire env x s h hx

theorem run_ok_init_loop (env : Env) (ns : List String) (s : State) (h : run_ok s) :
    run_ok (init_fallback_loop env ns s) := by
  induction ns generalizing s with
  | nil => exact h
  | cons a rest ih =>
    rw [init_fallback_loop]
    exact ih _ (run_ok_append_resolver _ _ _ _ _ _ _ h (Or.inl rfl))

theorem run_ok_init (env : Env) (dnsproxy : Bool) (s : State) (h : run_ok s) :
    run_ok (__connman_resolver_init env dnsproxy s).2 := by
  unfold __connman_resolver_init
  split_ifs
  · exact h
  · exact run_ok_of_core s _ h rfl rfl (Nat.le_refl _) (Nat.le_refl _)
  · simp only
    split
    · exact run_ok_of_core s _ h rfl rfl (Nat.le_refl _) (Nat.le_refl _)
    · exact run_ok_init_loop _ _ _
        (run_ok_of_core s _ h rfl rfl (Nat.le_refl _) (Nat.le_refl _))

theorem run_ok_cleanup (s : State) (h : run_ok s) : run_ok (__connman_resolver_cleanup s) := by
  unfold __connman_resolver_cleanup
  split_ifs
  · exact run_ok_of_core s _ h rfl rfl (Nat.le_refl _) (Nat.le_refl _)
  · obtain ⟨_, _, t1, t2, _, _⟩ := h
    refine ⟨⟨?_, ?_⟩, ?_, t1, t2, ?_, ?_⟩
    · simp [addr_distinct]
    · intro e he; simp at he
    · intro i d sv; simp
    · intro x hx; simp at hx
    · intro src _ x hx; simp at hx

theorem run_ok_initial : run_ok State.initial := by
  refine ⟨⟨?_, ?_⟩, ?_, ?_, ?_, ?_, ?_⟩
  · simp [State.initial, addr_distinct]
  · intro e he; simp [State.initial] at he
  · intro i d sv; simp [State.initial]
  · simp [State.initial]
  · intro src hsrc; simp [State.initial] at hsrc
  · intro x hx; simp [State.initial] at hx
  · intro src hsrc; simp [State.initial] at hsrc

theorem run_ok_step (env : Env) (s s' : State) (op : Op) (h : run_ok s)
    (hrun : op.run env s = some s') : run_ok s' := by
  cases op with
  | init dnsproxy =>
    simp only [Op.run, Option.some.injEq] at hrun
    rw [← hrun]; exact run_ok_init env dnsproxy s h
  | append i d sv =>
    simp only [Op.run, Option.some.injEq] at hrun
    rw [← hrun]; exact run_ok_append env i d sv s h
  | append_lifetime i d sv lifetime =>
    simp only [Op.run, Option.some.injEq] at hrun
    rw [← hrun]; exact run_ok_append_lifetime env i d sv lifetime s h
  | remove i d sv =>
    simp only [Op.run, Option.some.injEq] at hrun
    rw [← hrun]; exact run_ok_remove env i d sv s h
  | remove_all i =>
    simp only [Op.run, Option.some.injEq] at hrun
    rw [← hrun]; exact run_ok_remove_all env i s h
  | expire src => exact run_ok_dispatch env src s s' h hrun
  | flush =>
    simp only [Op.run, Option.some.injEq] at hrun
    rw [← hrun]
    unfold connman_resolver_flush
    split_ifs
    · exact run_ok_of_core s _ h rfl rfl (Nat.le_refl _) (Nat.le_refl _)
    · exact h
  | redo_servers i =>
    simp only [Op.run, Option.some.injEq] at hrun
    rw [← hrun]
    unfold __connman_resolver_redo_servers
    split_ifs
    · exact h
    · exact h
    · simp only [redo_servers_loop_eq]
      exact run_ok_of_core s _ h rfl rfl (Nat.le_refl _) (Nat.le_refl _)
  | cleanup =>
    simp only [Op.run, Option.some.injEq] at hrun
    rw [← hrun]; exact run_ok_cleanup s h

theorem run_ok_of_reachable (env : Env) (admitted : State → Op → Prop) (s : State)
    (h : reachable env admitted s) : run_ok s := by
  induction h with
  | start => exact run_ok_initial
  | step s s' op _ _ hrun ih => exact run_ok_step env s s' op ih hrun

theorem eq_of_countP_le_one (p : entry_data → Bool) (l : List entry_data)
    (h : l.countP p ≤ 1) (a b : entry_data) (ha : a ∈ l) (hb : b ∈ l)
    (hpa : p a = true) (hpb : p b = true) : a = b := by
  induction l with
  | nil => simp at ha
  | cons x rest ih =>
    by_cases hpx : p x = true
    · have hz : rest.countP p = 0 := by
        rw [List.countP_cons_of_pos _ _ hpx] at h
        omega
      rw [List.countP_eq_zero] at hz
      rcases List.mem_cons.mp ha with ha | ha
      · rcases List.mem_cons.mp hb with hb | hb
        · rw [ha, hb]
        · exact absurd hpb (hz b hb)
      · exact absurd hpa (hz a ha)
    · rw [List.countP_cons_of_neg _ _ hpx] at h
      rcases List.mem_cons.mp ha with ha | ha
      · rw [ha] at hpa; exact absurd hpa hpx
      · rcases List.mem_cons.mp hb with hb | hb
        · rw [hb] at hpb; exact absurd hpb hpx
        · exact ih h ha hb

/-- C27: in every state reached from the program start by any sequence of
requests (every public operation and every timer dispatch, in any order and
with any arguments), the store holds at most one expiring entry for any
triple (interface, domain, server); hence the entry the loop of
`connman_resolver_append_lifetime` stops at is the only expiring entry of its
triple: every expiring entry of the triple in the store is that entry. -/
theorem expiring_unique_in_reachable (env : Env) (s : State)
    (h : reachable env any_request s) :
    (∀ i d sv : Option String,
      s.entry_list.countP (fun e => same_expiring i d sv e) ≤ 1) ∧
    (∀ (i d sv : Option String) (e : entry_data),
      s.entry_list.find? (append_lifetime_match i d sv) = some e →
        ∀ x ∈ s.entry_list, same_expiring i d sv x → x = e) := by
  have hu := (run_ok_of_reachable env any_request s h).2.1
  refine ⟨hu, ?_⟩
  intro i d sv e hfind x hx hsame
  have he : e ∈ s.entry_list := List.mem_of_find?_eq_some hfind
  have hpe : same_expiring i d sv e :=
    (append_lifetime_match_iff i d sv e).mp (List.find?_some hfind)
  exact eq_of_countP_le_one (fun e => decide (same_expiring i d sv e)) s.entry_list
    (hu i d sv) x e hx he (by simpa using hsame) (by simpa using hpe)

/-- C27 at the sample state, which three requests reach: the loop of
appendWithLifetime for (eth0, -, 8.8.8.8) stops at the expiring sample entry,
and that is the only expiring entry of the triple. -/
theorem expiring_unique_in_reachable_witness :
    reachable sample_env any_request sample_state ∧
    sample_state.entry_list.find? (append_lifetime_match (some "eth0") none (some "8.8.8.8")) =
      some sample_expiring ∧
    ((∀ i d sv : Option String,
      sample_state.entry_list.countP (fun e => same_expiring i d sv e) ≤ 1) ∧
    (∀ (i d sv : Option String) (e : entry_data),
      sample_state.entry_list.find? (append_lifetime_match i d sv) = some e →
        ∀ x ∈ sample_state.entry_list, same_expiring i d sv x → x = e)) :=
  ⟨sample_state_reachable_by any_request (fun _ _ _ _ => trivial)
      (fun _ _ _ _ _ _ => trivial),
    by decide,
    expiring_unique_in_reachable sample_env sample_state
      (sample_state_reachable_by any_request (fun _ _ _ _ => trivial)
        (fun _ _ _ _ _ _ => trivial))⟩

/-! ## Timers and the lifetime an entry was created with -/

theorem store_shape_of_subset (armed : Prop) (s s' : State)
    (ha : s.alloc_count ≤ s'.alloc_count)
    (h : ∀ x' ∈ s'.entry_list, x' ∈ s.entry_list) : store_shape armed s s' :=
  ⟨ha, fun x' hx' => Or.inl ⟨x', h x' hx', rfl, Iff.rfl⟩⟩

theorem store_shape_trans (armed : Prop) (s s1 s2 : State) (h1 : store_shape armed s s1)
    (h2 : store_shape armed s1 s2) : store_shape armed s s2 := by
  refine ⟨Nat.le_trans h1.1 h2.1, fun x2 hx2 => ?_⟩
  rcases h2.2 x2 hx2 with ⟨x1, hx1, ha1, ht1⟩ | ⟨hnew, ht⟩
  · rcases h1.2 x1 hx1 with ⟨x, hx, ha, ht⟩ | ⟨hnew, ht⟩
    · exact Or.inl ⟨x, hx, ha.trans ha1, ht1.trans ht⟩
    · exact Or.inr ⟨by rw [← ha1]; exact hnew, ht1.trans ht⟩
  · exact Or.inr ⟨Nat.le_trans h1.1 hnew, ht⟩

theorem store_shape_congr (a b : Prop) (s s' : State) (hab : a ↔ b)
    (h : store_shape a s s') : store_shape b s s' := by
  refine ⟨h.1, fun x' hx' => ?_⟩
  rcases h.2 x' hx' with hold | ⟨hnew, ht⟩
  · exact Or.inl hold
  · exact Or.inr ⟨hnew, ht.trans hab⟩

theorem store_shape_append_resolver (env : Env) (i d sv : Option String)
    (lifetime flags : Nat) (s : State) :
    store_shape (lifetime ≠ 0) s (append_resolver env i d sv lifetime flags s).2 := by
  rcases append_resolver_cases env i d sv lifetime flags s with hc | hc
  · exact store_shape_of_subset _ _ _ hc.2 (fun x hx => by rw [hc.1] at hx; exact hx)
  · refine ⟨Nat.le_of_lt hc.2, fun x' hx' => ?_⟩
    rw [hc.1] at hx'
    rcases List.mem_append.mp hx' with hx' | hx'
    · exact Or.inl ⟨x', hx', rfl, Iff.rfl⟩
    · right
      rw [List.mem_singleton.mp hx']
      refine ⟨Nat.le_refl _, ?_⟩
      by_cases hl : lifetime = 0 <;> simp [hl]

theorem store_shape_remove_entries (armed : Prop) (env : Env) (ms : List entry_data)
    (s : State) : store_shape armed s (remove_entries env ms s) :=
  store_shape_of_subset _ _ _ (Nat.le_of_eq (remove_entries_alloc_count env ms s).symm)
    (fun x hx => by
      rw [remove_entries_entry_list] at hx
      exact (foldl_remove_sublist ms s.entry_list).subset hx)

theorem store_shape_expire (armed : Prop) (env : Env) (e : entry_data) (s : State) :
    store_shape armed s (resolver_expire_cb env e s).2 :=
  store_shape_of_subset _ _ _ (Nat.le_of_eq (resolver_expire_cb_alloc_count env e s).symm)
    (fun x hx => by
      rw [resolver_expire_cb_entry_list] at hx
      exact (List.eraseP_sublist _).subset hx)

theorem store_shape_init_loop (env : Env) (ns : List String) (s : State) :
    store_shape False s (init_fallback_loop env ns s) := by
  induction ns generalizing s with
  | nil => exact store_shape_of_subset _ _ _ (Nat.le_refl _) (fun _ h => h)
  | cons a rest ih =>
    rw [init_fallback_loop]
    exact store_shape_trans _ _ _ _
      (store_shape_congr _ _ _ _ (by simp)
        (store_shape_append_resolver env none none (some a) 0 RESOLVER_FLAG_PUBLIC s))
      (ih _)

theorem store_shape_step (env : Env) (s s' : State) (op : Op) (h : run_ok s)
    (hrun : op.run env s = some s') : store_shape op.arms s s' := by
  cases op with
  | init dnsproxy =>
    simp only [Op.run, Option.some.injEq] at hrun
    rw [← hrun]
    simp only [__connman_resolver_init, Op.arms]
    split_ifs
    · exact store_shape_of_subset _ _ _ (Nat.le_refl _) (fun _ h => h)
    · exact store_shape_of_subset _ _ _ (Nat.le_refl _) (fun _ h => h)
    · split
      · exact store_shape_of_subset _ _ _ (Nat.le_refl _) (fun _ h => h)
      · exact store_shape_trans _ s
          { s.emit Event.dnsproxy_init with dnsproxy_enabled := true } _
          (store_shape_of_subset _ _ _ (Nat.le_refl _) (fun _ h => h))
          (store_shape_init_loop _ _ _)
  | append i d sv =>
    simp only [Op.run, Option.some.injEq] at hrun
    rw [← hrun]
    simp only [connman_resolver_append, Op.arms]
    split_ifs
    · exact store_shape_of_subset _ _ _ (Nat.le_refl _) (fun _ h => h)
    · exact store_shape_trans _ _ _ _ (store_shape_remove_entries _ env _ s)
        (store_shape_congr _ _ _ _ (by simp) (store_shape_append_resolver _ _ _ _ _ _ _))
    · exact store_shape_congr _ _ _ _ (by simp) (store_shape_append_resolver _ _ _ _ _ _ _)
  | append_lifetime i d sv lifetime =>
    simp only [Op.run, Option.some.injEq] at hrun
    rw [← hrun]
    simp only [Op.arms]
    unfold connman_resolver_append_lifetime
    by_cases hv : sv = none
    · rw [if_pos hv]
      exact store_shape_of_subset _ _ _ (Nat.le_refl _) (fun _ h => h)
    · rw [if_neg hv]
      cases hfind : s.entry_list.find? (append_lifetime_match i d sv) with
      | none => exact store_shape_append_resolver _ _ _ _ _ _ _
      | some e =>
        have he : e ∈ s.entry_list := List.mem_of_find?_eq_some hfind
        have het : e.timeout ≠ 0 :=
          ((append_lifetime_match_iff i d sv e).mp (List.find?_some hfind)).1
        simp only
        by_cases hl : lifetime = 0
        · rw [if_pos hl]
          simp only
          rw [resolver_expire_cb_source_remove env e s het]
          exact store_shape_expire _ env e s
        · rw [if_neg hl]
          refine ⟨Nat.le_refl _, fun x' hx' => ?_⟩
          left
          have hx'' : x' ∈ s.entry_list.map
              (fun x => if x.addr = e.addr then { x with timeout := s.source_count + 1 }
                else x) := hx'
          obtain ⟨x, hx, hfx⟩ := List.mem_map.mp hx''
          refine ⟨x, hx, ?_, ?_⟩
          · rw [← hfx]; split_ifs <;> rfl
          · rw [← hfx]
            by_cases hxa : x.addr = e.addr
            · rw [if_pos hxa, List.inj_on_of_nodup_map h.1.1 hx he hxa]
              simp [het]
            · rw [if_neg hxa]
  | remove i d sv =>
    simp only [Op.run, Option.some.injEq] at hrun
    rw [← hrun]
    simp only [connman_resolver_remove]
    split_ifs
    · exact store_shape_of_subset _ _ _ (Nat.le_refl _) (fun _ h => h)
    · exact store_shape_of_subset _ _ _ (Nat.le_refl _) (fun _ h => h)
    · exact store_shape_remove_entries _ env _ s
  | remove_all i =>
    simp only [Op.run, Option.some.injEq] at hrun
    rw [← hrun]
    simp only [connman_resolver_remove_all]
    split_ifs
    · exact store_shape_of_subset _ _ _ (Nat.le_refl _) (fun _ h => h)
    · exact store_shape_of_subset _ _ _ (Nat.le_refl _) (fun _ h => h)
    · exact store_shape_remove_entries _ env _ s
  | expire src =>
    obtain ⟨x, _, _, _, _, rfl⟩ := dispatch_in_run env src s s' h hrun
    exact store_shape_expire _ env x s
  | flush =>
    simp only [Op.run, Option.some.injEq] at hrun
    rw [← hrun]
    unfold connman_resolver_flush
    split_ifs <;> exact store_shape_of_subset _ _ _ (Nat.le_refl _) (fun _ h => h)
  | redo_servers i =>
    simp only [Op.run, Option.some.injEq] at hrun
    rw [← hrun]
    unfold __connman_resolver_redo_servers
    split_ifs
    · exact store_shape_of_subset _ _ _ (Nat.le_refl _) (fun _ h => h)
    · exact store_shape_of_subset _ _ _ (Nat.le_refl _) (fun _ h => h)
    · simp only [redo_servers_loop_eq]
      exact store_shape_of_subset _ _ _ (Nat.le_refl _) (fun _ h => h)
  | cleanup =>
    simp only [Op.run, Option.some.injEq] at hrun
    rw [← hrun]
    unfold __connman_resolver_cleanup
    split_ifs
    · exact store_shape_of_subset _ _ _ (Nat.le_refl _) (fun _ h => h)
    · exact store_shape_of_subset _ _ _ (Nat.le_refl _) (fun x hx => by simp at hx)

theorem eq_singleton_of_ids (l : List timeout_source) (c : Nat)
    (hn : (l.map (fun src => src.id)).Nodup) (hc : ∀ m ∈ l, m.id = c)
    (a : timeout_source) (ha : a ∈ l) : l = [a] := by
  cases l with
  | nil => simp at ha
  | cons m rest =>
    cases rest with
    | nil => rw [List.mem_singleton.mp ha]
    | cons r rest2 =>
      exfalso
      have h1 := hc m (List.mem_cons_self _ _)
      have h2 := hc r (List.mem_cons_of_mem _ (List.mem_cons_self _ _))
      simp only [List.map_cons, List.nodup_cons, List.mem_cons] at hn
      exact hn.1 (Or.inl (h1.trans h2.symm))

theorem timers_live_of_core (s s' : State) (h : timers_live s)
    (hs : ∀ src ∈ s'.sources, src ∈ s.sources)
    (hl : ∀ e ∈ s.entry_list, ∃ e' ∈ s'.entry_list, e'.addr = e.addr) : timers_live s' := by
  intro src hsrc
  obtain ⟨e, he, hea⟩ := h src (hs src hsrc)
  obtain ⟨e', he', hea'⟩ := hl e he
  exact ⟨e', he', hea'.trans hea⟩

theorem remove_one_sources (env : Env) (m : entry_data) (s : State) :
    (remove_entries env [m] s).sources =
      if m.timeout ≠ 0 then s.sources.filter (fun src => src.id != m.timeout)
      else s.sources := by
  simp only [remove_entries]
  split_ifs <;> simp [g_source_remove, (backend_remove_sources env _ _ _ _).1]

theorem timers_live_remove_one (env : Env) (m : entry_data) (s : State) (hr : run_ok s)
    (hl : timers_live s) (hm : m ∈ s.entry_list) :
    timers_live (remove_entries env [m] s) := by
  intro src hsrc
  rw [remove_one_sources] at hsrc
  have hold : src ∈ s.sources := by
    split_ifs at hsrc
    · exact (List.mem_filter.mp hsrc).1
    · exact hsrc
  obtain ⟨e, he, hea⟩ := hl src hold
  have hne : e.addr ≠ m.addr := by
    intro heq
    have hid : src.id = m.timeout := hr.2.2.2.2.2 src hold m hm (hea.symm.trans heq)
    have hnz : src.id ≠ 0 := (hr.2.2.2.1 src hold).1
    split_ifs at hsrc with hmt
    · have := (List.mem_filter.mp hsrc).2
      simp [hid] at this
    · exact hnz (hid.trans (not_not.mp hmt))
  refine ⟨e, ?_, hea⟩
  rw [remove_entries_entry_list]
  exact mem_remove_of_addr_ne s.entry_list m e he hne

theorem timers_live_remove_entries (env : Env) (ms : List entry_data) (s : State)
    (hr : run_ok s) (hl : timers_live s) (hnodup : ms.Nodup)
    (hmem : ∀ m ∈ ms, m ∈ s.entry_list) : timers_live (remove_entries env ms s) := by
  induction ms generalizing s with
  | nil => exact hl
  | cons m ms ih =>
    have hcons : remove_entries env (m :: ms) s =
        remove_entries env ms (remove_entries env [m] s) := by
      simp only [remove_entries]
    have hmm : m ∈ s.entry_list := hmem m (List.mem_cons_self _ _)
    have hnd := List.nodup_cons.mp hnodup
    rw [hcons]
    apply ih _ _ _ hnd.2
    · intro r hrm
      have hrl : r ∈ s.entry_list := hmem r (List.mem_cons_of_mem _ hrm)
      have hne : r ≠ m := fun e => hnd.1 (e ▸ hrm)
      rw [remove_entries_entry_list]
      exact mem_remove_of_addr_ne s.entry_list m r hrl
        (addr_ne_of_mem_of_ne _ hr.1.1 r m hrl hmm hne)
    · exact run_ok_remove_entries env [m] s hr (List.nodup_singleton m)
        (fun x hx => by rw [List.mem_singleton.mp hx]; exact hmm)
    · exact timers_live_remove_one env m s hr hl hmm

theorem timers_live_append_resolver (env : Env) (i d sv : Option String)
    (lifetime flags : Nat) (s : State) (hl : timers_live s) :
    timers_live (append_resolver env i d sv lifetime flags s).2 := by
  by_cases hok : ¬ (sv = none ∧ d = none) ∧ env.alloc_ok s.alloc_count = true
  · rw [append_resolver_ok_eq env i d sv lifetime flags s hok.1 hok.2]
    intro src hsrc
    rw [(backend_append_sources env i d sv _).1] at hsrc
    rw [backend_append_entry_list]
    by_cases hl0 : lifetime = 0
    · have hsrc' : src ∈ s.sources := by simpa [linked_state, hl0] using hsrc
      obtain ⟨e, he, hea⟩ := hl src hsrc'
      exact ⟨e, by simp [linked_state, he], hea⟩
    · simp only [linked_state, hl0, if_false, List.mem_append, List.mem_singleton] at hsrc
      rcases hsrc with hsrc | hsrc
      · obtain ⟨e, he, hea⟩ := hl src hsrc
        exact ⟨e, by simp [linked_state, he], hea⟩
      · refine ⟨⟨s.alloc_count, i, d, sv, flags, s.source_count + 1⟩, ?_, ?_⟩
        · simp [linked_state, hl0]
        · rw [hsrc]
  · have hrej : (sv = none ∧ d = none) ∨ env.alloc_ok s.alloc_count = false := by
      by_cases hv : sv = none ∧ d = none
      · exact Or.inl hv
      · right
        have := fun h => hok ⟨hv, h⟩
        simpa using this
    rcases append_resolver_rejected env i d sv lifetime flags s hrej with h | h <;> rw [h]
    · exact hl
    · exact hl

theorem timers_live_expire (env : Env) (e : entry_data) (s : State) (hr : run_ok s)
    (hl : timers_live s) (he : e ∈ s.entry_list) :
    timers_live (resolver_expire_cb env e s).2 := by
  simp only [resolver_expire_cb]
  apply timers_live_remove_entries env [e] _ _ _ (List.nodup_singleton e)
  · intro m hmm
    rw [notify_service_entry_list, List.mem_singleton.mp hmm]; exact he
  · exact run_ok_of_core s _ hr (notify_service_entry_list _ _ _ _)
      (notify_service_sources _ _ _ _).1
      (Nat.le_of_eq (notify_service_sources _ _ _ _).2.symm)
      (Nat.le_of_eq (notify_service_alloc_count _ _ _ _).symm)
  · apply timers_live_of_core s _ hl
    · intro src hsrc
      rw [(notify_service_sources _ _ _ _).1] at hsrc
      exact hsrc
    · intro x hx
      exact ⟨x, by rw [notify_service_entry_list]; exact hx, rfl⟩

theorem timers_live_init_loop (env : Env) (ns : List String) (s : State)
    (hl : timers_live s) : timers_live (init_fallback_loop env ns s) := by
  induction ns generalizing s with
  | nil => exact hl
  | cons a rest ih =>
    rw [init_fallback_loop]
    exact ih _ (timers_live_append_resolver _ _ _ _ _ _ _ hl)

theorem timers_live_step (env : Env) (s s' : State) (op : Op) (hr : run_ok s)
    (hl : timers_live s) (hadm : no_orphaning s op) (hrun : op.run env s = some s') :
    timers_live s' := by
  cases op with
  | init dnsproxy =>
    simp only [Op.run, Option.some.injEq] at hrun
    rw [← hrun]
    unfold __connman_resolver_init
    split_ifs
    · exact hl
    · exact hl
    · simp only
      split
      · exact hl
      · exact timers_live_init_loop _ _ _ hl
  | append i d sv =>
    simp only [Op.run, Option.some.injEq] at hrun
    rw [← hrun]
    simp only [connman_resolver_append]
    split_ifs
    · exact hl
    · exact timers_live_append_resolver _ _ _ _ _ _ _
        (timers_live_remove_entries env _ s hr hl
          ((nodup_of_addr_distinct _ hr.1.1).filter _)
          (fun m hmm => (List.mem_filter.mp hmm).1))
    · exact timers_live_append_resolver _ _ _ _ _ _ _ hl
  | append_lifetime i d sv lifetime =>
    simp only [Op.run, Option.some.injEq] at hrun
    rw [← hrun]
    unfold connman_resolver_append_lifetime
    by_cases hv : sv = none
    · rw [if_pos hv]; exact hl
    · rw [if_neg hv]
      cases hfind : s.entry_list.find? (append_lifetime_match i d sv) with
      | none => exact timers_live_append_resolver _ _ _ _ _ _ _ hl
      | some e =>
        have he : e ∈ s.entry_list := List.mem_of_find?_eq_some hfind
        have het : e.timeout ≠ 0 :=
          ((append_lifetime_match_iff i d sv e).mp (List.find?_some hfind)).1
        simp only
        by_cases hl0 : lifetime = 0
        · rw [if_pos hl0]
          simp only
          rw [resolver_expire_cb_source_remove env e s het]
          exact timers_live_expire env e s hr hl he
        · rw [if_neg hl0]
          intro src hsrc
          have hsrc' : src ∈ s.sources.filter (fun x => x.id != e.timeout) ++
              [⟨s.source_count + 1, lifetime, e.addr⟩] := hsrc
          have hmap : ∀ x ∈ s.entry_list, ∃ x' ∈ (set_timeout
              (g_timeout_add_seconds (g_source_remove s e.timeout) lifetime e.addr).2 e
              (g_timeout_add_seconds (g_source_remove s e.timeout) lifetime
                e.addr).1).entry_list, x'.addr = x.addr := by
            intro x hx
            refine ⟨_, List.mem_map.mpr ⟨x, hx, rfl⟩, ?_⟩
            split_ifs <;> rfl
          rcases List.mem_append.mp hsrc' with h1 | h1
          · obtain ⟨x, hx, hxa⟩ := hl src (List.mem_filter.mp h1).1
            obtain ⟨x', hx', hxa'⟩ := hmap x hx
            exact ⟨x', hx', hxa'.trans hxa⟩
          · obtain ⟨x', hx', hxa'⟩ := hmap e he
            refine ⟨x', hx', ?_⟩
            rw [List.mem_singleton.mp h1]
            exact hxa'
  | remove i d sv =>
    simp only [Op.run, Option.some.injEq] at hrun
    rw [← hrun]
    simp only [connman_resolver_remove]
    split_ifs
    · exact hl
    · exact hl
    · exact timers_live_remove_entries env _ s hr hl
        ((nodup_of_addr_distinct _ hr.1.1).filter _) (fun m hmm => (List.mem_filter.mp hmm).1)
  | remove_all i =>
    simp only [Op.run, Option.some.injEq] at hrun
    rw [← hrun]
    simp only [connman_resolver_remove_all]
    split_ifs
    · exact hl
    · exact hl
    · exact timers_live_remove_entries env _ s hr hl
        ((nodup_of_addr_distinct _ hr.1.1).filter _) (fun m hmm => (List.mem_filter.mp hmm).1)
  | expire src =>
    obtain ⟨x, hx, _, _, _, rfl⟩ := dispatch_in_run env src s s' hr hrun
    exact timers_live_expire env x s hr hl hx
  | flush =>
    simp only [Op.run, Option.some.injEq] at hrun
    rw [← hrun]
    unfold connman_resolver_flush
    split_ifs
    · exact hl
    · exact hl
  | redo_servers i =>
    simp only [Op.run, Option.some.injEq] at hrun
    rw [← hrun]
    unfold __connman_resolver_redo_servers
    split_ifs
    · exact hl
    · exact hl
    · simp only [redo_servers_loop_eq]
      exact hl
  | cleanup =>
    simp only [Op.run, Option.some.injEq] at hrun
    rw [← hrun]
    have hp : s.dnsproxy_enabled = true := hadm
    simp only [__connman_resolver_cleanup, hp, if_true]
    exact hl

theorem timers_live_of_reachable (env : Env) (s : State)
    (h : reachable env no_orphaning s) : timers_live s := by
  induction h with
  | start =>
    intro src hsrc
    simp [State.initial] at hsrc
  | step s s' op hs hadm hrun ih =>
    exact timers_live_step env s s' op (run_ok_of_reachable env _ s hs) ih hadm hrun

/-- C24: in every state reached from the program start by any sequence of
requests, an entry of the store with a timer handle has exactly one armed
source of that id, and this source is armed for the entry; and across every
further request, an entry that stays in the store has a handle afterwards iff
it had one before (also when its timer is re-armed), while an entry the
request creates has a handle iff the request is an appendWithLifetime with a
nonzero lifetime: entries created by append, by the fallback list of init or
by appendWithLifetime with lifetime 0 have none.  When moreover the state was
reached without a cleanup under the resolv.conf backend (which frees entries
and leaves their timers armed), every armed source points to an entry of the
store, the only source that points to an entry with a handle is the one its
handle names, and no source points to an entry without handle. -/
theorem timer_iff_created_with_lifetime (env : Env) (s : State)
    (h : reachable env any_request s) :
    (∀ x ∈ s.entry_list, x.timeout ≠ 0 →
      ∃ interval, s.sources.filter (fun src => decide (src.id = x.timeout)) =
        [⟨x.timeout, interval, x.addr⟩]) ∧
    (∀ (op : Op) (s' : State), op.run env s = some s' → ∀ x' ∈ s'.entry_list,
      (∃ x ∈ s.entry_list, x.addr = x'.addr ∧ (x'.timeout ≠ 0 ↔ x.timeout ≠ 0)) ∨
      ((∀ x ∈ s.entry_list, x.addr ≠ x'.addr) ∧ (x'.timeout ≠ 0 ↔ op.arms))) ∧
    (reachable env no_orphaning s →
      timers_live s ∧
      (∀ x ∈ s.entry_list, x.timeout ≠ 0 →
        ∃ interval, s.sources.filter (fun src => decide (src.user_data = x.addr)) =
          [⟨x.timeout, interval, x.addr⟩]) ∧
      (∀ x ∈ s.entry_list, x.timeout = 0 → ∀ src ∈ s.sources, src.user_data ≠ x.addr)) := by
  have hok := run_ok_of_reachable env any_request s h
  obtain ⟨⟨h1, h2⟩, _, t1, t2, t3, t4⟩ := hok
  refine ⟨?_, ?_, fun hsafe => ⟨timers_live_of_reachable env s hsafe, ?_, ?_⟩⟩
  · intro x hx hxt
    obtain ⟨iv, hiv⟩ := t3 x hx hxt
    refine ⟨iv, ?_⟩
    apply eq_singleton_of_ids _ x.timeout
      (List.Nodup.sublist ((List.filter_sublist _).map _) t1)
    · intro m hm
      simpa using (List.mem_filter.mp hm).2
    · exact List.mem_filter.mpr ⟨hiv, by simp⟩
  · intro op s' hrun x' hx'
    rcases (store_shape_step env s s' op (run_ok_of_reachable env any_request s h) hrun).2
      x' hx' with hold | ⟨hnew, ht⟩
    · exact Or.inl hold
    · refine Or.inr ⟨fun x hx hxa => ?_, ht⟩
      have := h2 x hx
      omega
  · intro x hx hxt
    obtain ⟨iv, hiv⟩ := t3 x hx hxt
    refine ⟨iv, ?_⟩
    apply eq_singleton_of_ids _ x.timeout
      (List.Nodup.sublist ((List.filter_sublist _).map _) t1)
    · intro m hm
      have hm' := List.mem_filter.mp hm
      exact t4 m hm'.1 x hx (by simpa using hm'.2)
    · exact List.mem_filter.mpr ⟨hiv, by simp⟩
  · intro x hx hxt src hsrc hux
    have := t4 src hsrc x hx hux
    exact (t2 src hsrc).1 (this.trans hxt)

/-- C24 at the sample state, which three requests reach, none of them a
cleanup. -/
theorem timer_iff_created_with_lifetime_witness :
    reachable sample_env any_request sample_state ∧
    reachable sample_env no_orphaning sample_state ∧
    ((∀ x ∈ sample_state.entry_list, x.timeout ≠ 0 →
      ∃ interval, sample_state.sources.filter (fun src => decide (src.id = x.timeout)) =
        [⟨x.timeout, interval, x.addr⟩]) ∧
    (∀ (op : Op) (s' : State), op.run sample_env sample_state = some s' →
      ∀ x' ∈ s'.entry_list,
        (∃ x ∈ sample_state.entry_list,
          x.addr = x'.addr ∧ (x'.timeout ≠ 0 ↔ x.timeout ≠ 0)) ∨
        ((∀ x ∈ sample_state.entry_list, x.addr ≠ x'.addr) ∧
          (x'.timeout ≠ 0 ↔ op.arms))) ∧
    (reachable sample_env no_orphaning sample_state →
      timers_live sample_state ∧
      (∀ x ∈ sample_state.entry_list, x.timeout ≠ 0 →
        ∃ interval,
          sample_state.sources.filter (fun src => decide (src.user_data = x.addr)) =
            [⟨x.timeout, interval, x.addr⟩]) ∧
      (∀ x ∈ sample_state.entry_list, x.timeout = 0 →
        ∀ src ∈ sample_state.sources, src.user_data ≠ x.addr))) :=
  ⟨sample_state_reachable_by any_request (fun _ _ _ _ => trivial)
      (fun _ _ _ _ _ _ => trivial),
    sample_state_reachable_by no_orphaning (fun _ _ _ _ => trivial)
      (fun _ _ _ _ _ _ => trivial),
    timer_iff_created_with_lifetime sample_env sample_state
      (sample_state_reachable_by any_request (fun _ _ _ _ => trivial)
        (fun _ _ _ _ _ _ => trivial))⟩

/-! ## The file store against the entry store -/

theorem Effect.added_sub (E : Effect)
    (M : Multiset ((Option String × Option String × Option String) × Bool))
    (x : (Option String × Option String × Option String) × Bool) (hx : x ∈ E.added M) :
    x ∈ E.add := by
  unfold Effect.added at hx
  split at hx
  · split_ifs at hx
    · simp at hx
    · exact hx
  · exact hx

theorem Effect.added_congr (E : Effect)
    (M M' : Multiset ((Option String × Option String × Option String) × Bool))
    (h : ∀ k, E.probe = some k → (k ∈ M' ↔ k ∈ M)) : E.added M' = E.added M := by
  unfold Effect.added
  split
  · rename_i k hk
    by_cases hm : k ∈ M
    · rw [if_pos hm, if_pos ((h k hk).mpr hm)]
    · rw [if_neg hm, if_neg (fun h' => hm ((h k hk).mp h'))]
  · rfl

/-- Applying `E` after `F` answers as applying `E` first, and links what `E`
links when applied first, when `F` neither unlinks nor links what `E` looks
for or unlinks. -/
theorem Effect.after (E F : Effect)
    (M : Multiset ((Option String × Option String × Option String) × Bool))
    (hFE : ∀ x ∈ F.add, E.del x = false ∧ E.probe ≠ some x)
    (hpE : ∀ k, E.probe = some k → F.del k = false)
    (hdE : E.rcdel = true → ∀ x ∈ M, E.del x = true → F.del x = false) :
    (E.apply (F.apply M).2).1 = (E.apply M).1 ∧ E.added (F.apply M).2 = E.added M := by
  constructor
  · simp only [Effect.apply]
    by_cases hr : E.rcdel = true
    · have : Multiset.filter (fun x => E.del x = true)
          (Multiset.filter (fun x => F.del x = false) M + F.added M) = 0 ↔
          Multiset.filter (fun x => E.del x = true) M = 0 := by
        simp only [Multiset.filter_eq_nil, Multiset.mem_add, Multiset.mem_filter]
        constructor
        · intro h x hx hdel
          exact h x (Or.inl ⟨hx, hdE hr x hx hdel⟩) hdel
        · intro h x hx hdel
          rcases hx with hx | hx
          · exact h x hx.1 hdel
          · have := (hFE x (F.added_sub M x hx)).1
            rw [hdel] at this
            exact Bool.noConfusion this
      simp only [hr, true_and, this]
    · simp [hr]
  · apply Effect.added_congr
    intro k hk
    simp only [Effect.apply, Multiset.mem_add, Multiset.mem_filter]
    constructor
    · rintro (h | h)
      · exact h.1
      · exact absurd hk (hFE k (F.added_sub M k h)).2
    · intro h
      exact Or.inl ⟨h, hpE k hk⟩

/-- Two effects that stay out of each other's way commute: either order gives
each its return code and the same multiset. -/
theorem Effect.commute (E F : Effect)
    (M : Multiset ((Option String × Option String × Option String) × Bool))
    (hEF : ∀ x ∈ E.add, F.del x = false ∧ F.probe ≠ some x)
    (hFE : ∀ x ∈ F.add, E.del x = false ∧ E.probe ≠ some x)
    (hpE : ∀ k, E.probe = some k → F.del k = false)
    (hpF : ∀ k, F.probe = some k → E.del k = false)
    (hdE : E.rcdel = true → ∀ x ∈ M, E.del x = true → F.del x = false)
    (hdF : F.rcdel = true → ∀ x ∈ M, F.del x = true → E.del x = false) :
    (E.apply (F.apply M).2).1 = (E.apply M).1 ∧
    (F.apply (E.apply M).2).1 = (F.apply M).1 ∧
    (F.apply (E.apply M).2).2 = (E.apply (F.apply M).2).2 := by
  obtain ⟨e1, e2⟩ := Effect.after E F M hFE hpE hdE
  obtain ⟨f1, f2⟩ := Effect.after F E M hEF hpF hdF
  refine ⟨e1, f1, ?_⟩
  have hE : Multiset.filter (fun x => F.del x = false) (E.added M) = E.added M :=
    Multiset.filter_eq_self.mpr (fun x hx => (hEF x (E.added_sub M x hx)).1)
  have hF : Multiset.filter (fun x => E.del x = false) (F.added M) = F.added M :=
    Multiset.filter_eq_self.mpr (fun x hx => (hFE x (F.added_sub M x hx)).1)
  have e2' : E.added (Multiset.filter (fun x => F.del x = false) M + F.added M) =
      E.added M := e2
  have f2' : F.added (Multiset.filter (fun x => E.del x = false) M + E.added M) =
      F.added M := f2
  simp only [Effect.apply, Multiset.filter_add, e2', f2', hE, hF, Multiset.filter_filter]
  have : Multiset.filter (fun a => F.del a = false ∧ E.del a = false) M =
      Multiset.filter (fun a => E.del a = false ∧ F.del a = false) M :=
    Multiset.filter_congr (fun x _ => And.comm)
  rw [this]
  abel


theorem live_filter (l : List entry_data) (p : entry_data → Bool)
    (q : (Option String × Option String × Option String) × Bool → Bool)
    (hpq : ∀ e ∈ l, p e = q e.live) :
    (↑((l.filter p).map entry_data.live) :
      Multiset ((Option String × Option String × Option String) × Bool)) =
      Multiset.filter (fun x => q x = true) ↑(l.map entry_data.live) := by
  rw [Multiset.filter_coe, List.filter_map]
  congr 2
  apply List.filter_congr
  intro e he
  simp [hpq e he]

theorem live_filter_not (l : List entry_data) (p : entry_data → Bool)
    (q : (Option String × Option String × Option String) × Bool → Bool)
    (hpq : ∀ e ∈ l, p e = q e.live) :
    (↑((l.filter (fun e => !p e)).map entry_data.live) :
      Multiset ((Option String × Option String × Option String) × Bool)) =
      Multiset.filter (fun x => q x = false) ↑(l.map entry_data.live) := by
  rw [Multiset.filter_coe, List.filter_map]
  congr 2
  apply List.filter_congr
  intro e he
  simp [hpq e he]

theorem idle_apply (rc : Int)
    (M : Multiset ((Option String × Option String × Option String) × Bool)) :
    (Effect.idle rc).apply M = (rc, M) := by
  simp [Effect.apply, Effect.idle, Effect.added, Multiset.filter_eq_self]

/-- Unlinking by a test that looks at triple and timer only, as remove and
removeAll do. -/
theorem remove_by_refines (env : Env) (p : entry_data → Bool)
    (q : (Option String × Option String × Option String) × Bool → Bool)
    (hpq : ∀ e, p e = q e.live) (s : State) (hd : addr_distinct s.entry_list) :
    (if s.entry_list.filter p = [] then (-ENOENT, s)
      else ((0 : Int), remove_entries env (s.entry_list.filter p) s)) =
      ((if Multiset.filter (fun x => q x = true) (live_entries s) = 0 then -ENOENT else 0),
        (if s.entry_list.filter p = [] then s
          else remove_entries env (s.entry_list.filter p) s)) ∧
    live_entries (if s.entry_list.filter p = [] then s
          else remove_entries env (s.entry_list.filter p) s) =
      Multiset.filter (fun x => q x = false) (live_entries s) := by
  have hz : Multiset.filter (fun x => q x = true) (live_entries s) = 0 ↔
      s.entry_list.filter p = [] := by
    unfold live_entries
    rw [← live_filter s.entry_list p q (fun e _ => hpq e)]
    simp
  constructor
  · by_cases hm : s.entry_list.filter p = []
    · simp [hm, hz.mpr hm]
    · have : ¬ Multiset.filter (fun x => q x = true) (live_entries s) = 0 :=
        fun h => hm (hz.mp h)
      simp [hm, this]
  · have hlist : (if s.entry_list.filter p = [] then s
          else remove_entries env (s.entry_list.filter p) s).entry_list =
        s.entry_list.filter (fun e => !p e) := by
      by_cases hm : s.entry_list.filter p = []
      · rw [if_pos hm]
        symm
        rw [List.filter_eq_self]
        intro e he
        have := List.filter_eq_nil_iff.mp hm e he
        simpa using this
      · rw [if_neg hm]
        exact remove_entries_filter env p s hd
    unfold live_entries
    rw [hlist]
    exact live_filter_not s.entry_list p q (fun e _ => hpq e)


theorem live_eq_expiring (i d sv : Option String) (e : entry_data) :
    e.live = ((i, d, sv), true) ↔ same_expiring i d sv e := by
  simp only [entry_data.live, entry_data.triple, same_expiring, Prod.mk.injEq,
    decide_eq_true_eq]
  tauto

theorem live_eq_nonexpiring (i d sv : Option String) (e : entry_data) :
    e.live = ((i, d, sv), false) ↔ same_nonexpiring i d sv e := by
  simp only [entry_data.live, entry_data.triple, same_nonexpiring, Prod.mk.injEq,
    decide_eq_false_iff_not, Decidable.not_not]
  tauto

theorem live_entries_append (s s' : State) (n : entry_data)
    (h : s'.entry_list = s.entry_list ++ [n]) :
    live_entries s' = live_entries s + {n.live} := by
  unfold live_entries
  rw [h, List.map_append, List.map_singleton, ← Multiset.coe_add, Multiset.coe_singleton]

/-- In a state of a run and when no allocation fails, a request answers and
changes the multiset of live entries as its effect says. -/
theorem Request.refines (env : Env) (r : Request) (s : State) (h : run_ok s)
    (halloc : ∀ k, env.alloc_ok k = true) :
    (r.call env s).1 = (r.effect.apply (live_entries s)).1 ∧
    live_entries (r.call env s).2 = (r.effect.apply (live_entries s)).2 := by
  cases r with
  | remove i d sv =>
    simp only [Request.call, Request.effect, connman_resolver_remove]
    by_cases hv : sv = none
    · rw [if_pos hv, if_pos hv, idle_apply]; exact ⟨rfl, rfl⟩
    · rw [if_neg hv, if_neg hv]
      obtain ⟨h1, h2⟩ := remove_by_refines env (remove_match i d sv)
        (fun x => remove_match i d sv (entry_of x.1)) (fun e => rfl) s h.1.1
      rw [h1]
      refine ⟨by simp [Effect.apply], ?_⟩
      simp only [h2, Effect.apply, Effect.added, add_zero]
  | remove_all i =>
    simp only [Request.call, Request.effect, connman_resolver_remove_all]
    by_cases hv : i = none
    · rw [if_pos hv, if_pos hv, idle_apply]; exact ⟨rfl, rfl⟩
    · rw [if_neg hv, if_neg hv]
      obtain ⟨h1, h2⟩ := remove_by_refines env (remove_all_match i)
        (fun x => remove_all_match i (entry_of x.1)) (fun e => rfl) s h.1.1
      rw [h1]
      refine ⟨by simp [Effect.apply], ?_⟩
      simp only [h2, Effect.apply, Effect.added, add_zero]
  | append i d sv =>
    simp only [Request.call, Request.effect]
    by_cases hv : sv = none ∧ d = none
    · rw [if_pos hv, idle_apply]
      simp [connman_resolver_append, hv]
    · rw [if_neg hv, connman_resolver_append_eq env i d sv s hv,
        append_resolver_ok_eq env i d sv 0 0 _ hv (halloc _)]
      refine ⟨by simp [Effect.apply], ?_⟩
      have hl : (backend_append env i d sv (linked_state env i d sv 0 0
          (remove_entries env (s.entry_list.filter (append_match i d sv)) s))).entry_list =
          (remove_entries env (s.entry_list.filter (append_match i d sv)) s).entry_list ++
            [⟨(remove_entries env (s.entry_list.filter (append_match i d sv)) s).alloc_count,
              i, d, sv, 0, 0⟩] := by
        rw [backend_append_entry_list]
        simp [linked_state]
      rw [live_entries_append _ _ _ hl]
      simp only [Effect.apply, Effect.added]
      congr 1
      unfold live_entries
      rw [remove_entries_filter env _ s h.1.1]
      apply live_filter_not
      intro e _
      by_cases hm : same_nonexpiring i d sv e
      · simp [(append_match_iff i d sv e).mpr hm, (live_eq_nonexpiring i d sv e).mpr hm]
      · have h1 : append_match i d sv e = false := by
          simpa using fun h2 => hm ((append_match_iff i d sv e).mp h2)
        have h2 : ¬ e.live = ((i, d, sv), false) :=
          fun h3 => hm ((live_eq_nonexpiring i d sv e).mp h3)
        simp [h1, h2]
  | append_lifetime i d sv lifetime =>
    simp only [Request.call, Request.effect]
    unfold connman_resolver_append_lifetime
    by_cases hv : sv = none
    · rw [if_pos hv, if_pos hv, idle_apply]; exact ⟨rfl, rfl⟩
    · rw [if_neg hv, if_neg hv]
      have hv2 : ¬ (sv = none ∧ d = none) := fun h2 => hv h2.1
      cases hfind : s.entry_list.find? (append_lifetime_match i d sv) with
      | none =>
        have habsent : ((i, d, sv), true) ∉ live_entries s := by
          unfold live_entries
          intro hmem
          obtain ⟨e, he, hle⟩ := List.mem_map.mp (Multiset.mem_coe.mp hmem)
          have := List.find?_eq_none.mp hfind e he
          exact this ((append_lifetime_match_iff i d sv e).mpr
            ((live_eq_expiring i d sv e).mp hle))
        simp only
        rw [append_resolver_ok_eq env i d sv lifetime 0 s hv2 (halloc _)]
        refine ⟨by simp [Effect.apply], ?_⟩
        have hl : (backend_append env i d sv (linked_state env i d sv lifetime 0 s)).entry_list =
            s.entry_list ++
              [⟨s.alloc_count, i, d, sv, 0,
                if lifetime = 0 then 0 else s.source_count + 1⟩] := by
          rw [backend_append_entry_list]
          simp [linked_state]
        rw [live_entries_append _ _ _ hl]
        simp only [Effect.apply, Effect.added, if_neg habsent]
        congr 1
        · symm
          rw [Multiset.filter_eq_self]
          intro x hx
          simp only [decide_eq_false_iff_not, not_and]
          intro _ hx2
          rw [hx2] at hx
          exact habsent hx
        · by_cases hl0 : lifetime = 0 <;> simp [entry_data.live, entry_data.triple, hl0]
      | some e =>
        have he : e ∈ s.entry_list := List.mem_of_find?_eq_some hfind
        have hexp : same_expiring i d sv e :=
          (append_lifetime_match_iff i d sv e).mp (List.find?_some hfind)
        have hpresent : ((i, d, sv), true) ∈ live_entries s := by
          unfold live_entries
          exact Multiset.mem_coe.mpr
            (List.mem_map.mpr ⟨e, he, (live_eq_expiring i d sv e).mpr hexp⟩)
        have huniq : ∀ x ∈ s.entry_list, same_expiring i d sv x → x = e :=
          fun x hx hsx => eq_of_countP_le_one (fun e => decide (same_expiring i d sv e))
            s.entry_list (h.2.1 i d sv) x e hx he (by simpa using hsx) (by simpa using hexp)
        simp only
        by_cases hl0 : lifetime = 0
        · rw [if_pos hl0]
          simp only
          rw [resolver_expire_cb_source_remove env e s hexp.1]
          refine ⟨by simp [Effect.apply], ?_⟩
          simp only [Effect.apply, Effect.added, if_pos hpresent, add_zero]
          unfold live_entries
          rw [resolver_expire_cb_entry_list, g_slist_remove_eq_filter _ _ h.1.1 he]
          have := live_filter_not s.entry_list (fun x => decide (x = e))
            (fun y => decide (lifetime = 0 ∧ y = ((i, d, sv), true)))
            (fun x hx => by
              by_cases hxe : x = e
              · simp [hxe, hl0, (live_eq_expiring i d sv e).mpr hexp]
              · have : ¬ x.live = ((i, d, sv), true) :=
                  fun h3 => hxe (huniq x hx ((live_eq_expiring i d sv x).mp h3))
                simp [hxe, this])
          rw [← this]
          congr 2
          apply List.filter_congr
          intro x _
          simp
        · rw [if_neg hl0]
          refine ⟨by simp [Effect.apply], ?_⟩
          simp only [Effect.apply, Effect.added, if_pos hpresent, add_zero]
          have hnodel : Multiset.filter
              (fun x => decide (lifetime = 0 ∧ x = ((i, d, sv), true)) = false)
              (live_entries s) = live_entries s := by
            rw [Multiset.filter_eq_self]
            intro x _
            simp [hl0]
          rw [hnodel]
          unfold live_entries
          simp only [set_timeout, g_timeout_add_seconds, g_source_remove, List.map_map]
          congr 1
          apply List.map_congr_left
          intro x hx
          simp only [Function.comp]
          by_cases hxa : x.addr = e.addr
          · rw [if_pos hxa]
            have hxe : x = e := List.inj_on_of_nodup_map h.1.1 hx he hxa
            rw [hxe]
            simp [entry_data.live, entry_data.triple, hexp.1]
          · rw [if_neg hxa]

theorem request_keeps_run_ok (env : Env) (r : Request) (s : State) (h : run_ok s) :
    run_ok (r.call env s).2 := by
  cases r with
  | append i d sv => exact run_ok_append env i d sv s h
  | append_lifetime i d sv lifetime => exact run_ok_append_lifetime env i d sv lifetime s h
  | remove i d sv => exact run_ok_remove env i d sv s h
  | remove_all i => exact run_ok_remove_all env i s h


theorem effect_touches (r : Request) (x : (Option String × Option String × Option String) × Bool)
    (h : r.effect.del x = true ∨ x ∈ r.effect.add ∨ r.effect.probe = some x) :
    r.touches x := by
  cases r with
  | append i d sv =>
    simp only [Request.effect, Request.touches] at h ⊢
    split_ifs at h
    · simp [Effect.idle] at h
    · rcases h with h | h | h
      · have : x = ((i, d, sv), false) := by simpa using h
        rw [this]
      · have : x = ((i, d, sv), false) := by simpa using h
        rw [this]
      · simp at h
  | append_lifetime i d sv lifetime =>
    simp only [Request.effect, Request.touches] at h ⊢
    split_ifs at h
    · simp [Effect.idle] at h
    · rcases h with h | h | h
      · have : lifetime = 0 ∧ x = ((i, d, sv), true) := by simpa using h
        rw [this.2]
      · have : x = ((i, d, sv), decide (lifetime ≠ 0)) := by simpa using h
        rw [this]
      · have : ((i, d, sv), true) = x := by simpa using h
        rw [← this]
  | remove i d sv =>
    simp only [Request.effect, Request.touches] at h ⊢
    split_ifs at h
    · simp [Effect.idle] at h
    · rcases h with h | h | h
      · exact h
      · simp at h
      · simp at h
  | remove_all i =>
    simp only [Request.effect, Request.touches] at h ⊢
    split_ifs at h
    · simp [Effect.idle] at h
    · rcases h with h | h | h
      · exact h
      · simp at h
      · simp at h

theorem remove_effect (r : Request) (h : r.is_remove) :
    r.effect.add = 0 ∧ r.effect.probe = none := by
  cases r with
  | append i d sv => exact absurd h (by simp [Request.is_remove])
  | append_lifetime i d sv lifetime => exact absurd h (by simp [Request.is_remove])
  | remove i d sv => simp only [Request.effect]; split_ifs <;> exact ⟨rfl, rfl⟩
  | remove_all i => simp only [Request.effect]; split_ifs <;> exact ⟨rfl, rfl⟩

theorem remove_effect_del (r : Request) (h : r.is_remove) (e : entry_data)
    (hdel : r.effect.del e.live = true) : r.matches_entry e = true := by
  cases r with
  | append i d sv => exact absurd h (by simp [Request.is_remove])
  | append_lifetime i d sv lifetime => exact absurd h (by simp [Request.is_remove])
  | remove i d sv =>
    simp only [Request.effect] at hdel
    split_ifs at hdel
    · simp [Effect.idle] at hdel
    · exact hdel
  | remove_all i =>
    simp only [Request.effect] at hdel
    split_ifs at hdel
    · simp [Effect.idle] at hdel
    · exact hdel

theorem touch_disjoint (a b : Request) (hnc : spec_non_conflicting a b)
    (x : (Option String × Option String × Option String) × Bool)
    (ha : a.touches x) (hb : b.touches x) : a.is_remove ∧ b.is_remove := by
  obtain ⟨h1, h2, h3⟩ := hnc
  cases a <;> cases b <;>
    simp only [Request.touches, Request.is_remove, Request.triple, Request.matches_entry,
      and_self, and_true, true_and, ne_eq] at * <;>
    first
    | exact h1 (ha.symm.trans hb)
    | (rw [← ha] at h3; rw [h3] at hb; exact Bool.noConfusion hb)
    | (rw [← hb] at h2; rw [h2] at ha; exact Bool.noConfusion ha)

/-- C26, as the code has it: in a state that satisfies the invariant of runs
(every reachable state does) and when no allocation fails, two requests drawn
from append, appendWithLifetime, remove and removeAll whose triples differ,
neither of which matches the triple of the other with its remove test, and
which do not both match an entry of the store, answer the same return codes
in either order and leave the same multiset of live entries (triple plus
expiring-or-not). -/
theorem nonconflicting_requests_commute (env : Env) (a b : Request) (s : State)
    (hrun : run_ok s) (halloc : ∀ k, env.alloc_ok k = true)
    (hnc : spec_non_conflicting a b)
    (hsplit : ∀ e ∈ s.entry_list,
      ¬ (a.matches_entry e = true ∧ b.matches_entry e = true)) :
    (a.call env (b.call env s).2).1 = (a.call env s).1 ∧
    (b.call env (a.call env s).2).1 = (b.call env s).1 ∧
    live_entries (b.call env (a.call env s).2).2 =
      live_entries (a.call env (b.call env s).2).2 := by
  have hnc' : spec_non_conflicting b a := ⟨fun h => hnc.1 h.symm, hnc.2.2, hnc.2.1⟩
  have hsplit' : ∀ e ∈ s.entry_list,
      ¬ (b.matches_entry e = true ∧ a.matches_entry e = true) :=
    fun e he h => hsplit e he ⟨h.2, h.1⟩
  have key : ∀ (p q : Request), spec_non_conflicting p q →
      (∀ e ∈ s.entry_list, ¬ (p.matches_entry e = true ∧ q.matches_entry e = true)) →
      (∀ x ∈ p.effect.add, q.effect.del x = false ∧ q.effect.probe ≠ some x) ∧
      (∀ k, p.effect.probe = some k → q.effect.del k = false) ∧
      (p.effect.rcdel = true → ∀ x ∈ live_entries s, p.effect.del x = true →
        q.effect.del x = false) := by
    intro p q hpq hsp
    refine ⟨fun x hx => ⟨?_, ?_⟩, fun k hk => ?_, fun _ x hx hdel => ?_⟩
    · by_contra hq
      have hq' : q.effect.del x = true := by simpa using hq
      have hr := touch_disjoint p q hpq x (effect_touches p x (Or.inr (Or.inl hx)))
        (effect_touches q x (Or.inl hq'))
      rw [(remove_effect p hr.1).1] at hx
      simp at hx
    · intro hq
      have hr := touch_disjoint p q hpq x (effect_touches p x (Or.inr (Or.inl hx)))
        (effect_touches q x (Or.inr (Or.inr hq)))
      rw [(remove_effect q hr.2).2] at hq
      exact Option.noConfusion hq
    · by_contra hq
      have hq' : q.effect.del k = true := by simpa using hq
      have hr := touch_disjoint p q hpq k (effect_touches p k (Or.inr (Or.inr hk)))
        (effect_touches q k (Or.inl hq'))
      rw [(remove_effect p hr.1).2] at hk
      exact Option.noConfusion hk
    · by_contra hq
      have hq' : q.effect.del x = true := by simpa using hq
      have hr := touch_disjoint p q hpq x (effect_touches p x (Or.inl hdel))
        (effect_touches q x (Or.inl hq'))
      obtain ⟨e, he, rfl⟩ := List.mem_map.mp (Multiset.mem_coe.mp hx)
      exact hsp e he ⟨remove_effect_del p hr.1 e hdel, remove_effect_del q hr.2 e hq'⟩
  obtain ⟨k1, k2, k3⟩ := key a b hnc hsplit
  obtain ⟨k4, k5, k6⟩ := key b a hnc' hsplit'
  obtain ⟨c1, c2, c3⟩ := Effect.commute a.effect b.effect (live_entries s) k1 k4 k2 k5 k3 k6
  have ra := Request.refines env a s hrun halloc
  have rb := Request.refines env b s hrun halloc
  have ra' := Request.refines env a (b.call env s).2 (request_keeps_run_ok env b s hrun) halloc
  have rb' := Request.refines env b (a.call env s).2 (request_keeps_run_ok env a s hrun) halloc
  refine ⟨?_, ?_, ?_⟩
  · rw [ra'.1, rb.2, c1, ← ra.1]
  · rw [rb'.1, ra.2, c2, ← rb.1]
  · rw [rb'.2, ra.2, c3, ra'.2, rb.2]

/-- C26 on the sample state: appending (eth0, -, 9.9.9.9) and removing the
server 1.1.1.1 commute. -/
theorem nonconflicting_requests_commute_witness :
    run_ok sample_state ∧ (∀ k, sample_env.alloc_ok k = true) ∧
    spec_non_conflicting (Request.append (some "eth0") none (some "9.9.9.9"))
      (Request.remove none none (some "1.1.1.1")) ∧
    ((Request.append (some "eth0") none (some "9.9.9.9")).call sample_env
        ((Request.remove none none (some "1.1.1.1")).call sample_env sample_state).2).1 =
      ((Request.append (some "eth0") none (some "9.9.9.9")).call sample_env sample_state).1 ∧
    ((Request.remove none none (some "1.1.1.1")).call sample_env
        ((Request.append (some "eth0") none (some "9.9.9.9")).call sample_env
          sample_state).2).1 =
      ((Request.remove none none (some "1.1.1.1")).call sample_env sample_state).1 ∧
    live_entries ((Request.remove none none (some "1.1.1.1")).call sample_env
        ((Request.append (some "eth0") none (some "9.9.9.9")).call sample_env
          sample_state).2).2 =
      live_entries ((Request.append (some "eth0") none (some "9.9.9.9")).call sample_env
        ((Request.remove none none (some "1.1.1.1")).call sample_env sample_state).2).2 :=
  ⟨run_ok_of_reachable sample_env any_request sample_state
      (sample_state_reachable_by any_request (fun _ _ _ _ => trivial)
        (fun _ _ _ _ _ _ => trivial)),
    fun _ => rfl, by decide,
    nonconflicting_requests_commute sample_env
      (Request.append (some "eth0") none (some "9.9.9.9"))
      (Request.remove none none (some "1.1.1.1")) sample_state
      (run_ok_of_reachable sample_env any_request sample_state
        (sample_state_reachable_by any_request (fun _ _ _ _ => trivial)
          (fun _ _ _ _ _ _ => trivial)))
      (fun _ => rfl) (by decide) (by decide)⟩

/-- C26 as stated fails.  In the sample state the requests
remove(wlan0, -, 1.1.1.1) and remove(-, lan, 1.1.1.1) name different triples
and neither matches the triple of the other, yet both match the entry
(wlan0, lan, 1.1.1.1): whichever runs first answers 0 and unlinks it, and the
other then answers `-ENOENT`, while it answers 0 when it runs first.  And when
an allocation fails, the return codes of two appends of different triples
depend on the order: the append that runs first is the one that fails. -/
theorem overlapping_removes_order_dependent :
    (reachable sample_env any_request sample_state ∧
      spec_non_conflicting (Request.remove (some "wlan0") none (some "1.1.1.1"))
        (Request.remove none (some "lan") (some "1.1.1.1")) ∧
      ((Request.remove (some "wlan0") none (some "1.1.1.1")).call sample_env
        sample_state).1 = 0 ∧
      ((Request.remove (some "wlan0") none (some "1.1.1.1")).call sample_env
        ((Request.remove none (some "lan") (some "1.1.1.1")).call sample_env
          sample_state).2).1 = -ENOENT ∧
      ((Request.remove none (some "lan") (some "1.1.1.1")).call sample_env
        sample_state).1 = 0 ∧
      ((Request.remove none (some "lan") (some "1.1.1.1")).call sample_env
        ((Request.remove (some "wlan0") none (some "1.1.1.1")).call sample_env
          sample_state).2).1 = -ENOENT) ∧
    (spec_non_conflicting (Request.append (some "eth0") none (some "8.8.8.8"))
        (Request.append (some "wlan0") none (some "1.1.1.1")) ∧
      ((Request.append (some "eth0") none (some "8.8.8.8")).call scarce_env
        State.initial).1 = -ENOMEM ∧
      ((Request.append (some "eth0") none (some "8.8.8.8")).call scarce_env
        ((Request.append (some "wlan0") none (some "1.1.1.1")).call scarce_env
          State.initial).2).1 = 0) :=
  ⟨⟨sample_state_reachable_by any_request (fun _ _ _ _ => trivial)
      (fun _ _ _ _ _ _ => trivial), by decide, by decide, by decide, by decide, by decide⟩,
    by decide, by decide, by decide⟩


end Connman
